import Mathlib

/-!
# Ray tracer: intersection tests, illumination, shading and the recursive driver

A shallow embedding of `Plane.cpp`, `Triangle.cpp`, `Illuminator.cpp` and `Tracer.cpp`.

Conventions of the embedding.

* A C++ `float` is an exact rational number: rounding, infinities and NaN are not modelled.
  The literals `1e-6f`, `0.001f`, `0.01f` are the rationals `1/1000000`, `1/1000`, `1/100`, and
  `std::numeric_limits<float>::max()` is the rational `FLT_MAX = 2^128 - 2^104`.
* A division whose divisor is zero takes Lean's value `x / 0 = 0`.  The intersection tests
  only divide behind their `1e-6` guards.
* Square root, inverse square root and `std::pow` have no rational model; together with the
  collaborators whose sources are outside the four files (4x4 matrix inverse, `Ray::ApplyTransform`,
  the default `HitRecord`) they are fields of `Glm`, over which every definition is parametric.
* Out-parameters (`HitRecord& record`) become an extra component of the result.
* A thrown `std::runtime_error` is the `Except.error` result.
-/

namespace GLOO

/-! ## glm vectors and matrices -/

/-- The type `glm::vec3`. -/
@[ext] structure Vec3 where
  x : ℚ
  y : ℚ
  z : ℚ
  deriving DecidableEq, Repr

/-- The type `glm::vec4`. -/
@[ext] structure Vec4 where
  x : ℚ
  y : ℚ
  z : ℚ
  w : ℚ
  deriving DecidableEq, Repr

/-- The type `glm::mat3`, stored by columns as in glm: `m[c]` is column `c`. -/
@[ext] structure Mat3 where
  c0 : Vec3
  c1 : Vec3
  c2 : Vec3
  deriving DecidableEq, Repr

/-- The type `glm::mat4`, stored by columns. -/
@[ext] structure Mat4 where
  c0 : Vec4
  c1 : Vec4
  c2 : Vec4
  c3 : Vec4
  deriving DecidableEq, Repr

namespace Vec3

instance : Zero Vec3 := ⟨⟨0, 0, 0⟩⟩
instance : Add Vec3 := ⟨fun a b => ⟨a.x + b.x, a.y + b.y, a.z + b.z⟩⟩
instance : Sub Vec3 := ⟨fun a b => ⟨a.x - b.x, a.y - b.y, a.z - b.z⟩⟩
instance : Neg Vec3 := ⟨fun a => ⟨-a.x, -a.y, -a.z⟩⟩
/-- The product `vec3 * vec3` of glm is component-wise. -/
instance : Mul Vec3 := ⟨fun a b => ⟨a.x * b.x, a.y * b.y, a.z * b.z⟩⟩
/-- The product `float * vec3`. -/
instance : HMul ℚ Vec3 Vec3 := ⟨fun s a => ⟨s * a.x, s * a.y, s * a.z⟩⟩
/-- The product `vec3 * float`. -/
instance : HMul Vec3 ℚ Vec3 := ⟨fun a s => ⟨a.x * s, a.y * s, a.z * s⟩⟩
/-- The quotient `vec3 / float`. -/
instance : HDiv Vec3 ℚ Vec3 := ⟨fun a s => ⟨a.x / s, a.y / s, a.z / s⟩⟩

end Vec3

/-- The function `glm::dot` on `vec3`. -/
def dot (a b : Vec3) : ℚ := a.x * b.x + a.y * b.y + a.z * b.z

/-- The function `glm::reflect(I, N) = I - N * dot(N, I) * 2`. -/
def reflect (i n : Vec3) : Vec3 := i - n * dot n i * (2 : ℚ)

/-- The function `glm::determinant` on `mat3` (`m[c][r]` is column `c`, row `r`). -/
def determinant (m : Mat3) : ℚ :=
  m.c0.x * (m.c1.y * m.c2.z - m.c2.y * m.c1.z)
    - m.c1.x * (m.c0.y * m.c2.z - m.c2.y * m.c0.z)
    + m.c2.x * (m.c0.y * m.c1.z - m.c1.y * m.c0.z)

/-- The function `glm::inverse` on `mat3`: the cofactors times one over the determinant. -/
def inverse (m : Mat3) : Mat3 :=
  let oneOverDeterminant : ℚ := 1 / determinant m
  { c0 := ⟨(m.c1.y * m.c2.z - m.c2.y * m.c1.z) * oneOverDeterminant,
           -(m.c0.y * m.c2.z - m.c2.y * m.c0.z) * oneOverDeterminant,
           (m.c0.y * m.c1.z - m.c1.y * m.c0.z) * oneOverDeterminant⟩
    c1 := ⟨-(m.c1.x * m.c2.z - m.c2.x * m.c1.z) * oneOverDeterminant,
           (m.c0.x * m.c2.z - m.c2.x * m.c0.z) * oneOverDeterminant,
           -(m.c0.x * m.c1.z - m.c1.x * m.c0.z) * oneOverDeterminant⟩
    c2 := ⟨(m.c1.x * m.c2.y - m.c2.x * m.c1.y) * oneOverDeterminant,
           -(m.c0.x * m.c2.y - m.c2.x * m.c0.y) * oneOverDeterminant,
           (m.c0.x * m.c1.y - m.c1.x * m.c0.y) * oneOverDeterminant⟩ }

/-- The function `glm::transpose` on `mat3`. -/
def transpose (m : Mat3) : Mat3 :=
  { c0 := ⟨m.c0.x, m.c1.x, m.c2.x⟩
    c1 := ⟨m.c0.y, m.c1.y, m.c2.y⟩
    c2 := ⟨m.c0.z, m.c1.z, m.c2.z⟩ }

/-- The product `mat3 * vec3`: the combination of the columns with the entries of `v`. -/
def Mat3.mulVec (m : Mat3) (v : Vec3) : Vec3 :=
  ⟨m.c0.x * v.x + m.c1.x * v.y + m.c2.x * v.z,
   m.c0.y * v.x + m.c1.y * v.y + m.c2.y * v.z,
   m.c0.z * v.x + m.c1.z * v.y + m.c2.z * v.z⟩

/-- The product `mat4 * vec4`. -/
def Mat4.mulVec (m : Mat4) (v : Vec4) : Vec4 :=
  ⟨m.c0.x * v.x + m.c1.x * v.y + m.c2.x * v.z + m.c3.x * v.w,
   m.c0.y * v.x + m.c1.y * v.y + m.c2.y * v.z + m.c3.y * v.w,
   m.c0.z * v.x + m.c1.z * v.y + m.c2.z * v.z + m.c3.z * v.w,
   m.c0.w * v.x + m.c1.w * v.y + m.c2.w * v.z + m.c3.w * v.w⟩

/-- The conversion `glm::vec3(vec4)`: drop the last component. -/
def Vec4.xyz (v : Vec4) : Vec3 := ⟨v.x, v.y, v.z⟩

/-- The conversion `glm::vec4(vec3, w)`. -/
def Vec4.ofVec3 (v : Vec3) (w : ℚ) : Vec4 := ⟨v.x, v.y, v.z, w⟩

/-- The conversion `glm::mat3(mat4)`: the upper-left 3x3 block. -/
def Mat4.toMat3 (m : Mat4) : Mat3 := ⟨m.c0.xyz, m.c1.xyz, m.c2.xyz⟩

/-- The constant `std::numeric_limits<float>::max()`. -/
def FLT_MAX : ℚ := 2 ^ 128 - 2 ^ 104

/-! ## Rays and hit records -/

/-- Modelled from the spec: a `HitRecord` (declared in `HitRecord.hpp`, not among the four
files) holds the best intersection time so far and the normal there. -/
structure HitRecord where
  time : ℚ
  normal : Vec3
  deriving DecidableEq, Repr

/-- Modelled from the spec: a `Ray` (declared in `Ray.hpp`, not among the four files) holds an
origin and a direction, stored as its constructor receives them. -/
structure Ray where
  origin : Vec3
  direction : Vec3
  deriving DecidableEq, Repr

/-- Modelled from the spec: `Ray::At` (its source, `Ray.hpp`, is not among the four files) is
the ray equation `origin + t * direction`. -/
def Ray.At (r : Ray) (t : ℚ) : Vec3 := r.origin + t * r.direction

/-- The numeric and library collaborators that the four source files call and that have no
computable rational model or whose source is outside them. -/
structure Glm where
  /-- The function `std::sqrt`, through which `glm::length` is computed. -/
  sqrt : ℚ → ℚ
  /-- The function `glm::inversesqrt`, through which `glm::normalize` is computed. -/
  inversesqrt : ℚ → ℚ
  /-- The function `std::pow`. -/
  pow : ℚ → ℚ → ℚ
  /-- The function `glm::inverse` on `mat4`. -/
  inverse4 : Mat4 → Mat4
  /-- The method `Ray::ApplyTransform`, as a function of the ray and the matrix. -/
  applyTransform : Ray → Mat4 → Ray
  /-- The default-constructed `HitRecord`. -/
  freshRecord : HitRecord

/-- The function `glm::length(v) = sqrt(dot(v, v))`. -/
def length (G : Glm) (v : Vec3) : ℚ := G.sqrt (dot v v)

/-- The function `glm::normalize(v) = v * inversesqrt(dot(v, v))`. -/
def normalize (G : Glm) (v : Vec3) : Vec3 := v * G.inversesqrt (dot v v)

/-! ## Plane.cpp -/

/-- A `Plane`: the stored normal `normal_` and offset `d_`. -/
structure Plane where
  normal_ : Vec3
  d_ : ℚ
  deriving DecidableEq, Repr

/-- The constructor `Plane::Plane`: the normal is normalized, the offset stored as given. -/
def Plane.new (G : Glm) (normal : Vec3) (d : ℚ) : Plane :=
  { normal_ := normalize G normal, d_ := d }

/-- The local `denom` of `Plane::Intersect`. -/
def Plane.denom (p : Plane) (ray : Ray) : ℚ := dot ray.direction p.normal_

/-- The local `t` of `Plane::Intersect`. -/
def Plane.t (p : Plane) (ray : Ray) : ℚ := (p.d_ - dot ray.origin p.normal_) / p.denom ray

/-- The method `Plane::Intersect`: the returned flag and the record after the call. -/
def Plane.Intersect (p : Plane) (ray : Ray) (t_min : ℚ) (record : HitRecord) :
    Bool × HitRecord :=
  let denom := p.denom ray
  if |denom| < 1 / 1000000 then
    (false, record)
  else
    let t := p.t ray
    if t < t_min ∨ t ≥ record.time then
      (false, record)
    else
      (true, { time := t, normal := p.normal_ })

/-! ## Triangle.cpp -/

/-- A `Triangle`: `positions_[0..2]` and `normals_[0..2]`. -/
structure Triangle where
  p0 : Vec3
  p1 : Vec3
  p2 : Vec3
  n0 : Vec3
  n1 : Vec3
  n2 : Vec3
  deriving DecidableEq, Repr

/-- The matrix `A = [-D, e1, e2]` of `Triangle::Intersect`. -/
def Triangle.A (tri : Triangle) (ray : Ray) : Mat3 :=
  { c0 := -ray.direction, c1 := tri.p1 - tri.p0, c2 := tri.p2 - tri.p0 }

/-- The right-hand side `b = ray_origin - v0`. -/
def Triangle.b (tri : Triangle) (ray : Ray) : Vec3 := ray.origin - tri.p0

/-- The local `solution = A_inv * b`, whose entries are `t`, `beta`, `gamma`. -/
def Triangle.solution (tri : Triangle) (ray : Ray) : Vec3 :=
  (inverse (tri.A ray)).mulVec (tri.b ray)

/-- The method `Triangle::Intersect`: the returned flag and the record after the call. -/
def Triangle.Intersect (G : Glm) (tri : Triangle) (ray : Ray) (t_min : ℚ)
    (record : HitRecord) : Bool × HitRecord :=
  let det := determinant (tri.A ray)
  if |det| < 1 / 1000000 then
    (false, record)
  else
    let solution := tri.solution ray
    let t := solution.x
    let beta := solution.y
    let gamma := solution.z
    let alpha := 1 - beta - gamma
    if beta < 0 ∨ gamma < 0 ∨ beta + gamma > 1 then
      (false, record)
    else if t < t_min ∨ t ≥ record.time then
      (false, record)
    else
      let interpolated_normal := alpha * tri.n0 + beta * tri.n1 + gamma * tri.n2
      (true, { time := t, normal := normalize G interpolated_normal })

/-! ## Scene data consumed by the tracer -/

/-- Modelled from the spec: a `Material` (declared outside the four files) holds the ambient,
diffuse and specular colors and the shininess exponent. -/
structure Material where
  ambient : Vec3
  diffuse : Vec3
  specular : Vec3
  shininess : ℚ
  deriving DecidableEq, Repr

/-- Modelled from the spec: the light variants (`LightType` and the light classes are declared
outside the four files) are the closed set Directional, Point, Ambient.  A directional light has
a direction and a color, a point light a color and attenuation coefficients, an ambient light a
color only. -/
inductive Light where
  | Ambient (ambientColor : Vec3)
  | Point (diffuseColor : Vec3) (attenuation : Vec3)
  | Directional (direction : Vec3) (diffuseColor : Vec3)
  deriving DecidableEq, Repr

/-- Modelled from the spec: a `LightComponent` (declared outside the four files) gives the light
and, through its node, the local-to-world matrix. -/
structure LightComponent where
  light : Light
  localToWorld : Mat4
  deriving DecidableEq, Repr

/-- A hittable: one of the two primitives of the source files, or any other implementation of
the virtual `Intersect` (flag and record after the call). -/
inductive Hittable where
  | plane (p : Plane)
  | triangle (tri : Triangle)
  | other (intersect : Ray → ℚ → HitRecord → Bool × HitRecord)

/-- The virtual call `hittable.Intersect(ray, t_min, record)`. -/
def Hittable.Intersect (G : Glm) (h : Hittable) (ray : Ray) (t_min : ℚ) (record : HitRecord) :
    Bool × HitRecord :=
  match h with
  | .plane p => p.Intersect ray t_min record
  | .triangle tri => tri.Intersect G ray t_min record
  | .other f => f ray t_min record

/-- Modelled from the spec: a `TracingComponent` (declared outside the four files) gives its
hittable and, through its node, the local-to-world matrix and the material component, absent
when the node has none. -/
structure TracingComponent where
  hittable : Hittable
  localToWorld : Mat4
  material : Option Material

/-- Modelled from the spec: the fields of `Tracer` (declared in `Tracer.hpp`, not among the four
files) that are read while tracing; `t_min` is `camera_.GetTMin()` and `cube_map_` is the texel
lookup of the environment map, absent when the pointer is null. -/
structure Tracer where
  tracing_components_ : List TracingComponent
  light_components_ : List LightComponent
  t_min : ℚ
  shadows_enabled_ : Bool
  background_color_ : Vec3
  cube_map_ : Option (Vec3 → Vec3)

/-- The constant `kEpsilon = 0.001f`. -/
def kEpsilon : ℚ := 1 / 1000

/-! ## Illuminator.cpp -/

/-- The out-parameters of `GetIllumination`. -/
structure Illumination where
  dir_to_light : Vec3
  intensity : Vec3
  dist_to_light : ℚ
  deriving DecidableEq, Repr

/-- The function `Illuminator::GetIllumination`. -/
def GetIllumination (G : Glm) (light_component : LightComponent) (hit_pos : Vec3) :
    Except String Illumination :=
  match light_component.light with
  | .Directional direction diffuseColor =>
    .ok { dir_to_light := -direction, intensity := diffuseColor, dist_to_light := FLT_MAX }
  | .Point diffuseColor attenuation =>
    let light_pos := light_component.localToWorld.c3.xyz
    let light_vector := light_pos - hit_pos
    let dist_to_light := length G light_vector
    let dir_to_light := normalize G light_vector
    let alpha := attenuation.x
    let falloff := 1 / (alpha * dist_to_light * dist_to_light)
    .ok { dir_to_light := dir_to_light, intensity := diffuseColor * falloff,
          dist_to_light := dist_to_light }
  | .Ambient _ => .error "Unrecognized light type when computing illumination"

/-! ## Tracer.cpp -/

/-- The result of testing one component against a world-space ray, as both the closest-hit loop
and the shadow loop compute it: when the object-space test succeeds, the world-space distance
from the ray origin to the hit point, the object-space normal and the world-space hit point. -/
structure Candidate where
  world_dist : ℚ
  normal : Vec3
  world_hit : Vec3
  deriving DecidableEq, Repr

/-- The body shared by the two loops over `tracing_components_`: transform the ray to object
space, intersect with a fresh record, transform the hit point back to world space. -/
def candidate (G : Glm) (T : Tracer) (ray : Ray) (component : TracingComponent) :
    Option Candidate :=
  let world_to_object := G.inverse4 component.localToWorld
  let object_ray := G.applyTransform ray world_to_object
  let r := component.hittable.Intersect G object_ray T.t_min G.freshRecord
  if r.1 = true then
    let temp_record := r.2
    let object_hit := object_ray.At temp_record.time
    let world_hit_4 := component.localToWorld.mulVec (Vec4.ofVec3 object_hit 1)
    let world_hit := world_hit_4.xyz / world_hit_4.w
    let world_dist := length G (world_hit - ray.origin)
    some { world_dist := world_dist, normal := temp_record.normal, world_hit := world_hit }
  else
    none

/-- The locals of the closest-hit loop of `TraceRay`.  The locals `closest_normal_object`,
`closest_hit_world` and `hit_component` are only read after a hit, so they are kept together in
`best`, which is `none` exactly while `hit_anything` is false. -/
structure Closest where
  closest_t : ℚ
  best : Option (Candidate × TracingComponent)

/-- One iteration of the closest-hit loop. -/
def closestStep (G : Glm) (T : Tracer) (ray : Ray) (s : Closest)
    (component : TracingComponent) : Closest :=
  match candidate G T ray component with
  | some c =>
    if c.world_dist < s.closest_t then
      { closest_t := c.world_dist, best := some (c, component) }
    else s
  | none => s

/-- The closest-hit loop of `TraceRay` over a list of components, from `closest_t = FLT_MAX`
and no hit. -/
def closestHit (G : Glm) (T : Tracer) (ray : Ray) (components : List TracingComponent) :
    Closest :=
  components.foldl (closestStep G T ray) { closest_t := FLT_MAX, best := none }

/-- The method `Tracer::GetBackgroundColor`. -/
def GetBackgroundColor (T : Tracer) (direction : Vec3) : Vec3 :=
  match T.cube_map_ with
  | some getTexel => getTexel direction
  | none => T.background_color_

/-- The ambient loop of `ComputePhongShading`, from the running color `color`. -/
def ambientLoop (material : Material) (lights : List LightComponent) (color : Vec3) : Vec3 :=
  lights.foldl
    (fun color light_comp =>
      match light_comp.light with
      | .Ambient ambientColor => color + material.ambient * ambientColor
      | _ => color)
    color

/-- The shadow loop of `ComputePhongShading` for one light: whether some component is hit by the
shadow ray at world-space distance below `light_dist - kEpsilon`. -/
def inShadow (G : Glm) (T : Tracer) (hit_point light_dir : Vec3) (light_dist : ℚ) : Bool :=
  if T.shadows_enabled_ = true then
    let shadow_ray : Ray := { origin := hit_point + kEpsilon * light_dir, direction := light_dir }
    T.tracing_components_.any fun comp =>
      match candidate G T shadow_ray comp with
      | some c => decide (c.world_dist < light_dist - kEpsilon)
      | none => false
  else
    false

/-- The diffuse plus specular color that one light adds when it is not in shadow. -/
def directTerm (G : Glm) (normal view_dir : Vec3) (material : Material) (i : Illumination) :
    Vec3 :=
  let n_dot_l := max 0 (dot normal i.dir_to_light)
  let diffuse := n_dot_l * material.diffuse * i.intensity
  let reflect_dir := reflect (-i.dir_to_light) normal
  let spec_factor := G.pow (max 0 (dot reflect_dir view_dir)) material.shininess
  let specular := spec_factor * material.specular * i.intensity
  diffuse + specular

/-- The direct-lighting loop of `ComputePhongShading`, from the running color `color`. -/
def directLoop (G : Glm) (T : Tracer) (hit_point normal view_dir : Vec3) (material : Material) :
    List LightComponent → Vec3 → Except String Vec3
  | [], color => .ok color
  | light_comp :: rest, color =>
    match light_comp.light with
    | .Ambient _ => directLoop G T hit_point normal view_dir material rest color
    | _ =>
      match GetIllumination G light_comp hit_point with
      | .error e => .error e
      | .ok i =>
        if inShadow G T hit_point i.dir_to_light i.dist_to_light = true then
          directLoop G T hit_point normal view_dir material rest color
        else
          directLoop G T hit_point normal view_dir material rest
            (color + directTerm G normal view_dir material i)

/-- The method `Tracer::ComputePhongShading`. -/
def ComputePhongShading (G : Glm) (T : Tracer) (hit_point normal ray_dir : Vec3)
    (material : Material) : Except String Vec3 :=
  let color := ambientLoop material T.light_components_ 0
  let view_dir := normalize G (-ray_dir)
  directLoop G T hit_point normal view_dir material T.light_components_ color

/-- The world-space normal of `TraceRay`: the inverse transpose of the upper 3x3 block of the
local-to-world matrix applied to the object-space normal, normalized. -/
def normalWorld (G : Glm) (component : TracingComponent) (closest_normal_object : Vec3) : Vec3 :=
  let object_to_world := component.localToWorld
  let normal_transform := transpose (inverse object_to_world.toMat3)
  normalize G (normal_transform.mulVec closest_normal_object)

/-- The reflection ray spawned by `TraceRay`. -/
def reflectRay (G : Glm) (ray : Ray) (closest_hit_world normal_world : Vec3) : Ray :=
  let reflect_dir := reflect (normalize G ray.direction) normal_world
  { origin := closest_hit_world + kEpsilon * reflect_dir, direction := reflect_dir }

/-- The local `reflectivity` of `TraceRay`. -/
def reflectivity (material : Material) : ℚ :=
  (material.specular.x + material.specular.y + material.specular.z) / 3

/-- The method `Tracer::TraceRay`: the returned color and the record after the call, or the
exception that escaped. -/
def TraceRay (G : Glm) (T : Tracer) (ray : Ray) (bounces : Nat) (record : HitRecord) :
    Except String (Vec3 × HitRecord) :=
  match (closestHit G T ray T.tracing_components_).best with
  | none => .ok (GetBackgroundColor T ray.direction, record)
  | some (c, hit_component) =>
    let closest_t := (closestHit G T ray T.tracing_components_).closest_t
    let normal_world := normalWorld G hit_component c.normal
    let record : HitRecord := { time := closest_t, normal := normal_world }
    match hit_component.material with
    | none => .ok (⟨1, 0, 1⟩, record)
    | some material =>
      match ComputePhongShading G T c.world_hit normal_world ray.direction material with
      | .error e => .error e
      | .ok color =>
        match bounces with
        | 0 => .ok (color, record)
        | bounces_minus_1 + 1 =>
          let spec_color := material.specular
          if reflectivity material > 1 / 100 then
            let reflect_ray := reflectRay G ray c.world_hit normal_world
            match TraceRay G T reflect_ray bounces_minus_1 G.freshRecord with
            | .error e => .error e
            | .ok (reflect_color, _) => .ok (color + spec_color * reflect_color, record)
          else
            .ok (color, record)

/-- The chain of nested `TraceRay` calls that `TraceRay(ray, bounces, _)` starts: the ray and
bounce budget of each recursive call, outermost first.  It follows the control flow of
`TraceRay` and records the call where `TraceRay` recurses. -/
def TraceRayCalls (G : Glm) (T : Tracer) (ray : Ray) (bounces : Nat) : List (Ray × Nat) :=
  match (closestHit G T ray T.tracing_components_).best with
  | none => []
  | some (c, hit_component) =>
    let normal_world := normalWorld G hit_component c.normal
    match hit_component.material with
    | none => []
    | some material =>
      match ComputePhongShading G T c.world_hit normal_world ray.direction material with
      | .error _ => []
      | .ok _ =>
        match bounces with
        | 0 => []
        | bounces_minus_1 + 1 =>
          if reflectivity material > 1 / 100 then
            let reflect_ray := reflectRay G ray c.world_hit normal_world
            (reflect_ray, bounces_minus_1) :: TraceRayCalls G T reflect_ray bounces_minus_1
          else
            []

/-! ## Named locals of the triangle test and record threading -/

/-- The local `t = solution[0]` of `Triangle::Intersect`. -/
def Triangle.t (tri : Triangle) (ray : Ray) : ℚ := (tri.solution ray).x

/-- The local `beta = solution[1]` of `Triangle::Intersect`. -/
def Triangle.beta (tri : Triangle) (ray : Ray) : ℚ := (tri.solution ray).y

/-- The local `gamma = solution[2]` of `Triangle::Intersect`. -/
def Triangle.gamma (tri : Triangle) (ray : Ray) : ℚ := (tri.solution ray).z

/-- The local `alpha = 1 - beta - gamma` of `Triangle::Intersect`. -/
def Triangle.alpha (tri : Triangle) (ray : Ray) : ℚ := 1 - tri.beta ray - tri.gamma ray

/-- One intersection test of a plane or a triangle, as a record transformer. -/
def primitiveTest (G : Glm) (test : (Plane ⊕ Triangle) × Ray × ℚ) (record : HitRecord) :
    HitRecord :=
  match test.1 with
  | .inl p => (p.Intersect test.2.1 test.2.2 record).2
  | .inr tri => (tri.Intersect G test.2.1 test.2.2 record).2

/-- One record threaded through a sequence of intersection tests, each with its own ray and
`t_min`: the record left by a test is the incoming record of the next. -/
def threadRecord (G : Glm) (tests : List ((Plane ⊕ Triangle) × Ray × ℚ)) (record : HitRecord) :
    HitRecord :=
  tests.foldl (fun r test => primitiveTest G test r) record


/-! ## A reference instance of the collaborators -/

/-- A rational square root, exact on squares of rationals: the integer square roots of the
numerator and of the denominator. -/
def ratSqrt (q : ℚ) : ℚ := (Nat.sqrt q.num.toNat : ℚ) / (Nat.sqrt q.den : ℚ)

/-- The function `glm::inverse` on `mat4`, by the 2x2 sub-determinants of glm. -/
def inverse4 (m : Mat4) : Mat4 :=
  let coef00 := m.c2.z * m.c3.w - m.c3.z * m.c2.w
  let coef02 := m.c1.z * m.c3.w - m.c3.z * m.c1.w
  let coef03 := m.c1.z * m.c2.w - m.c2.z * m.c1.w
  let coef04 := m.c2.y * m.c3.w - m.c3.y * m.c2.w
  let coef06 := m.c1.y * m.c3.w - m.c3.y * m.c1.w
  let coef07 := m.c1.y * m.c2.w - m.c2.y * m.c1.w
  let coef08 := m.c2.y * m.c3.z - m.c3.y * m.c2.z
  let coef10 := m.c1.y * m.c3.z - m.c3.y * m.c1.z
  let coef11 := m.c1.y * m.c2.z - m.c2.y * m.c1.z
  let coef12 := m.c2.x * m.c3.w - m.c3.x * m.c2.w
  let coef14 := m.c1.x * m.c3.w - m.c3.x * m.c1.w
  let coef15 := m.c1.x * m.c2.w - m.c2.x * m.c1.w
  let coef16 := m.c2.x * m.c3.z - m.c3.x * m.c2.z
  let coef18 := m.c1.x * m.c3.z - m.c3.x * m.c1.z
  let coef19 := m.c1.x * m.c2.z - m.c2.x * m.c1.z
  let coef20 := m.c2.x * m.c3.y - m.c3.x * m.c2.y
  let coef22 := m.c1.x * m.c3.y - m.c3.x * m.c1.y
  let coef23 := m.c1.x * m.c2.y - m.c2.x * m.c1.y
  let i00 := m.c1.y * coef00 - m.c1.z * coef04 + m.c1.w * coef08
  let i01 := -(m.c0.y * coef00 - m.c0.z * coef04 + m.c0.w * coef08)
  let i02 := m.c0.y * coef02 - m.c0.z * coef06 + m.c0.w * coef10
  let i03 := -(m.c0.y * coef03 - m.c0.z * coef07 + m.c0.w * coef11)
  let i10 := -(m.c1.x * coef00 - m.c1.z * coef12 + m.c1.w * coef16)
  let i11 := m.c0.x * coef00 - m.c0.z * coef12 + m.c0.w * coef16
  let i12 := -(m.c0.x * coef02 - m.c0.z * coef14 + m.c0.w * coef18)
  let i13 := m.c0.x * coef03 - m.c0.z * coef15 + m.c0.w * coef19
  let i20 := m.c1.x * coef04 - m.c1.y * coef12 + m.c1.w * coef20
  let i21 := -(m.c0.x * coef04 - m.c0.y * coef12 + m.c0.w * coef20)
  let i22 := m.c0.x * coef06 - m.c0.y * coef14 + m.c0.w * coef22
  let i23 := -(m.c0.x * coef07 - m.c0.y * coef15 + m.c0.w * coef23)
  let i30 := -(m.c1.x * coef08 - m.c1.y * coef16 + m.c1.z * coef20)
  let i31 := m.c0.x * coef08 - m.c0.y * coef16 + m.c0.z * coef20
  let i32 := -(m.c0.x * coef10 - m.c0.y * coef18 + m.c0.z * coef22)
  let i33 := m.c0.x * coef11 - m.c0.y * coef19 + m.c0.z * coef23
  let dot1 := (m.c0.x * i00 + m.c0.y * i10) + (m.c0.z * i20 + m.c0.w * i30)
  let oneOverDeterminant : ℚ := 1 / dot1
  { c0 := ⟨i00 * oneOverDeterminant, i01 * oneOverDeterminant, i02 * oneOverDeterminant,
           i03 * oneOverDeterminant⟩
    c1 := ⟨i10 * oneOverDeterminant, i11 * oneOverDeterminant, i12 * oneOverDeterminant,
           i13 * oneOverDeterminant⟩
    c2 := ⟨i20 * oneOverDeterminant, i21 * oneOverDeterminant, i22 * oneOverDeterminant,
           i23 * oneOverDeterminant⟩
    c3 := ⟨i30 * oneOverDeterminant, i31 * oneOverDeterminant, i32 * oneOverDeterminant,
           i33 * oneOverDeterminant⟩ }

/-- Modelled from the spec: `Ray::ApplyTransform` (its source, `Ray.cpp`, is not among the four
files) re-expresses the ray in another space by an affine transform: the origin is mapped as a
point, the direction as a vector. -/
def applyTransform (ray : Ray) (transform : Mat4) : Ray :=
  { origin := (transform.mulVec (Vec4.ofVec3 ray.origin 1)).xyz
    direction := (transform.mulVec (Vec4.ofVec3 ray.direction 0)).xyz }

/-- Modelled from the spec: the default `HitRecord` (declared in `HitRecord.hpp`, not among the
four files) starts at the largest time, here `FLT_MAX`; its normal is not yet meaningful and is
taken as zero. -/
def freshRecord : HitRecord := { time := FLT_MAX, normal := 0 }

/-- The reference collaborators on which the definitions are evaluated at concrete inputs:
square roots exact on squares, powers with a natural-number exponent, the glm 4x4 inverse, the
affine ray transform and the default record. -/
def referenceGlm : Glm :=
  { sqrt := ratSqrt
    inversesqrt := fun q => 1 / ratSqrt q
    pow := fun base exponent => base ^ exponent.num.toNat
    inverse4 := inverse4
    applyTransform := applyTransform
    freshRecord := freshRecord }

/-- The identity `glm::mat4(1.0f)`. -/
def Mat4.identity : Mat4 := ⟨⟨1, 0, 0, 0⟩, ⟨0, 1, 0, 0⟩, ⟨0, 0, 1, 0⟩, ⟨0, 0, 0, 1⟩⟩

/-! ## The shading formula as the specification words it -/

/-- The ambient term of the specification: the sum over the Ambient lights of
`material.ambient * light.color`, component-wise. -/
def ambientSum (material : Material) (lights : List LightComponent) : Vec3 :=
  (lights.filterMap fun lc =>
    match lc.light with
    | .Ambient color => some (material.ambient * color)
    | _ => none).sum

/-- The diffuse plus specular term of the specification for one light with direction `dir` and
intensity `intensity`:
`max(0, dot(n, dir)) * diffuse * intensity
  + pow(max(0, dot(reflect(-dir, n), view_dir)), shininess) * specular * intensity`. -/
def phongTerm (G : Glm) (n view_dir : Vec3) (material : Material) (dir intensity : Vec3) : Vec3 :=
  max 0 (dot n dir) * material.diffuse * intensity
    + G.pow (max 0 (dot (reflect (-dir) n) view_dir)) material.shininess
      * material.specular * intensity

/-- The direct term of the specification: the sum, over every non-ambient light of `lights` that
the shadow test of the tracer `T` does not find occluded, of its diffuse plus specular term,
with direction, intensity and distance from `GetIllumination`. -/
def directSum (G : Glm) (T : Tracer) (hit_point n view_dir : Vec3) (material : Material)
    (lights : List LightComponent) : Vec3 :=
  (lights.filterMap fun lc =>
    match lc.light with
    | .Ambient _ => none
    | _ =>
      match GetIllumination G lc hit_point with
      | .ok i =>
        if inShadow G T hit_point i.dir_to_light i.dist_to_light = true then none
        else some (phongTerm G n view_dir material i.dir_to_light i.intensity)
      | .error _ => none).sum

/-- The direct term when no shadow test is made: the sum over every non-ambient light of its
diffuse plus specular term. -/
def directSumAll (G : Glm) (hit_point n view_dir : Vec3) (material : Material)
    (lights : List LightComponent) : Vec3 :=
  (lights.filterMap fun lc =>
    match lc.light with
    | .Ambient _ => none
    | _ =>
      match GetIllumination G lc hit_point with
      | .ok i => some (phongTerm G n view_dir material i.dir_to_light i.intensity)
      | .error _ => none).sum

/-! ## Concrete scenes -/

/-- The scaling `glm::scale(mat4(1), vec3(4))`. -/
def Mat4.scale4 : Mat4 := ⟨⟨4, 0, 0, 0⟩, ⟨0, 4, 0, 0⟩, ⟨0, 0, 4, 0⟩, ⟨0, 0, 0, 1⟩⟩

/-- A scene with one far plane: in object space the plane `x = 2^126`, on a node scaled by 4,
so that the plane is at `x = 2^128` in world space.  No lights, no material. -/
def farPlaneScene : Tracer :=
  { tracing_components_ :=
      [{ hittable := .plane { normal_ := ⟨1, 0, 0⟩, d_ := 2 ^ 126 }
         localToWorld := Mat4.scale4
         material := none }]
    light_components_ := []
    t_min := 0
    shadows_enabled_ := false
    background_color_ := ⟨0, 0, 0⟩
    cube_map_ := none }

/-- A ray from the world origin along `(2, 0, 0)`. -/
def farPlaneRay : Ray := { origin := ⟨0, 0, 0⟩, direction := ⟨2, 0, 0⟩ }

/-- The ground plane `y = 0` of the plane scenario on an untransformed node. -/
def groundComponent (material : Option Material) : TracingComponent :=
  { hittable := .plane { normal_ := ⟨0, 1, 0⟩, d_ := 0 }
    localToWorld := Mat4.identity
    material := material }

/-- A plain white material. -/
def whiteMaterial : Material :=
  { ambient := ⟨1, 1, 1⟩, diffuse := ⟨1, 1, 1⟩, specular := ⟨0, 0, 0⟩, shininess := 1 }

/-- A scene with the ground plane twice, first without and then with a material, so that both
components are hit at the same distance. -/
def twoGroundScene : Tracer :=
  { tracing_components_ := [groundComponent none, groundComponent (some whiteMaterial)]
    light_components_ := []
    t_min := 0
    shadows_enabled_ := false
    background_color_ := ⟨0, 0, 0⟩
    cube_map_ := none }

/-- The ray of the plane scenario: from `(0, 5, 0)` straight down. -/
def downRay : Ray := { origin := ⟨0, 5, 0⟩, direction := ⟨0, -1, 0⟩ }

/-- The translation `glm::translate(mat4(1), vec3(0, 10, 0))`. -/
def Mat4.translateY10 : Mat4 := ⟨⟨1, 0, 0, 0⟩, ⟨0, 1, 0, 0⟩, ⟨0, 0, 1, 0⟩, ⟨0, 10, 0, 1⟩⟩

/-- A white point light at `(0, 10, 0)` with attenuation coefficient 1. -/
def overheadLight : LightComponent :=
  { light := .Point ⟨1, 1, 1⟩ ⟨1, 0, 0⟩, localToWorld := Mat4.translateY10 }

/-- A white ambient light. -/
def ambientLight : LightComponent :=
  { light := .Ambient ⟨1, 1, 1⟩, localToWorld := Mat4.identity }

/-- A scene with shadows enabled in which the plane `y = 5` lies between the origin and the
overhead light. -/
def shadowScene : Tracer :=
  { tracing_components_ :=
      [{ hittable := .plane { normal_ := ⟨0, 1, 0⟩, d_ := 5 }
         localToWorld := Mat4.identity
         material := none }]
    light_components_ := [ambientLight, overheadLight]
    t_min := 0
    shadows_enabled_ := true
    background_color_ := ⟨0, 0, 0⟩
    cube_map_ := none }

/-- A mirror material: white specular color. -/
def mirrorMaterial : Material :=
  { ambient := ⟨0, 0, 0⟩, diffuse := ⟨0, 0, 0⟩, specular := ⟨1, 1, 1⟩, shininess := 1 }

/-- A scene with the mirrored ground plane alone and no lights. -/
def mirrorScene : Tracer :=
  { tracing_components_ := [groundComponent (some mirrorMaterial)]
    light_components_ := []
    t_min := 0
    shadows_enabled_ := false
    background_color_ := ⟨0, 0, 0⟩
    cube_map_ := none }

/-! ## Further concrete inputs -/

/-- A ray that starts on the ground plane `y = 0` and points straight down. -/
def originRay : Ray := { origin := ⟨0, 0, 0⟩, direction := ⟨0, -1, 0⟩ }

/-- The small triangle `(0,0,0), (0.0005,0,0), (0,0.0005,0)` with all normals `(0,0,1)`. -/
def smallTriangle : Triangle :=
  ⟨⟨0, 0, 0⟩, ⟨1 / 2000, 0, 0⟩, ⟨0, 1 / 2000, 0⟩, ⟨0, 0, 1⟩, ⟨0, 0, 1⟩, ⟨0, 0, 1⟩⟩

/-- The small triangle scaled uniformly by 10. -/
def smallTriangleTimes10 : Triangle :=
  ⟨⟨0, 0, 0⟩, ⟨1 / 200, 0, 0⟩, ⟨0, 1 / 200, 0⟩, ⟨0, 0, 1⟩, ⟨0, 0, 1⟩, ⟨0, 0, 1⟩⟩

/-- The ray from `(0.0001, 0.0001, 1)` along `(0, 0, -1)`, which meets the small triangle at
`(0.0001, 0.0001, 0)`. -/
def smallTriangleRay : Ray := { origin := ⟨1 / 10000, 1 / 10000, 1⟩, direction := ⟨0, 0, -1⟩ }

/-- The same ray with its direction rescaled by 10. -/
def smallTriangleRayTimes10 : Ray :=
  { origin := ⟨1 / 10000, 1 / 10000, 1⟩, direction := ⟨0, 0, -10⟩ }

/-! ## Call traces of the shading and the tracer -/

/-- The light components that the direct-lighting loop of `ComputePhongShading` passes to
`GetIllumination`, in order.  It follows the control flow of the loop: an Ambient light is
skipped before the call, and the loop ends at a call that throws. -/
def GetIlluminationCalls (G : Glm) (hit_point : Vec3) :
    List LightComponent → List LightComponent
  | [] => []
  | light_comp :: rest =>
    match light_comp.light with
    | .Ambient _ => GetIlluminationCalls G hit_point rest
    | _ =>
      match GetIllumination G light_comp hit_point with
      | .error _ => [light_comp]
      | .ok _ => light_comp :: GetIlluminationCalls G hit_point rest

/-- The arguments (hit point, normal, ray direction, material) of the `ComputePhongShading`
calls that `TraceRay(ray, bounces, _)` and its nested calls make, outermost first.  It follows
the control flow of `TraceRay`. -/
def TraceRayShadingCalls (G : Glm) (T : Tracer) (ray : Ray) (bounces : Nat) :
    List (Vec3 × Vec3 × Vec3 × Material) :=
  match (closestHit G T ray T.tracing_components_).best with
  | none => []
  | some (c, hit_component) =>
    let normal_world := normalWorld G hit_component c.normal
    match hit_component.material with
    | none => []
    | some material =>
      (c.world_hit, normal_world, ray.direction, material) ::
        match ComputePhongShading G T c.world_hit normal_world ray.direction material with
        | .error _ => []
        | .ok _ =>
          match bounces with
          | 0 => []
          | bounces_minus_1 + 1 =>
            if reflectivity material > 1 / 100 then
              TraceRayShadingCalls G T (reflectRay G ray c.world_hit normal_world)
                bounces_minus_1
            else
              []

/-- A point light with attenuation coefficient 0 at the world origin. -/
def zeroAttenuationLight : LightComponent :=
  { light := .Point ⟨1, 1, 1⟩ ⟨0, 0, 0⟩, localToWorld := Mat4.identity }

/-- A white directional light pointing straight down. -/
def downLight : LightComponent :=
  { light := .Directional ⟨0, -1, 0⟩ ⟨1, 1, 1⟩, localToWorld := Mat4.identity }

/-- A scene with the downward directional light alone, no components and shadows disabled. -/
def downLightScene : Tracer :=
  { tracing_components_ := []
    light_components_ := [downLight]
    t_min := 0
    shadows_enabled_ := false
    background_color_ := ⟨0, 0, 0⟩
    cube_map_ := none }

/-- A white material with shininess exponent 0. -/
def zeroShininessMaterial : Material :=
  { ambient := ⟨1, 1, 1⟩, diffuse := ⟨1, 1, 1⟩, specular := ⟨1, 1, 1⟩, shininess := 0 }

/-- A white material with shininess exponent 2. -/
def shinyMaterial : Material :=
  { ambient := ⟨1, 1, 1⟩, diffuse := ⟨1, 1, 1⟩, specular := ⟨1, 1, 1⟩, shininess := 2 }

/-! ## Non-negative colors -/

/-- A color is component-wise non-negative. -/
def Vec3.NonNeg (v : Vec3) : Prop := 0 ≤ v.x ∧ 0 ≤ v.y ∧ 0 ≤ v.z

/-- The ambient, diffuse and specular colors of a material are non-negative. -/
def Material.NonNeg (m : Material) : Prop :=
  m.ambient.NonNeg ∧ m.diffuse.NonNeg ∧ m.specular.NonNeg

/-- The color of a light is non-negative, and a point light has attenuation coefficient
`alpha > 0`. -/
def LightComponent.NonNeg (lc : LightComponent) : Prop :=
  match lc.light with
  | .Ambient ambientColor => ambientColor.NonNeg
  | .Point diffuseColor attenuation => diffuseColor.NonNeg ∧ 0 < attenuation.x
  | .Directional _ diffuseColor => diffuseColor.NonNeg

/-- The intersection test of one entity as the search runs it: the entity's primitive tested
against the ray re-expressed in the entity's object space (the inverse of its local-to-world
matrix applied to the ray), with the camera's `t_min` and a fresh record. -/
def objectSpaceTest (G : Glm) (T : Tracer) (ray : Ray) (comp : TracingComponent) :
    Bool × HitRecord :=
  comp.hittable.Intersect G (G.applyTransform ray (G.inverse4 comp.localToWorld)) T.t_min
    G.freshRecord

/-- The entity's hit point transformed back to world space: the point of the object-space ray
at the recorded time, mapped by the local-to-world matrix and divided by its `w`. -/
def worldHitPoint (G : Glm) (T : Tracer) (ray : Ray) (comp : TracingComponent) : Vec3 :=
  (comp.localToWorld.mulVec (Vec4.ofVec3
      ((G.applyTransform ray (G.inverse4 comp.localToWorld)).origin
        + (objectSpaceTest G T ray comp).2.time
          * (G.applyTransform ray (G.inverse4 comp.localToWorld)).direction) 1)).xyz
    / (comp.localToWorld.mulVec (Vec4.ofVec3
      ((G.applyTransform ray (G.inverse4 comp.localToWorld)).origin
        + (objectSpaceTest G T ray comp).2.time
          * (G.applyTransform ray (G.inverse4 comp.localToWorld)).direction) 1)).w

/-- The world-space distance from the ray origin to the entity's hit point transformed back to
world space. -/
def worldDistance (G : Glm) (T : Tracer) (ray : Ray) (comp : TracingComponent) : ℚ :=
  length G (worldHitPoint G T ray comp - ray.origin)

/-- The ground plane `y = 0` on a node scaled by 4, without material. -/
def scaledGroundComponent : TracingComponent :=
  { hittable := .plane { normal_ := ⟨0, 1, 0⟩, d_ := 0 }
    localToWorld := Mat4.scale4
    material := none }

/-- A scene with the scaled ground plane alone. -/
def scaledGroundScene : Tracer :=
  { tracing_components_ := [scaledGroundComponent]
    light_components_ := []
    t_min := 0
    shadows_enabled_ := false
    background_color_ := ⟨0, 0, 0⟩
    cube_map_ := none }

/-- The ray from `(0, 5, 0)` along `(0, -2, 0)`, a direction of length 2. -/
def fastDownRay : Ray := { origin := ⟨0, 5, 0⟩, direction := ⟨0, -2, 0⟩ }

/-! ## Scenes with two point lights behind or around an occluder -/

/-- The translation `glm::translate(mat4(1), vec3(0, 20, 0))`. -/
def Mat4.translateY20 : Mat4 := ⟨⟨1, 0, 0, 0⟩, ⟨0, 1, 0, 0⟩, ⟨0, 0, 1, 0⟩, ⟨0, 20, 0, 1⟩⟩

/-- A white point light at `(0, 20, 0)` with attenuation coefficient 1. -/
def highLight : LightComponent :=
  { light := .Point ⟨1, 1, 1⟩ ⟨1, 0, 0⟩, localToWorld := Mat4.translateY20 }

/-- The plane `y = 5` on an untransformed node, without material. -/
def occluderPlane : TracingComponent :=
  { hittable := .plane { normal_ := ⟨0, 1, 0⟩, d_ := 5 }
    localToWorld := Mat4.identity
    material := none }

/-- A scene with shadows enabled in which the plane `y = 5` lies between the origin and two
point lights, at `(0, 10, 0)` and at `(0, 20, 0)`. -/
def twoLightShadowScene : Tracer :=
  { tracing_components_ := [occluderPlane]
    light_components_ := [ambientLight, overheadLight, highLight]
    t_min := 0
    shadows_enabled_ := true
    background_color_ := ⟨0, 0, 0⟩
    cube_map_ := none }

/-- The scene `twoLightShadowScene` without the plane and without the light at `(0, 10, 0)`. -/
def twoLightOpenScene : Tracer :=
  { tracing_components_ := []
    light_components_ := [ambientLight, highLight]
    t_min := 0
    shadows_enabled_ := true
    background_color_ := ⟨0, 0, 0⟩
    cube_map_ := none }

/-- A rational square root with six more decimal digits than the denominator: the integer
square root of `num * den * 10^12` over `den * 10^6`.  On every positive rational its square is
within relative error `2 * 10^-6` of the argument. -/
def decimalSqrt (q : ℚ) : ℚ :=
  (Nat.sqrt (q.num.toNat * q.den * 10 ^ 12) : ℚ) / ((q.den : ℚ) * 10 ^ 6)

/-- The collaborators with the square root `decimalSqrt`, accurate on every positive rational,
and the inverse square root `1 / decimalSqrt`; the other fields are those of `referenceGlm`. -/
def accurateGlm : Glm :=
  { sqrt := decimalSqrt
    inversesqrt := fun q => 1 / decimalSqrt q
    pow := fun base exponent => base ^ exponent.num.toNat
    inverse4 := inverse4
    applyTransform := applyTransform
    freshRecord := freshRecord }

/-- A white point light at `(1, 1, 0)` with attenuation coefficient 1. -/
def diagonalLight : LightComponent :=
  { light := .Point ⟨1, 1, 1⟩ ⟨1, 0, 0⟩
    localToWorld := ⟨⟨1, 0, 0, 0⟩, ⟨0, 1, 0, 0⟩, ⟨0, 0, 1, 0⟩, ⟨1, 1, 0, 1⟩⟩ }

/-! ## Component-wise reading of the vector operations -/

@[simp] theorem Vec3.zero_x : (0 : Vec3).x = 0 := rfl
@[simp] theorem Vec3.zero_y : (0 : Vec3).y = 0 := rfl
@[simp] theorem Vec3.zero_z : (0 : Vec3).z = 0 := rfl
@[simp] theorem Vec3.add_x (a b : Vec3) : (a + b).x = a.x + b.x := rfl
@[simp] theorem Vec3.add_y (a b : Vec3) : (a + b).y = a.y + b.y := rfl
@[simp] theorem Vec3.add_z (a b : Vec3) : (a + b).z = a.z + b.z := rfl
@[simp] theorem Vec3.sub_x (a b : Vec3) : (a - b).x = a.x - b.x := rfl
@[simp] theorem Vec3.sub_y (a b : Vec3) : (a - b).y = a.y - b.y := rfl
@[simp] theorem Vec3.sub_z (a b : Vec3) : (a - b).z = a.z - b.z := rfl
@[simp] theorem Vec3.neg_x (a : Vec3) : (-a).x = -a.x := rfl
@[simp] theorem Vec3.neg_y (a : Vec3) : (-a).y = -a.y := rfl
@[simp] theorem Vec3.neg_z (a : Vec3) : (-a).z = -a.z := rfl
@[simp] theorem Vec3.mul_x (a b : Vec3) : (a * b).x = a.x * b.x := rfl
@[simp] theorem Vec3.mul_y (a b : Vec3) : (a * b).y = a.y * b.y := rfl
@[simp] theorem Vec3.mul_z (a b : Vec3) : (a * b).z = a.z * b.z := rfl
@[simp] theorem Vec3.smul_x (s : ℚ) (a : Vec3) : (s * a).x = s * a.x := rfl
@[simp] theorem Vec3.smul_y (s : ℚ) (a : Vec3) : (s * a).y = s * a.y := rfl
@[simp] theorem Vec3.smul_z (s : ℚ) (a : Vec3) : (s * a).z = s * a.z := rfl
@[simp] theorem Vec3.muls_x (a : Vec3) (s : ℚ) : (a * s).x = a.x * s := rfl
@[simp] theorem Vec3.muls_y (a : Vec3) (s : ℚ) : (a * s).y = a.y * s := rfl
@[simp] theorem Vec3.muls_z (a : Vec3) (s : ℚ) : (a * s).z = a.z * s := rfl
@[simp] theorem Vec3.div_x (a : Vec3) (s : ℚ) : (a / s).x = a.x / s := rfl
@[simp] theorem Vec3.div_y (a : Vec3) (s : ℚ) : (a / s).y = a.y / s := rfl
@[simp] theorem Vec3.div_z (a : Vec3) (s : ℚ) : (a / s).z = a.z / s := rfl

/-! ## The plane test -/

theorem plane_Intersect_fst_iff (p : Plane) (ray : Ray) (t_min : ℚ) (record : HitRecord) :
    (p.Intersect ray t_min record).1 = true ↔
      1 / 1000000 ≤ |p.denom ray| ∧ t_min ≤ p.t ray ∧ p.t ray < record.time := by
  unfold Plane.Intersect
  by_cases h1 : |p.denom ray| < 1 / 1000000
  · simp only [h1, if_true]
    constructor
    · intro h; cases h
    · intro h; exact absurd h1 (not_lt.mpr h.1)
  · by_cases h2 : p.t ray < t_min ∨ p.t ray ≥ record.time
    · simp only [h1, h2, if_true, if_false]
      constructor
      · intro h; cases h
      · rintro ⟨-, h3, h4⟩
        rcases h2 with h2 | h2
        · exact absurd h3 (not_le.mpr h2)
        · exact absurd h4 (not_lt.mpr h2)
    · simp only [h1, h2, if_false, true_iff]
      push_neg at h2
      exact ⟨not_lt.mp h1, h2.1, h2.2⟩

theorem plane_Intersect_snd_of_true (p : Plane) (ray : Ray) (t_min : ℚ) (record : HitRecord)
    (h : (p.Intersect ray t_min record).1 = true) :
    (p.Intersect ray t_min record).2 = { time := p.t ray, normal := p.normal_ } := by
  unfold Plane.Intersect at h ⊢
  by_cases h1 : |p.denom ray| < 1 / 1000000
  · simp only [h1, if_true] at h
    cases h
  · by_cases h2 : p.t ray < t_min ∨ p.t ray ≥ record.time
    · simp only [h1, h2, if_true, if_false] at h
      cases h
    · simp only [h1, h2, if_false]

theorem plane_Intersect_snd_of_false (p : Plane) (ray : Ray) (t_min : ℚ) (record : HitRecord)
    (h : (p.Intersect ray t_min record).1 = false) :
    (p.Intersect ray t_min record).2 = record := by
  unfold Plane.Intersect at h ⊢
  by_cases h1 : |p.denom ray| < 1 / 1000000
  · simp only [h1, if_true]
  · by_cases h2 : p.t ray < t_min ∨ p.t ray ≥ record.time
    · simp only [h1, h2, if_true, if_false]
    · simp only [h1, h2, if_false] at h
      cases h

theorem plane_denom_ne_zero (p : Plane) (ray : Ray) (h : 1 / 1000000 ≤ |p.denom ray|) :
    p.denom ray ≠ 0 := by
  intro h0
  rw [h0, abs_zero] at h
  norm_num at h

theorem plane_At_t_on_plane (p : Plane) (ray : Ray) (h : p.denom ray ≠ 0) :
    dot (ray.At (p.t ray)) p.normal_ = p.d_ := by
  have key : dot (ray.At (p.t ray)) p.normal_ =
      dot ray.origin p.normal_ + p.t ray * p.denom ray := by
    simp only [dot, Ray.At, Plane.denom, Vec3.add_x, Vec3.add_y, Vec3.add_z, Vec3.smul_x,
      Vec3.smul_y, Vec3.smul_z]
    ring
  rw [key, Plane.t, div_mul_cancel₀ _ h]
  ring

/-- C1: whenever `Plane::Intersect` returns true, the recorded time `t` puts the ray point
`origin + t * direction` on the plane, `dot(origin + t * direction, normal_) = d_`, and
`t ≥ t_min`. -/
theorem plane_Intersect_true_on_plane (p : Plane) (ray : Ray) (t_min : ℚ) (record : HitRecord)
    (h : (p.Intersect ray t_min record).1 = true) :
    dot (ray.origin + (p.Intersect ray t_min record).2.time * ray.direction) p.normal_ = p.d_ ∧
      (p.Intersect ray t_min record).2.time ≥ t_min := by
  rw [plane_Intersect_snd_of_true p ray t_min record h]
  obtain ⟨hd, ht, -⟩ := (plane_Intersect_fst_iff p ray t_min record).mp h
  exact ⟨plane_At_t_on_plane p ray (plane_denom_ne_zero p ray hd), ht⟩

/-! ## The triangle test -/

theorem triangle_Intersect_fst_iff (G : Glm) (tri : Triangle) (ray : Ray) (t_min : ℚ)
    (record : HitRecord) :
    (tri.Intersect G ray t_min record).1 = true ↔
      1 / 1000000 ≤ |determinant (tri.A ray)| ∧ 0 ≤ tri.beta ray ∧ 0 ≤ tri.gamma ray ∧
        tri.beta ray + tri.gamma ray ≤ 1 ∧ t_min ≤ tri.t ray ∧ tri.t ray < record.time := by
  unfold Triangle.Intersect Triangle.beta Triangle.gamma Triangle.t
  by_cases h1 : |determinant (tri.A ray)| < 1 / 1000000
  · simp only [h1, if_true]
    constructor
    · intro h; cases h
    · intro h; exact absurd h1 (not_lt.mpr h.1)
  · by_cases h2 : (tri.solution ray).y < 0 ∨ (tri.solution ray).z < 0 ∨
        (tri.solution ray).y + (tri.solution ray).z > 1
    · simp only [h1, h2, if_true, if_false]
      constructor
      · intro h; cases h
      · rintro ⟨-, h3, h4, h5, -⟩
        rcases h2 with h2 | h2 | h2
        · exact absurd h3 (not_le.mpr h2)
        · exact absurd h4 (not_le.mpr h2)
        · exact absurd h5 (not_le.mpr h2)
    · by_cases h3 : (tri.solution ray).x < t_min ∨ (tri.solution ray).x ≥ record.time
      · simp only [h1, h2, h3, if_true, if_false]
        constructor
        · intro h; cases h
        · rintro ⟨-, -, -, -, h4, h5⟩
          rcases h3 with h3 | h3
          · exact absurd h4 (not_le.mpr h3)
          · exact absurd h5 (not_lt.mpr h3)
      · simp only [h1, h2, h3, if_false, true_iff]
        push_neg at h2 h3
        exact ⟨not_lt.mp h1, h2.1, h2.2.1, h2.2.2, h3.1, h3.2⟩

theorem triangle_Intersect_snd_of_true (G : Glm) (tri : Triangle) (ray : Ray) (t_min : ℚ)
    (record : HitRecord) (h : (tri.Intersect G ray t_min record).1 = true) :
    (tri.Intersect G ray t_min record).2 =
      { time := tri.t ray
        normal := normalize G
          (tri.alpha ray * tri.n0 + tri.beta ray * tri.n1 + tri.gamma ray * tri.n2) } := by
  unfold Triangle.Intersect at h ⊢
  unfold Triangle.alpha Triangle.beta Triangle.gamma Triangle.t
  by_cases h1 : |determinant (tri.A ray)| < 1 / 1000000
  · simp only [h1, if_true] at h
    cases h
  · by_cases h2 : (tri.solution ray).y < 0 ∨ (tri.solution ray).z < 0 ∨
        (tri.solution ray).y + (tri.solution ray).z > 1
    · simp only [h1, h2, if_true, if_false] at h
      cases h
    · by_cases h3 : (tri.solution ray).x < t_min ∨ (tri.solution ray).x ≥ record.time
      · simp only [h1, h2, h3, if_true, if_false] at h
        cases h
      · simp only [h1, h2, h3, if_false]

theorem triangle_Intersect_snd_of_false (G : Glm) (tri : Triangle) (ray : Ray) (t_min : ℚ)
    (record : HitRecord) (h : (tri.Intersect G ray t_min record).1 = false) :
    (tri.Intersect G ray t_min record).2 = record := by
  unfold Triangle.Intersect at h ⊢
  by_cases h1 : |determinant (tri.A ray)| < 1 / 1000000
  · simp only [h1, if_true]
  · by_cases h2 : (tri.solution ray).y < 0 ∨ (tri.solution ray).z < 0 ∨
        (tri.solution ray).y + (tri.solution ray).z > 1
    · simp only [h1, h2, if_true, if_false]
    · by_cases h3 : (tri.solution ray).x < t_min ∨ (tri.solution ray).x ≥ record.time
      · simp only [h1, h2, h3, if_true, if_false]
      · simp only [h1, h2, h3, if_false] at h
        cases h

theorem determinant_ne_zero_of_guard (m : Mat3) (h : 1 / 1000000 ≤ |determinant m|) :
    determinant m ≠ 0 := by
  intro h0
  rw [h0, abs_zero] at h
  norm_num at h

/-- With a nonzero determinant, `glm::inverse` is a right inverse for the matrix-vector
product. -/
theorem Mat3_mulVec_inverse (m : Mat3) (v : Vec3) (h : determinant m ≠ 0) :
    m.mulVec ((inverse m).mulVec v) = v := by
  have hd := h
  unfold determinant at hd
  ext <;> simp only [Mat3.mulVec, inverse, determinant] <;> field_simp <;> ring

/-- With a nonzero determinant, `glm::inverse` is a left inverse for the matrix-vector
product. -/
theorem Mat3_inverse_mulVec (m : Mat3) (v : Vec3) (h : determinant m ≠ 0) :
    (inverse m).mulVec (m.mulVec v) = v := by
  have hd := h
  unfold determinant at hd
  ext <;> simp only [Mat3.mulVec, inverse, determinant] <;> field_simp <;> ring

theorem triangle_A_mulVec_solution (tri : Triangle) (ray : Ray)
    (h : determinant (tri.A ray) ≠ 0) :
    (tri.A ray).mulVec (tri.solution ray) = tri.b ray :=
  Mat3_mulVec_inverse (tri.A ray) (tri.b ray) h

theorem triangle_solution_unique (tri : Triangle) (ray : Ray) (x : Vec3)
    (h : determinant (tri.A ray) ≠ 0) (hx : (tri.A ray).mulVec x = tri.b ray) :
    x = tri.solution ray := by
  unfold Triangle.solution
  rw [← hx, Mat3_inverse_mulVec _ _ h]

/-- The ray point at the solved `t` is the barycentric combination of the vertices. -/
theorem triangle_At_t_eq_combination (tri : Triangle) (ray : Ray)
    (h : determinant (tri.A ray) ≠ 0) :
    ray.origin + tri.t ray * ray.direction =
      tri.alpha ray * tri.p0 + tri.beta ray * tri.p1 + tri.gamma ray * tri.p2 := by
  have key := triangle_A_mulVec_solution tri ray h
  have kx := congrArg Vec3.x key
  have ky := congrArg Vec3.y key
  have kz := congrArg Vec3.z key
  simp only [Mat3.mulVec, Triangle.A, Triangle.b, Vec3.neg_x, Vec3.neg_y, Vec3.neg_z,
    Vec3.sub_x, Vec3.sub_y, Vec3.sub_z] at kx ky kz
  ext <;>
    simp only [Triangle.alpha, Triangle.beta, Triangle.gamma, Triangle.t, Vec3.add_x,
      Vec3.add_y, Vec3.add_z, Vec3.smul_x, Vec3.smul_y, Vec3.smul_z] <;>
    linarith

/-- C2: whenever `Triangle::Intersect` returns true, the barycentric triple it computed
satisfies `alpha + beta + gamma = 1` with all three non-negative, the recorded time `t` is at
least `t_min`, and the ray point `origin + t * direction` equals
`alpha * v0 + beta * v1 + gamma * v2`. -/
theorem triangle_Intersect_true_barycentric (G : Glm) (tri : Triangle) (ray : Ray) (t_min : ℚ)
    (record : HitRecord) (h : (tri.Intersect G ray t_min record).1 = true) :
    tri.alpha ray + tri.beta ray + tri.gamma ray = 1 ∧
      0 ≤ tri.alpha ray ∧ 0 ≤ tri.beta ray ∧ 0 ≤ tri.gamma ray ∧
      (tri.Intersect G ray t_min record).2.time ≥ t_min ∧
      ray.origin + (tri.Intersect G ray t_min record).2.time * ray.direction =
        tri.alpha ray * tri.p0 + tri.beta ray * tri.p1 + tri.gamma ray * tri.p2 := by
  rw [triangle_Intersect_snd_of_true G tri ray t_min record h]
  obtain ⟨hd, hb, hg, hbg, ht, -⟩ := (triangle_Intersect_fst_iff G tri ray t_min record).mp h
  refine ⟨?_, ?_, hb, hg, ht, ?_⟩
  · unfold Triangle.alpha; ring
  · unfold Triangle.alpha; linarith
  · exact triangle_At_t_eq_combination tri ray (determinant_ne_zero_of_guard _ hd)

/-! ## Strict improvement of the record -/

theorem primitiveTest_time_le (G : Glm) (test : (Plane ⊕ Triangle) × Ray × ℚ)
    (record : HitRecord) : (primitiveTest G test record).time ≤ record.time := by
  obtain ⟨prim, ray, t_min⟩ := test
  cases prim with
  | inl p =>
    show (p.Intersect ray t_min record).2.time ≤ record.time
    cases hb : (p.Intersect ray t_min record).1 with
    | false => rw [plane_Intersect_snd_of_false p ray t_min record hb]
    | true =>
      rw [plane_Intersect_snd_of_true p ray t_min record hb]
      exact le_of_lt ((plane_Intersect_fst_iff p ray t_min record).mp hb).2.2
  | inr tri =>
    show (tri.Intersect G ray t_min record).2.time ≤ record.time
    cases hb : (tri.Intersect G ray t_min record).1 with
    | false => rw [triangle_Intersect_snd_of_false G tri ray t_min record hb]
    | true =>
      rw [triangle_Intersect_snd_of_true G tri ray t_min record hb]
      exact le_of_lt ((triangle_Intersect_fst_iff G tri ray t_min record).mp hb).2.2.2.2.2

theorem threadRecord_time_le (G : Glm) (tests : List ((Plane ⊕ Triangle) × Ray × ℚ))
    (record : HitRecord) : (threadRecord G tests record).time ≤ record.time := by
  induction tests generalizing record with
  | nil => exact le_refl _
  | cons test rest ih =>
    show (threadRecord G rest (primitiveTest G test record)).time ≤ record.time
    exact le_trans (ih _) (primitiveTest_time_le G test record)

/-- C4: for `Plane::Intersect` and for `Triangle::Intersect`, a call that returns false leaves
the record unchanged and a call that returns true leaves a time strictly below the time before
the call; hence a record threaded through any sequence of such tests never has its time
increased. -/
theorem Intersect_strict_improvement (G : Glm) :
    (∀ (p : Plane) (ray : Ray) (t_min : ℚ) (record : HitRecord),
      ((p.Intersect ray t_min record).1 = false → (p.Intersect ray t_min record).2 = record) ∧
      ((p.Intersect ray t_min record).1 = true →
        (p.Intersect ray t_min record).2.time < record.time)) ∧
    (∀ (tri : Triangle) (ray : Ray) (t_min : ℚ) (record : HitRecord),
      ((tri.Intersect G ray t_min record).1 = false →
        (tri.Intersect G ray t_min record).2 = record) ∧
      ((tri.Intersect G ray t_min record).1 = true →
        (tri.Intersect G ray t_min record).2.time < record.time)) ∧
    (∀ (tests : List ((Plane ⊕ Triangle) × Ray × ℚ)) (record : HitRecord),
      (threadRecord G tests record).time ≤ record.time) := by
  refine ⟨fun p ray t_min record => ⟨plane_Intersect_snd_of_false p ray t_min record, ?_⟩,
    fun tri ray t_min record => ⟨triangle_Intersect_snd_of_false G tri ray t_min record, ?_⟩,
    threadRecord_time_le G⟩
  · intro hb
    rw [plane_Intersect_snd_of_true p ray t_min record hb]
    exact ((plane_Intersect_fst_iff p ray t_min record).mp hb).2.2
  · intro hb
    rw [triangle_Intersect_snd_of_true G tri ray t_min record hb]
    exact ((triangle_Intersect_fst_iff G tri ray t_min record).mp hb).2.2.2.2.2

/-! ## Acceptance rules -/

/-- The plane scenario: normal `(0,1,0)`, `d = 0`, ray from `(0,5,0)` along `(0,-1,0)`. -/
theorem plane_Intersect_scenario (record : HitRecord) (hrec : 5 < record.time) :
    Plane.Intersect { normal_ := ⟨0, 1, 0⟩, d_ := 0 }
      { origin := ⟨0, 5, 0⟩, direction := ⟨0, -1, 0⟩ } 0 record =
      (true, { time := 5, normal := ⟨0, 1, 0⟩ }) := by
  have ht : Plane.t { normal_ := ⟨0, 1, 0⟩, d_ := 0 }
      { origin := ⟨0, 5, 0⟩, direction := ⟨0, -1, 0⟩ } = 5 := by
    norm_num [Plane.t, Plane.denom, dot]
  have hd : Plane.denom { normal_ := ⟨0, 1, 0⟩, d_ := 0 }
      { origin := ⟨0, 5, 0⟩, direction := ⟨0, -1, 0⟩ } = -1 := by
    norm_num [Plane.denom, dot]
  have hb : (Plane.Intersect { normal_ := ⟨0, 1, 0⟩, d_ := 0 }
      { origin := ⟨0, 5, 0⟩, direction := ⟨0, -1, 0⟩ } 0 record).1 = true := by
    rw [plane_Intersect_fst_iff, ht, hd]
    refine ⟨by norm_num, by norm_num, hrec⟩
  refine Prod.ext hb ?_
  rw [plane_Intersect_snd_of_true _ _ _ _ hb, ht]

theorem freshRecord_time_gt : 5 < freshRecord.time := by
  norm_num [freshRecord, FLT_MAX]

/-- C9: `Plane::Intersect` returns true exactly when `|denom| ≥ 1e-6` and
`t_min ≤ t < record.time`, for `denom = dot(direction, normal_)` and
`t = (d_ - dot(origin, normal_)) / denom`; on acceptance the record holds `t` and the stored
normal as it is, whatever the sign of `denom`.  The plane with normal `(0,1,0)` and `d = 0`, the
ray from `(0,5,0)` along `(0,-1,0)` and `t_min = 0` give a hit at `t = 5` with normal `(0,1,0)`
on every record whose time is above 5. -/
theorem plane_Intersect_acceptance :
    (∀ (p : Plane) (ray : Ray) (t_min : ℚ) (record : HitRecord),
      ((p.Intersect ray t_min record).1 = true ↔
        |dot ray.direction p.normal_| ≥ 1 / 1000000 ∧
          t_min ≤ (p.d_ - dot ray.origin p.normal_) / dot ray.direction p.normal_ ∧
          (p.d_ - dot ray.origin p.normal_) / dot ray.direction p.normal_ < record.time) ∧
      ((p.Intersect ray t_min record).1 = true →
        (p.Intersect ray t_min record).2 =
          { time := (p.d_ - dot ray.origin p.normal_) / dot ray.direction p.normal_
            normal := p.normal_ })) ∧
    (∀ record : HitRecord, 5 < record.time →
      Plane.Intersect { normal_ := ⟨0, 1, 0⟩, d_ := 0 }
        { origin := ⟨0, 5, 0⟩, direction := ⟨0, -1, 0⟩ } 0 record =
        (true, { time := 5, normal := ⟨0, 1, 0⟩ })) := by
  refine ⟨fun p ray t_min record =>
    ⟨plane_Intersect_fst_iff p ray t_min record, plane_Intersect_snd_of_true p ray t_min record⟩,
    ?_⟩
  exact plane_Intersect_scenario

/-- The scenario of C9 on the default record. -/
theorem plane_Intersect_acceptance_witness :
    5 < freshRecord.time ∧
      Plane.Intersect { normal_ := ⟨0, 1, 0⟩, d_ := 0 }
        { origin := ⟨0, 5, 0⟩, direction := ⟨0, -1, 0⟩ } 0 freshRecord =
        (true, { time := 5, normal := ⟨0, 1, 0⟩ }) :=
  ⟨freshRecord_time_gt, plane_Intersect_acceptance.2 freshRecord freshRecord_time_gt⟩

/-- The triangle scenario: vertices `(0,0,0), (1,0,0), (0,1,0)`, ray from `(0.25, 0.25, 5)`
along `(0,0,-1)`: the solved `(t, beta, gamma)`. -/
theorem triangle_solution_scenario :
    Triangle.solution ⟨⟨0, 0, 0⟩, ⟨1, 0, 0⟩, ⟨0, 1, 0⟩, ⟨0, 0, 1⟩, ⟨0, 0, 1⟩, ⟨0, 0, 1⟩⟩
      { origin := ⟨1 / 4, 1 / 4, 5⟩, direction := ⟨0, 0, -1⟩ } = ⟨5, 1 / 4, 1 / 4⟩ := by
  ext <;>
    norm_num [Triangle.solution, Triangle.A, Triangle.b, inverse, determinant, Mat3.mulVec,
      Vec3.neg_x, Vec3.neg_y, Vec3.neg_z, Vec3.sub_x, Vec3.sub_y, Vec3.sub_z]

theorem triangle_determinant_scenario :
    determinant (Triangle.A
      ⟨⟨0, 0, 0⟩, ⟨1, 0, 0⟩, ⟨0, 1, 0⟩, ⟨0, 0, 1⟩, ⟨0, 0, 1⟩, ⟨0, 0, 1⟩⟩
      { origin := ⟨1 / 4, 1 / 4, 5⟩, direction := ⟨0, 0, -1⟩ }) = 1 := by
  norm_num [Triangle.A, determinant, Vec3.neg_x, Vec3.neg_y, Vec3.neg_z, Vec3.sub_x,
    Vec3.sub_y, Vec3.sub_z]

/-- The triangle scenario: the test accepts at `t = 5` and stores the normal `(0,0,1)`. -/
theorem triangle_Intersect_scenario (G : Glm) (record : HitRecord) (hG : G.inversesqrt 1 = 1)
    (hrec : 5 < record.time) :
    Triangle.Intersect G ⟨⟨0, 0, 0⟩, ⟨1, 0, 0⟩, ⟨0, 1, 0⟩, ⟨0, 0, 1⟩, ⟨0, 0, 1⟩, ⟨0, 0, 1⟩⟩
      { origin := ⟨1 / 4, 1 / 4, 5⟩, direction := ⟨0, 0, -1⟩ } 0 record =
      (true, { time := 5, normal := ⟨0, 0, 1⟩ }) := by
  have hs := triangle_solution_scenario
  have hb : (Triangle.Intersect G
      ⟨⟨0, 0, 0⟩, ⟨1, 0, 0⟩, ⟨0, 1, 0⟩, ⟨0, 0, 1⟩, ⟨0, 0, 1⟩, ⟨0, 0, 1⟩⟩
      { origin := ⟨1 / 4, 1 / 4, 5⟩, direction := ⟨0, 0, -1⟩ } 0 record).1 = true := by
    rw [triangle_Intersect_fst_iff, triangle_determinant_scenario]
    simp only [Triangle.beta, Triangle.gamma, Triangle.t, hs]
    refine ⟨by norm_num, by norm_num, by norm_num, by norm_num, by norm_num, hrec⟩
  refine Prod.ext hb ?_
  rw [triangle_Intersect_snd_of_true _ _ _ _ _ hb]
  simp only [Triangle.alpha, Triangle.beta, Triangle.gamma, Triangle.t, hs]
  have hn : (1 - 1 / 4 - 1 / 4 : ℚ) * (⟨0, 0, 1⟩ : Vec3) + (1 / 4 : ℚ) * (⟨0, 0, 1⟩ : Vec3)
      + (1 / 4 : ℚ) * (⟨0, 0, 1⟩ : Vec3) = ⟨0, 0, 1⟩ := by
    ext <;> norm_num [Vec3.add_x, Vec3.add_y, Vec3.add_z, Vec3.smul_x, Vec3.smul_y,
      Vec3.smul_z]
  rw [hn]
  have hdot : dot ⟨0, 0, 1⟩ ⟨0, 0, 1⟩ = 1 := by norm_num [dot]
  have hnorm : normalize G ⟨0, 0, 1⟩ = ⟨0, 0, 1⟩ := by
    unfold normalize
    rw [hdot, hG]
    ext <;> norm_num [Vec3.muls_x, Vec3.muls_y, Vec3.muls_z]
  rw [hnorm]

/-- The rational square root is exact on squares. -/
theorem ratSqrt_mul_self (q : ℚ) (hq : 0 ≤ q) : ratSqrt (q * q) = q := by
  unfold ratSqrt
  rw [Rat.mul_self_num, Rat.mul_self_den, Nat.sqrt_eq]
  have hn : 0 ≤ q.num := Rat.num_nonneg.mpr hq
  have h1 : (q.num * q.num).toNat = q.num.toNat * q.num.toNat := by
    zify
    rw [Int.toNat_of_nonneg hn, Int.toNat_of_nonneg (mul_nonneg hn hn)]
  rw [h1, Nat.sqrt_eq]
  have h2 : ((q.num.toNat : ℕ) : ℚ) = (q.num : ℚ) := by
    have : ((q.num.toNat : ℕ) : ℤ) = q.num := Int.toNat_of_nonneg hn
    exact_mod_cast this
  rw [h2]
  exact Rat.num_div_den q

theorem referenceGlm_inversesqrt_one : referenceGlm.inversesqrt 1 = 1 := by
  show 1 / ratSqrt 1 = 1
  have h := ratSqrt_mul_self 1 (by norm_num)
  rw [mul_one] at h
  rw [h]
  norm_num

/-- C10: when the matrix `[-D | e1 | e2]` has `|det| ≥ 1e-6`, the system
`[-D | e1 | e2] * (t, beta, gamma) = origin - v0` has exactly one solution, and
`Triangle::Intersect` returns true exactly when that solution has `beta ≥ 0`, `gamma ≥ 0`,
`beta + gamma ≤ 1` and `t_min ≤ t < record.time`; on acceptance the record holds that `t`.
The triangle `(0,0,0), (1,0,0), (0,1,0)` with all normals `(0,0,1)`, the ray from
`(0.25, 0.25, 5)` along `(0,0,-1)` and `t_min = 0` give a hit at `t = 5` with
`beta = gamma = 0.25` and normal `(0,0,1)` on every record whose time is above 5, when the
inverse square root of 1 is 1. -/
theorem triangle_Intersect_acceptance :
    (∀ (G : Glm) (tri : Triangle) (ray : Ray) (t_min : ℚ) (record : HitRecord),
      1 / 1000000 ≤ |determinant (tri.A ray)| →
      (∃! x : Vec3, (tri.A ray).mulVec x = tri.b ray) ∧
      ∀ x : Vec3, (tri.A ray).mulVec x = tri.b ray →
        ((tri.Intersect G ray t_min record).1 = true ↔
          0 ≤ x.y ∧ 0 ≤ x.z ∧ x.y + x.z ≤ 1 ∧ t_min ≤ x.x ∧ x.x < record.time) ∧
        ((tri.Intersect G ray t_min record).1 = true →
          (tri.Intersect G ray t_min record).2.time = x.x)) ∧
    (∀ (G : Glm) (record : HitRecord), G.inversesqrt 1 = 1 → 5 < record.time →
      Triangle.Intersect G ⟨⟨0, 0, 0⟩, ⟨1, 0, 0⟩, ⟨0, 1, 0⟩, ⟨0, 0, 1⟩, ⟨0, 0, 1⟩, ⟨0, 0, 1⟩⟩
        { origin := ⟨1 / 4, 1 / 4, 5⟩, direction := ⟨0, 0, -1⟩ } 0 record =
        (true, { time := 5, normal := ⟨0, 0, 1⟩ }) ∧
      Triangle.solution ⟨⟨0, 0, 0⟩, ⟨1, 0, 0⟩, ⟨0, 1, 0⟩, ⟨0, 0, 1⟩, ⟨0, 0, 1⟩, ⟨0, 0, 1⟩⟩
        { origin := ⟨1 / 4, 1 / 4, 5⟩, direction := ⟨0, 0, -1⟩ } = ⟨5, 1 / 4, 1 / 4⟩) := by
  constructor
  · intro G tri ray t_min record hdet
    have hne := determinant_ne_zero_of_guard _ hdet
    refine ⟨⟨tri.solution ray, triangle_A_mulVec_solution tri ray hne,
      fun y hy => triangle_solution_unique tri ray y hne hy⟩, ?_⟩
    intro x hx
    have hxs := triangle_solution_unique tri ray x hne hx
    subst hxs
    constructor
    · rw [triangle_Intersect_fst_iff]
      constructor
      · rintro ⟨-, h⟩
        exact h
      · intro h
        exact ⟨hdet, h⟩
    · intro hb
      rw [triangle_Intersect_snd_of_true G tri ray t_min record hb]
      rfl
  · intro G record hG hrec
    exact ⟨triangle_Intersect_scenario G record hG hrec, triangle_solution_scenario⟩

/-- The two parts of C10 at the scenario, on the reference collaborators and the default
record. -/
theorem triangle_Intersect_acceptance_witness :
    (1 / 1000000 ≤ |determinant (Triangle.A
        ⟨⟨0, 0, 0⟩, ⟨1, 0, 0⟩, ⟨0, 1, 0⟩, ⟨0, 0, 1⟩, ⟨0, 0, 1⟩, ⟨0, 0, 1⟩⟩
        { origin := ⟨1 / 4, 1 / 4, 5⟩, direction := ⟨0, 0, -1⟩ })| ∧
      ((Triangle.Intersect referenceGlm
          ⟨⟨0, 0, 0⟩, ⟨1, 0, 0⟩, ⟨0, 1, 0⟩, ⟨0, 0, 1⟩, ⟨0, 0, 1⟩, ⟨0, 0, 1⟩⟩
          { origin := ⟨1 / 4, 1 / 4, 5⟩, direction := ⟨0, 0, -1⟩ } 0 freshRecord).1 = true ↔
        (0 : ℚ) ≤ 1 / 4 ∧ (0 : ℚ) ≤ 1 / 4 ∧ (1 / 4 + 1 / 4 : ℚ) ≤ 1 ∧ (0 : ℚ) ≤ 5 ∧
          5 < freshRecord.time)) ∧
    (referenceGlm.inversesqrt 1 = 1 ∧ 5 < freshRecord.time ∧
      Triangle.Intersect referenceGlm
        ⟨⟨0, 0, 0⟩, ⟨1, 0, 0⟩, ⟨0, 1, 0⟩, ⟨0, 0, 1⟩, ⟨0, 0, 1⟩, ⟨0, 0, 1⟩⟩
        { origin := ⟨1 / 4, 1 / 4, 5⟩, direction := ⟨0, 0, -1⟩ } 0 freshRecord =
        (true, { time := 5, normal := ⟨0, 0, 1⟩ })) := by
  have hdet : (1 : ℚ) / 1000000 ≤ |determinant (Triangle.A
      ⟨⟨0, 0, 0⟩, ⟨1, 0, 0⟩, ⟨0, 1, 0⟩, ⟨0, 0, 1⟩, ⟨0, 0, 1⟩, ⟨0, 0, 1⟩⟩
      { origin := ⟨1 / 4, 1 / 4, 5⟩, direction := ⟨0, 0, -1⟩ })| := by
    rw [triangle_determinant_scenario]
    norm_num
  have hsol : (Triangle.A ⟨⟨0, 0, 0⟩, ⟨1, 0, 0⟩, ⟨0, 1, 0⟩, ⟨0, 0, 1⟩, ⟨0, 0, 1⟩, ⟨0, 0, 1⟩⟩
      { origin := ⟨1 / 4, 1 / 4, 5⟩, direction := ⟨0, 0, -1⟩ }).mulVec ⟨5, 1 / 4, 1 / 4⟩ =
      Triangle.b ⟨⟨0, 0, 0⟩, ⟨1, 0, 0⟩, ⟨0, 1, 0⟩, ⟨0, 0, 1⟩, ⟨0, 0, 1⟩, ⟨0, 0, 1⟩⟩
        { origin := ⟨1 / 4, 1 / 4, 5⟩, direction := ⟨0, 0, -1⟩ } := by
    ext <;>
      norm_num [Triangle.A, Triangle.b, Mat3.mulVec, Vec3.neg_x, Vec3.neg_y, Vec3.neg_z,
        Vec3.sub_x, Vec3.sub_y, Vec3.sub_z]
  exact ⟨⟨hdet, ((triangle_Intersect_acceptance.1 referenceGlm _ _ 0 freshRecord hdet).2
      ⟨5, 1 / 4, 1 / 4⟩ hsol).1⟩,
    referenceGlm_inversesqrt_one, freshRecord_time_gt,
    (triangle_Intersect_acceptance.2 referenceGlm freshRecord referenceGlm_inversesqrt_one
      freshRecord_time_gt).1⟩

/-- The conclusion of C1 at the plane scenario on the default record. -/
theorem plane_Intersect_true_on_plane_witness :
    (Plane.Intersect { normal_ := ⟨0, 1, 0⟩, d_ := 0 }
        { origin := ⟨0, 5, 0⟩, direction := ⟨0, -1, 0⟩ } 0 freshRecord).1 = true ∧
      dot ((⟨0, 5, 0⟩ : Vec3) + (Plane.Intersect { normal_ := ⟨0, 1, 0⟩, d_ := 0 }
        { origin := ⟨0, 5, 0⟩, direction := ⟨0, -1, 0⟩ } 0 freshRecord).2.time *
          (⟨0, -1, 0⟩ : Vec3)) ⟨0, 1, 0⟩ = 0 ∧
      (Plane.Intersect { normal_ := ⟨0, 1, 0⟩, d_ := 0 }
        { origin := ⟨0, 5, 0⟩, direction := ⟨0, -1, 0⟩ } 0 freshRecord).2.time ≥ 0 :=
  have h : (Plane.Intersect { normal_ := ⟨0, 1, 0⟩, d_ := 0 }
      { origin := ⟨0, 5, 0⟩, direction := ⟨0, -1, 0⟩ } 0 freshRecord).1 = true :=
    congrArg Prod.fst (plane_Intersect_scenario freshRecord freshRecord_time_gt)
  ⟨h, plane_Intersect_true_on_plane _ _ 0 freshRecord h⟩

/-- The conclusion of C2 at the triangle scenario on the default record: the hit is at
`t = 5` with `(alpha, beta, gamma) = (1/2, 1/4, 1/4)`. -/
theorem triangle_Intersect_true_barycentric_witness :
    (Triangle.Intersect referenceGlm
        ⟨⟨0, 0, 0⟩, ⟨1, 0, 0⟩, ⟨0, 1, 0⟩, ⟨0, 0, 1⟩, ⟨0, 0, 1⟩, ⟨0, 0, 1⟩⟩
        { origin := ⟨1 / 4, 1 / 4, 5⟩, direction := ⟨0, 0, -1⟩ } 0 freshRecord).1 = true ∧
      Triangle.solution ⟨⟨0, 0, 0⟩, ⟨1, 0, 0⟩, ⟨0, 1, 0⟩, ⟨0, 0, 1⟩, ⟨0, 0, 1⟩, ⟨0, 0, 1⟩⟩
        { origin := ⟨1 / 4, 1 / 4, 5⟩, direction := ⟨0, 0, -1⟩ } = ⟨5, 1 / 4, 1 / 4⟩ ∧
      (Triangle.Intersect referenceGlm
        ⟨⟨0, 0, 0⟩, ⟨1, 0, 0⟩, ⟨0, 1, 0⟩, ⟨0, 0, 1⟩, ⟨0, 0, 1⟩, ⟨0, 0, 1⟩⟩
        { origin := ⟨1 / 4, 1 / 4, 5⟩, direction := ⟨0, 0, -1⟩ } 0 freshRecord).2.time ≥ 0 ∧
      (⟨1 / 4, 1 / 4, 5⟩ : Vec3) + (Triangle.Intersect referenceGlm
        ⟨⟨0, 0, 0⟩, ⟨1, 0, 0⟩, ⟨0, 1, 0⟩, ⟨0, 0, 1⟩, ⟨0, 0, 1⟩, ⟨0, 0, 1⟩⟩
        { origin := ⟨1 / 4, 1 / 4, 5⟩, direction := ⟨0, 0, -1⟩ } 0 freshRecord).2.time *
          (⟨0, 0, -1⟩ : Vec3) =
        Triangle.alpha ⟨⟨0, 0, 0⟩, ⟨1, 0, 0⟩, ⟨0, 1, 0⟩, ⟨0, 0, 1⟩, ⟨0, 0, 1⟩, ⟨0, 0, 1⟩⟩
            { origin := ⟨1 / 4, 1 / 4, 5⟩, direction := ⟨0, 0, -1⟩ } * (⟨0, 0, 0⟩ : Vec3)
          + Triangle.beta ⟨⟨0, 0, 0⟩, ⟨1, 0, 0⟩, ⟨0, 1, 0⟩, ⟨0, 0, 1⟩, ⟨0, 0, 1⟩, ⟨0, 0, 1⟩⟩
            { origin := ⟨1 / 4, 1 / 4, 5⟩, direction := ⟨0, 0, -1⟩ } * (⟨1, 0, 0⟩ : Vec3)
          + Triangle.gamma ⟨⟨0, 0, 0⟩, ⟨1, 0, 0⟩, ⟨0, 1, 0⟩, ⟨0, 0, 1⟩, ⟨0, 0, 1⟩, ⟨0, 0, 1⟩⟩
            { origin := ⟨1 / 4, 1 / 4, 5⟩, direction := ⟨0, 0, -1⟩ } * (⟨0, 1, 0⟩ : Vec3) :=
  have h : (Triangle.Intersect referenceGlm
      ⟨⟨0, 0, 0⟩, ⟨1, 0, 0⟩, ⟨0, 1, 0⟩, ⟨0, 0, 1⟩, ⟨0, 0, 1⟩, ⟨0, 0, 1⟩⟩
      { origin := ⟨1 / 4, 1 / 4, 5⟩, direction := ⟨0, 0, -1⟩ } 0 freshRecord).1 = true :=
    congrArg Prod.fst (triangle_Intersect_scenario referenceGlm freshRecord
      referenceGlm_inversesqrt_one freshRecord_time_gt)
  ⟨h, triangle_solution_scenario,
    (triangle_Intersect_true_barycentric referenceGlm _ _ 0 freshRecord h).2.2.2.2.1,
    (triangle_Intersect_true_barycentric referenceGlm _ _ 0 freshRecord h).2.2.2.2.2⟩

/-! ## The closest-hit search -/

theorem closestHit_nil (G : Glm) (T : Tracer) (ray : Ray) :
    closestHit G T ray [] = { closest_t := FLT_MAX, best := none } := rfl

theorem closestHit_concat (G : Glm) (T : Tracer) (ray : Ray) (comps : List TracingComponent)
    (a : TracingComponent) :
    closestHit G T ray (comps ++ [a]) = closestStep G T ray (closestHit G T ray comps) a := by
  simp [closestHit, List.foldl_append]

theorem closestHit_singleton (G : Glm) (T : Tracer) (ray : Ray) (a : TracingComponent) :
    closestHit G T ray [a] = closestStep G T ray { closest_t := FLT_MAX, best := none } a := rfl

theorem TraceRay_of_no_hit (G : Glm) (T : Tracer) (ray : Ray) (bounces : ℕ)
    (record : HitRecord) (h : (closestHit G T ray T.tracing_components_).best = none) :
    TraceRay G T ray bounces record = .ok (GetBackgroundColor T ray.direction, record) := by
  unfold TraceRay
  rw [h]

theorem getElem?_concat_cases {α : Type} (l : List α) (a c : α) (j : ℕ)
    (h : (l ++ [a])[j]? = some c) : (j < l.length ∧ l[j]? = some c) ∨ (j = l.length ∧ c = a) := by
  rcases Nat.lt_trichotomy j l.length with hj | hj | hj
  · left
    rw [List.getElem?_append_left hj] at h
    exact ⟨hj, h⟩
  · right
    subst hj
    simp at h
    exact ⟨rfl, h.symm⟩
  · exfalso
    rw [List.getElem?_append_right (le_of_lt hj)] at h
    have : j - l.length ≠ 0 := by omega
    simp [List.getElem?_cons, this] at h

/-- The state of the closest-hit loop after any list of components: either nothing was recorded
and every successful test lies at distance `FLT_MAX` or more, or the recorded component is the
first one at the least distance among the successful tests, and that distance is below
`FLT_MAX`. -/
theorem closestHit_invariant (G : Glm) (T : Tracer) (ray : Ray)
    (comps : List TracingComponent) :
    ((closestHit G T ray comps).best = none ∧ (closestHit G T ray comps).closest_t = FLT_MAX ∧
      ∀ (j : ℕ) (comp : TracingComponent) (cj : Candidate), comps[j]? = some comp →
        candidate G T ray comp = some cj → FLT_MAX ≤ cj.world_dist) ∨
    (∃ (i : ℕ) (comp : TracingComponent) (ci : Candidate),
      comps[i]? = some comp ∧ candidate G T ray comp = some ci ∧
      closestHit G T ray comps = { closest_t := ci.world_dist, best := some (ci, comp) } ∧
      ci.world_dist < FLT_MAX ∧
      (∀ (j : ℕ) (comp' : TracingComponent) (cj : Candidate), comps[j]? = some comp' →
        candidate G T ray comp' = some cj → ci.world_dist ≤ cj.world_dist) ∧
      (∀ (j : ℕ) (comp' : TracingComponent) (cj : Candidate), j < i → comps[j]? = some comp' →
        candidate G T ray comp' = some cj → ci.world_dist < cj.world_dist)) := by
  induction comps using List.reverseRecOn with
  | nil =>
    left
    refine ⟨rfl, rfl, ?_⟩
    intro j comp cj hj
    simp at hj
  | append_singleton l a ih =>
    rw [closestHit_concat]
    rcases ih with ⟨hbest, ht, hall⟩ | ⟨i, comp, ci, hi, hci, hstate, hlt, hmin, hfirst⟩
    · -- nothing recorded so far
      cases hca : candidate G T ray a with
      | none =>
        left
        simp only [closestStep, hca]
        refine ⟨hbest, ht, ?_⟩
        intro j comp cj hj hcj
        rcases getElem?_concat_cases l a comp j hj with ⟨-, hj'⟩ | ⟨-, rfl⟩
        · exact hall j comp cj hj' hcj
        · rw [hca] at hcj
          cases hcj
      | some ca =>
        by_cases hcmp : ca.world_dist < (closestHit G T ray l).closest_t
        · right
          refine ⟨l.length, a, ca, List.getElem?_concat_length l a, hca, ?_, ?_, ?_, ?_⟩
          · simp only [closestStep, hca, hcmp, if_true]
          · rw [← ht]
            exact hcmp
          · intro j comp cj hj hcj
            rcases getElem?_concat_cases l a comp j hj with ⟨-, hj'⟩ | ⟨-, rfl⟩
            · have := hall j comp cj hj' hcj
              rw [ht] at hcmp
              exact le_of_lt (lt_of_lt_of_le hcmp this)
            · rw [hca] at hcj
              cases hcj
              exact le_refl _
          · intro j comp cj hjlt hj hcj
            rw [List.getElem?_append_left hjlt] at hj
            have := hall j comp cj hj hcj
            rw [ht] at hcmp
            exact lt_of_lt_of_le hcmp this
        · left
          simp only [closestStep, hca, hcmp, if_false]
          refine ⟨hbest, ht, ?_⟩
          intro j comp cj hj hcj
          rcases getElem?_concat_cases l a comp j hj with ⟨-, hj'⟩ | ⟨-, rfl⟩
          · exact hall j comp cj hj' hcj
          · rw [hca] at hcj
            cases hcj
            rw [← ht]
            exact not_lt.mp hcmp
    · -- component `i` is recorded
      have hil : i < l.length := by
        rcases List.getElem?_eq_some.mp hi with ⟨h, -⟩
        exact h
      have hi' : (l ++ [a])[i]? = some comp := by
        rw [List.getElem?_append_left hil]
        exact hi
      cases hca : candidate G T ray a with
      | none =>
        right
        refine ⟨i, comp, ci, hi', hci, ?_, hlt, ?_, ?_⟩
        · simp only [closestStep, hca]
          exact hstate
        · intro j comp' cj hj hcj
          rcases getElem?_concat_cases l a comp' j hj with ⟨-, hj'⟩ | ⟨-, rfl⟩
          · exact hmin j comp' cj hj' hcj
          · rw [hca] at hcj
            cases hcj
        · intro j comp' cj hjlt hj hcj
          rw [List.getElem?_append_left (lt_trans hjlt hil)] at hj
          exact hfirst j comp' cj hjlt hj hcj
      | some ca =>
        by_cases hcmp : ca.world_dist < (closestHit G T ray l).closest_t
        · right
          have hcmp' : ca.world_dist < ci.world_dist := by
            rw [hstate] at hcmp
            exact hcmp
          refine ⟨l.length, a, ca, List.getElem?_concat_length l a, hca, ?_,
            lt_trans hcmp' hlt, ?_, ?_⟩
          · simp only [closestStep, hca, hcmp, if_true]
          · intro j comp' cj hj hcj
            rcases getElem?_concat_cases l a comp' j hj with ⟨-, hj'⟩ | ⟨-, rfl⟩
            · exact le_of_lt (lt_of_lt_of_le hcmp' (hmin j comp' cj hj' hcj))
            · rw [hca] at hcj
              cases hcj
              exact le_refl _
          · intro j comp' cj hjlt hj hcj
            rw [List.getElem?_append_left hjlt] at hj
            exact lt_of_lt_of_le hcmp' (hmin j comp' cj hj hcj)
        · right
          have hcmp' : ci.world_dist ≤ ca.world_dist := by
            rw [hstate] at hcmp
            exact not_lt.mp hcmp
          refine ⟨i, comp, ci, hi', hci, ?_, hlt, ?_, ?_⟩
          · simp only [closestStep, hca, hcmp, if_false]
            exact hstate
          · intro j comp' cj hj hcj
            rcases getElem?_concat_cases l a comp' j hj with ⟨-, hj'⟩ | ⟨-, rfl⟩
            · exact hmin j comp' cj hj' hcj
            · rw [hca] at hcj
              cases hcj
              exact hcmp'
          · intro j comp' cj hjlt hj hcj
            rw [List.getElem?_append_left (lt_trans hjlt hil)] at hj
            exact hfirst j comp' cj hjlt hj hcj

/-! ## Evaluation on the concrete scenes -/

theorem inverse4_identity : inverse4 Mat4.identity = Mat4.identity := by
  norm_num [inverse4, Mat4.identity]

theorem inverse4_scale4 : inverse4 Mat4.scale4 =
    ⟨⟨1 / 4, 0, 0, 0⟩, ⟨0, 1 / 4, 0, 0⟩, ⟨0, 0, 1 / 4, 0⟩, ⟨0, 0, 0, 1⟩⟩ := by
  norm_num [inverse4, Mat4.scale4]

theorem applyTransform_identity (ray : Ray) : applyTransform ray Mat4.identity = ray := by
  cases ray with
  | mk o d =>
    simp [applyTransform, Mat4.mulVec, Vec4.ofVec3, Vec4.xyz, Mat4.identity]

theorem candidate_ground (T : Tracer) (hT : T.t_min = 0) (m : Option Material) :
    candidate referenceGlm T downRay (groundComponent m) =
      some { world_dist := 5, normal := ⟨0, 1, 0⟩, world_hit := ⟨0, 0, 0⟩ } := by
  have hint := plane_Intersect_scenario freshRecord freshRecord_time_gt
  have hsq : ratSqrt 25 = 5 := by
    have h := ratSqrt_mul_self 5 (by norm_num)
    norm_num at h
    exact h
  simp only [candidate, referenceGlm, groundComponent, Hittable.Intersect, inverse4_identity,
    applyTransform_identity, downRay, hT, hint, if_true]
  norm_num [Ray.At, Mat4.mulVec, Vec4.ofVec3, Vec4.xyz, Mat4.identity, length, dot, hsq,
    Vec3.add_x, Vec3.add_y, Vec3.add_z, Vec3.smul_x, Vec3.smul_y, Vec3.smul_z, Vec3.sub_x,
    Vec3.sub_y, Vec3.sub_z, Vec3.div_x, Vec3.div_y, Vec3.div_z, Vec3.ext_iff]

theorem candidate_farPlane :
    candidate referenceGlm farPlaneScene farPlaneRay
        { hittable := .plane { normal_ := ⟨1, 0, 0⟩, d_ := 2 ^ 126 }
          localToWorld := Mat4.scale4
          material := none } =
      some { world_dist := 2 ^ 128, normal := ⟨1, 0, 0⟩, world_hit := ⟨2 ^ 128, 0, 0⟩ } := by
  have hray : applyTransform farPlaneRay
      ⟨⟨1 / 4, 0, 0, 0⟩, ⟨0, 1 / 4, 0, 0⟩, ⟨0, 0, 1 / 4, 0⟩, ⟨0, 0, 0, 1⟩⟩ =
      { origin := ⟨0, 0, 0⟩, direction := ⟨1 / 2, 0, 0⟩ } := by
    norm_num [applyTransform, farPlaneRay, Mat4.mulVec, Vec4.ofVec3, Vec4.xyz]
  have ht : Plane.t { normal_ := ⟨1, 0, 0⟩, d_ := 2 ^ 126 }
      { origin := ⟨0, 0, 0⟩, direction := ⟨1 / 2, 0, 0⟩ } = 2 ^ 127 := by
    norm_num [Plane.t, Plane.denom, dot]
  have hd : Plane.denom { normal_ := ⟨1, 0, 0⟩, d_ := 2 ^ 126 }
      { origin := ⟨0, 0, 0⟩, direction := ⟨1 / 2, 0, 0⟩ } = 1 / 2 := by
    norm_num [Plane.denom, dot]
  have hb : (Plane.Intersect { normal_ := ⟨1, 0, 0⟩, d_ := 2 ^ 126 }
      { origin := ⟨0, 0, 0⟩, direction := ⟨1 / 2, 0, 0⟩ } 0 freshRecord).1 = true := by
    rw [plane_Intersect_fst_iff, ht, hd]
    refine ⟨by rw [abs_of_pos (by norm_num)]; norm_num, by norm_num,
      by norm_num [freshRecord, FLT_MAX]⟩
  have hint : Plane.Intersect { normal_ := ⟨1, 0, 0⟩, d_ := 2 ^ 126 }
      { origin := ⟨0, 0, 0⟩, direction := ⟨1 / 2, 0, 0⟩ } 0 freshRecord =
      (true, { time := 2 ^ 127, normal := ⟨1, 0, 0⟩ }) := by
    refine Prod.ext hb ?_
    rw [plane_Intersect_snd_of_true _ _ _ _ hb, ht]
  have hsq : ratSqrt (2 ^ 128 * 2 ^ 128) = 2 ^ 128 := ratSqrt_mul_self (2 ^ 128) (by norm_num)
  have ht0 : farPlaneScene.t_min = 0 := rfl
  simp only [candidate, referenceGlm, Hittable.Intersect, inverse4_scale4, hray, ht0, hint,
    if_true]
  have hhit : ((Mat4.scale4.mulVec (Vec4.ofVec3
      (Ray.At { origin := ⟨0, 0, 0⟩, direction := ⟨1 / 2, 0, 0⟩ } (2 ^ 127)) 1)).xyz /
      (Mat4.scale4.mulVec (Vec4.ofVec3
        (Ray.At { origin := ⟨0, 0, 0⟩, direction := ⟨1 / 2, 0, 0⟩ } (2 ^ 127)) 1)).w : Vec3) =
      ⟨2 ^ 128, 0, 0⟩ := by
    norm_num [Ray.At, Mat4.mulVec, Vec4.ofVec3, Vec4.xyz, Mat4.scale4, Vec3.add_x, Vec3.add_y,
      Vec3.add_z, Vec3.smul_x, Vec3.smul_y, Vec3.smul_z, Vec3.div_x, Vec3.div_y, Vec3.div_z,
      Vec3.ext_iff]
  rw [hhit]
  have hlen : length
      { sqrt := ratSqrt, inversesqrt := fun q => 1 / ratSqrt q,
        pow := fun base exponent => base ^ exponent.num.toNat, inverse4 := inverse4,
        applyTransform := applyTransform, freshRecord := freshRecord }
      ((⟨2 ^ 128, 0, 0⟩ : Vec3) - farPlaneRay.origin) = 2 ^ 128 := by
    have hdot : dot ((⟨2 ^ 128, 0, 0⟩ : Vec3) - farPlaneRay.origin)
        ((⟨2 ^ 128, 0, 0⟩ : Vec3) - farPlaneRay.origin) = 2 ^ 128 * 2 ^ 128 := by
      norm_num [dot, farPlaneRay, Vec3.sub_x, Vec3.sub_y, Vec3.sub_z]
    show ratSqrt _ = _
    rw [hdot, hsq]
  rw [hlen]

/-- The candidate of the loop body is the test of the entity in object space with the
world-space hit point and the world-space distance. -/
theorem candidate_eq_worldDistance (G : Glm) (T : Tracer) (ray : Ray)
    (comp : TracingComponent) :
    candidate G T ray comp =
      if (objectSpaceTest G T ray comp).1 = true then
        some { world_dist := worldDistance G T ray comp
               normal := (objectSpaceTest G T ray comp).2.normal
               world_hit := worldHitPoint G T ray comp }
      else none := rfl

theorem candidate_eq_some_iff (G : Glm) (T : Tracer) (ray : Ray) (comp : TracingComponent)
    (c : Candidate) :
    candidate G T ray comp = some c ↔
      (objectSpaceTest G T ray comp).1 = true ∧
        c = { world_dist := worldDistance G T ray comp
              normal := (objectSpaceTest G T ray comp).2.normal
              world_hit := worldHitPoint G T ray comp } := by
  rw [candidate_eq_worldDistance]
  by_cases h : (objectSpaceTest G T ray comp).1 = true
  · rw [if_pos h]
    constructor
    · intro hc
      exact ⟨h, (Option.some.inj hc).symm⟩
    · rintro ⟨-, hc⟩
      rw [hc]
  · rw [if_neg h]
    constructor
    · intro hc
      cases hc
    · rintro ⟨h', -⟩
      exact absurd h' h

/-- C3, as amended: the comparison key of the closest-hit search of `TraceRay` is the
world-space distance `worldDistance`, the length of (the hit point transformed back to world
space minus the ray origin).  If some entity's test succeeds at a world-space distance below
`FLT_MAX`, the search ends with `closest_t` equal to the least world-space distance among all
entities whose test succeeds, and it records the first entity in the collection's order at that
distance, with its object-space normal and world-space hit point.  If every successful test is
at world-space distance `FLT_MAX` or more, nothing is recorded. -/
theorem closestHit_first_minimum (G : Glm) (T : Tracer) (ray : Ray) :
    (∀ comp : TracingComponent,
      worldDistance G T ray comp =
        length G
          ((comp.localToWorld.mulVec (Vec4.ofVec3
              ((G.applyTransform ray (G.inverse4 comp.localToWorld)).origin
                + (comp.hittable.Intersect G
                    (G.applyTransform ray (G.inverse4 comp.localToWorld)) T.t_min
                    G.freshRecord).2.time
                  * (G.applyTransform ray (G.inverse4 comp.localToWorld)).direction) 1)).xyz
            / (comp.localToWorld.mulVec (Vec4.ofVec3
              ((G.applyTransform ray (G.inverse4 comp.localToWorld)).origin
                + (comp.hittable.Intersect G
                    (G.applyTransform ray (G.inverse4 comp.localToWorld)) T.t_min
                    G.freshRecord).2.time
                  * (G.applyTransform ray (G.inverse4 comp.localToWorld)).direction) 1)).w
            - ray.origin)) ∧
    ((∃ (j : ℕ) (comp : TracingComponent), T.tracing_components_[j]? = some comp ∧
        (objectSpaceTest G T ray comp).1 = true ∧ worldDistance G T ray comp < FLT_MAX) →
      ∃ (i : ℕ) (comp : TracingComponent),
        T.tracing_components_[i]? = some comp ∧
        (objectSpaceTest G T ray comp).1 = true ∧
        worldDistance G T ray comp < FLT_MAX ∧
        (closestHit G T ray T.tracing_components_).closest_t = worldDistance G T ray comp ∧
        (closestHit G T ray T.tracing_components_).best =
          some ({ world_dist := worldDistance G T ray comp
                  normal := (objectSpaceTest G T ray comp).2.normal
                  world_hit := worldHitPoint G T ray comp }, comp) ∧
        (∀ (j : ℕ) (comp' : TracingComponent), T.tracing_components_[j]? = some comp' →
          (objectSpaceTest G T ray comp').1 = true →
            worldDistance G T ray comp ≤ worldDistance G T ray comp') ∧
        (∀ (j : ℕ) (comp' : TracingComponent), j < i →
          T.tracing_components_[j]? = some comp' →
          (objectSpaceTest G T ray comp').1 = true →
            worldDistance G T ray comp < worldDistance G T ray comp')) ∧
    ((∀ (j : ℕ) (comp : TracingComponent), T.tracing_components_[j]? = some comp →
        (objectSpaceTest G T ray comp).1 = true → FLT_MAX ≤ worldDistance G T ray comp) →
      (closestHit G T ray T.tracing_components_).best = none ∧
        (closestHit G T ray T.tracing_components_).closest_t = FLT_MAX) := by
  refine ⟨fun comp => rfl, ?_, ?_⟩
  · rintro ⟨j, comp, hj, htest, hlt⟩
    have hcj := (candidate_eq_some_iff G T ray comp _).mpr ⟨htest, rfl⟩
    rcases closestHit_invariant G T ray T.tracing_components_ with
      ⟨-, -, hall⟩ | ⟨i, comp', ci, hi, hci, hstate, hlt', hmin, hfirst⟩
    · exact absurd hlt (not_lt.mpr (hall j comp _ hj hcj))
    · obtain ⟨htest', hci'⟩ := (candidate_eq_some_iff G T ray comp' ci).mp hci
      subst hci'
      refine ⟨i, comp', hi, htest', hlt', ?_, ?_, ?_, ?_⟩
      · rw [hstate]
      · rw [hstate]
      · intro j' comp'' hj' htest''
        exact hmin j' comp'' _ hj'
          ((candidate_eq_some_iff G T ray comp'' _).mpr ⟨htest'', rfl⟩)
      · intro j' comp'' hlt'' hj' htest''
        exact hfirst j' comp'' _ hlt'' hj'
          ((candidate_eq_some_iff G T ray comp'' _).mpr ⟨htest'', rfl⟩)
  · intro hall
    rcases closestHit_invariant G T ray T.tracing_components_ with
      ⟨hbest, ht, -⟩ | ⟨i, comp', ci, hi, hci, -, hlt', -, -⟩
    · exact ⟨hbest, ht⟩
    · obtain ⟨htest', hci'⟩ := (candidate_eq_some_iff G T ray comp' ci).mp hci
      subst hci'
      exact absurd hlt' (not_lt.mpr (hall i comp' hi htest'))

theorem objectSpaceTest_scaledGround :
    objectSpaceTest referenceGlm scaledGroundScene fastDownRay scaledGroundComponent =
      (true, { time := 5 / 2, normal := ⟨0, 1, 0⟩ }) := by
  have hray : applyTransform fastDownRay
      ⟨⟨1 / 4, 0, 0, 0⟩, ⟨0, 1 / 4, 0, 0⟩, ⟨0, 0, 1 / 4, 0⟩, ⟨0, 0, 0, 1⟩⟩ =
      { origin := ⟨0, 5 / 4, 0⟩, direction := ⟨0, -(1 / 2), 0⟩ } := by
    norm_num [applyTransform, fastDownRay, Mat4.mulVec, Vec4.ofVec3, Vec4.xyz]
  have ht : Plane.t { normal_ := ⟨0, 1, 0⟩, d_ := 0 }
      { origin := ⟨0, 5 / 4, 0⟩, direction := ⟨0, -(1 / 2), 0⟩ } = 5 / 2 := by
    norm_num [Plane.t, Plane.denom, dot]
  have hd : Plane.denom { normal_ := ⟨0, 1, 0⟩, d_ := 0 }
      { origin := ⟨0, 5 / 4, 0⟩, direction := ⟨0, -(1 / 2), 0⟩ } = -(1 / 2) := by
    norm_num [Plane.denom, dot]
  have hb : (Plane.Intersect { normal_ := ⟨0, 1, 0⟩, d_ := 0 }
      { origin := ⟨0, 5 / 4, 0⟩, direction := ⟨0, -(1 / 2), 0⟩ } 0 freshRecord).1 = true := by
    rw [plane_Intersect_fst_iff, ht, hd]
    refine ⟨?_, by norm_num, by norm_num [freshRecord, FLT_MAX]⟩
    rw [abs_neg, abs_of_pos (by norm_num)]
    norm_num
  have hint : Plane.Intersect { normal_ := ⟨0, 1, 0⟩, d_ := 0 }
      { origin := ⟨0, 5 / 4, 0⟩, direction := ⟨0, -(1 / 2), 0⟩ } 0 freshRecord =
      (true, { time := 5 / 2, normal := ⟨0, 1, 0⟩ }) := by
    refine Prod.ext hb ?_
    rw [plane_Intersect_snd_of_true _ _ _ _ hb, ht]
  have ht0 : scaledGroundScene.t_min = 0 := rfl
  have hl : scaledGroundComponent.localToWorld = Mat4.scale4 := rfl
  have hh : scaledGroundComponent.hittable = .plane { normal_ := ⟨0, 1, 0⟩, d_ := 0 } := rfl
  simp only [objectSpaceTest, referenceGlm, hl, hh, Hittable.Intersect, inverse4_scale4, hray,
    ht0, hint]

theorem worldHitPoint_scaledGround :
    worldHitPoint referenceGlm scaledGroundScene fastDownRay scaledGroundComponent
      = ⟨0, 0, 0⟩ := by
  have hray : applyTransform fastDownRay
      ⟨⟨1 / 4, 0, 0, 0⟩, ⟨0, 1 / 4, 0, 0⟩, ⟨0, 0, 1 / 4, 0⟩, ⟨0, 0, 0, 1⟩⟩ =
      { origin := ⟨0, 5 / 4, 0⟩, direction := ⟨0, -(1 / 2), 0⟩ } := by
    norm_num [applyTransform, fastDownRay, Mat4.mulVec, Vec4.ofVec3, Vec4.xyz]
  have hl : scaledGroundComponent.localToWorld = Mat4.scale4 := rfl
  unfold worldHitPoint
  rw [objectSpaceTest_scaledGround]
  simp only [referenceGlm, hl, inverse4_scale4, hray]
  norm_num [Mat4.mulVec, Vec4.ofVec3, Vec4.xyz, Mat4.scale4, Vec3.add_x, Vec3.add_y,
    Vec3.add_z, Vec3.smul_x, Vec3.smul_y, Vec3.smul_z, Vec3.div_x, Vec3.div_y, Vec3.div_z,
    Vec3.ext_iff]

theorem worldDistance_scaledGround :
    worldDistance referenceGlm scaledGroundScene fastDownRay scaledGroundComponent = 5 := by
  unfold worldDistance
  rw [worldHitPoint_scaledGround]
  have hdot : dot ((⟨0, 0, 0⟩ : Vec3) - fastDownRay.origin)
      ((⟨0, 0, 0⟩ : Vec3) - fastDownRay.origin) = 5 * 5 := by
    norm_num [dot, fastDownRay, Vec3.sub_x, Vec3.sub_y, Vec3.sub_z]
  show ratSqrt _ = _
  rw [hdot]
  exact ratSqrt_mul_self 5 (by norm_num)

/-- The amended C3 on the scaled ground plane and a ray whose direction has length 2: the test
succeeds at the object-space time `5/2`, the world-space distance is 5, and the search ends
with `closest_t = 5`, the world-space distance, not the time. -/
theorem closestHit_first_minimum_witness :
    (objectSpaceTest referenceGlm scaledGroundScene fastDownRay scaledGroundComponent).2.time
      = 5 / 2 ∧
    worldDistance referenceGlm scaledGroundScene fastDownRay scaledGroundComponent = 5 ∧
    ∃ (i : ℕ) (comp : TracingComponent),
      scaledGroundScene.tracing_components_[i]? = some comp ∧
      (objectSpaceTest referenceGlm scaledGroundScene fastDownRay comp).1 = true ∧
      worldDistance referenceGlm scaledGroundScene fastDownRay comp < FLT_MAX ∧
      (closestHit referenceGlm scaledGroundScene fastDownRay
        scaledGroundScene.tracing_components_).closest_t
          = worldDistance referenceGlm scaledGroundScene fastDownRay comp ∧
      (closestHit referenceGlm scaledGroundScene fastDownRay
        scaledGroundScene.tracing_components_).best =
          some ({ world_dist := worldDistance referenceGlm scaledGroundScene fastDownRay comp
                  normal := (objectSpaceTest referenceGlm scaledGroundScene fastDownRay
                    comp).2.normal
                  world_hit := worldHitPoint referenceGlm scaledGroundScene fastDownRay comp },
            comp) ∧
      (∀ (j : ℕ) (comp' : TracingComponent),
        scaledGroundScene.tracing_components_[j]? = some comp' →
        (objectSpaceTest referenceGlm scaledGroundScene fastDownRay comp').1 = true →
          worldDistance referenceGlm scaledGroundScene fastDownRay comp
            ≤ worldDistance referenceGlm scaledGroundScene fastDownRay comp') ∧
      (∀ (j : ℕ) (comp' : TracingComponent), j < i →
        scaledGroundScene.tracing_components_[j]? = some comp' →
        (objectSpaceTest referenceGlm scaledGroundScene fastDownRay comp').1 = true →
          worldDistance referenceGlm scaledGroundScene fastDownRay comp
            < worldDistance referenceGlm scaledGroundScene fastDownRay comp') :=
  ⟨by rw [objectSpaceTest_scaledGround], worldDistance_scaledGround,
    (closestHit_first_minimum referenceGlm scaledGroundScene fastDownRay).2.1
      ⟨0, scaledGroundComponent, rfl, by rw [objectSpaceTest_scaledGround],
        by rw [worldDistance_scaledGround]; norm_num [FLT_MAX]⟩⟩

/-- C3 as stated fails: in the far-plane scene the only component's test succeeds, at
world-space distance `2^128`, which is not below the initial `closest_t = FLT_MAX`; the search
records no hit and `TraceRay` returns the background color.  (In `float` arithmetic the
distance is `+inf` and the comparison fails the same way.) -/
theorem closestHit_far_hit_not_recorded :
    (∃ comp ∈ farPlaneScene.tracing_components_,
      candidate referenceGlm farPlaneScene farPlaneRay comp =
        some { world_dist := 2 ^ 128, normal := ⟨1, 0, 0⟩, world_hit := ⟨2 ^ 128, 0, 0⟩ }) ∧
    (closestHit referenceGlm farPlaneScene farPlaneRay
      farPlaneScene.tracing_components_).best = none ∧
    TraceRay referenceGlm farPlaneScene farPlaneRay 0 freshRecord =
      .ok (farPlaneScene.background_color_, freshRecord) := by
  have hcomps : farPlaneScene.tracing_components_ =
      [{ hittable := .plane { normal_ := ⟨1, 0, 0⟩, d_ := 2 ^ 126 }
         localToWorld := Mat4.scale4
         material := none }] := rfl
  have hbest : (closestHit referenceGlm farPlaneScene farPlaneRay
      farPlaneScene.tracing_components_).best = none := by
    rw [hcomps, closestHit_singleton]
    simp only [closestStep, candidate_farPlane]
    rw [if_neg (by norm_num [FLT_MAX])]
  refine ⟨⟨_, ?_, candidate_farPlane⟩, hbest, ?_⟩
  · rw [hcomps]
    exact List.mem_singleton.mpr rfl
  · rw [TraceRay_of_no_hit _ _ _ _ _ hbest]
    rfl

/-! ## Shading composition -/

theorem Vec3_add_assoc (a b c : Vec3) : a + b + c = a + (b + c) := by
  ext <;> simp only [Vec3.add_x, Vec3.add_y, Vec3.add_z] <;> ring

theorem Vec3_add_zero (a : Vec3) : a + 0 = a := by
  ext <;> simp only [Vec3.add_x, Vec3.add_y, Vec3.add_z, Vec3.zero_x, Vec3.zero_y, Vec3.zero_z]
    <;> ring

theorem Vec3_zero_add (a : Vec3) : 0 + a = a := by
  ext <;> simp only [Vec3.add_x, Vec3.add_y, Vec3.add_z, Vec3.zero_x, Vec3.zero_y, Vec3.zero_z]
    <;> ring

theorem ambientSum_nil (material : Material) : ambientSum material [] = 0 := rfl

theorem ambientSum_cons_ambient (material : Material) (lc : LightComponent)
    (rest : List LightComponent) (color : Vec3) (h : lc.light = .Ambient color) :
    ambientSum material (lc :: rest) = material.ambient * color + ambientSum material rest := by
  simp only [ambientSum, List.filterMap_cons, h, List.sum_cons]

theorem ambientSum_cons_other (material : Material) (lc : LightComponent)
    (rest : List LightComponent) (h : ∀ color, lc.light ≠ .Ambient color) :
    ambientSum material (lc :: rest) = ambientSum material rest := by
  cases hl : lc.light with
  | Ambient color => exact absurd hl (h color)
  | Point c a => simp only [ambientSum, List.filterMap_cons, hl]
  | Directional d c => simp only [ambientSum, List.filterMap_cons, hl]

theorem ambientLoop_eq (material : Material) (lights : List LightComponent) (color : Vec3) :
    ambientLoop material lights color = color + ambientSum material lights := by
  induction lights generalizing color with
  | nil =>
    show color = color + ambientSum material []
    rw [ambientSum_nil, Vec3_add_zero]
  | cons lc rest ih =>
    cases hl : lc.light with
    | Ambient c =>
      have hstep : ambientLoop material (lc :: rest) color =
          ambientLoop material rest (color + material.ambient * c) := by
        simp only [ambientLoop, List.foldl_cons, hl]
      rw [hstep, ih, ambientSum_cons_ambient material lc rest c hl, Vec3_add_assoc]
    | Point c a =>
      have hstep : ambientLoop material (lc :: rest) color = ambientLoop material rest color := by
        simp only [ambientLoop, List.foldl_cons, hl]
      rw [hstep, ih, ambientSum_cons_other material lc rest (by intro c0 h0; rw [hl] at h0; cases h0)]
    | Directional d c =>
      have hstep : ambientLoop material (lc :: rest) color = ambientLoop material rest color := by
        simp only [ambientLoop, List.foldl_cons, hl]
      rw [hstep, ih, ambientSum_cons_other material lc rest (by intro c0 h0; rw [hl] at h0; cases h0)]

theorem directTerm_eq_phongTerm (G : Glm) (n view_dir : Vec3) (material : Material)
    (i : Illumination) :
    directTerm G n view_dir material i =
      phongTerm G n view_dir material i.dir_to_light i.intensity := rfl

/-- For a light that is not ambient, `GetIllumination` returns normally. -/
theorem GetIllumination_ok_of_not_ambient (G : Glm) (lc : LightComponent) (hit_pos : Vec3)
    (h : ∀ color, lc.light ≠ .Ambient color) : ∃ i, GetIllumination G lc hit_pos = .ok i := by
  cases hl : lc.light with
  | Ambient color => exact absurd hl (h color)
  | Point c a =>
    simp only [GetIllumination, hl]
    exact ⟨_, rfl⟩
  | Directional d c =>
    simp only [GetIllumination, hl]
    exact ⟨_, rfl⟩

theorem directLoop_cons_ambient (G : Glm) (T : Tracer) (hit_point normal view_dir : Vec3)
    (material : Material) (lc : LightComponent) (rest : List LightComponent) (color c : Vec3)
    (h : lc.light = .Ambient c) :
    directLoop G T hit_point normal view_dir material (lc :: rest) color =
      directLoop G T hit_point normal view_dir material rest color := by
  rw [directLoop]
  simp only [h]

theorem directLoop_cons_other (G : Glm) (T : Tracer) (hit_point normal view_dir : Vec3)
    (material : Material) (lc : LightComponent) (rest : List LightComponent) (color : Vec3)
    (i : Illumination) (h : ∀ c, lc.light ≠ .Ambient c)
    (hi : GetIllumination G lc hit_point = .ok i) :
    directLoop G T hit_point normal view_dir material (lc :: rest) color =
      if inShadow G T hit_point i.dir_to_light i.dist_to_light = true then
        directLoop G T hit_point normal view_dir material rest color
      else
        directLoop G T hit_point normal view_dir material rest
          (color + directTerm G normal view_dir material i) := by
  rw [directLoop]
  cases hl : lc.light with
  | Ambient c => exact absurd hl (h c)
  | Point c a => simp only [hi]
  | Directional d c => simp only [hi]

theorem directSum_nil (G : Glm) (T : Tracer) (hit_point n view_dir : Vec3)
    (material : Material) : directSum G T hit_point n view_dir material [] = 0 := rfl

theorem directSum_cons_ambient (G : Glm) (T : Tracer) (hit_point n view_dir : Vec3)
    (material : Material) (lc : LightComponent) (rest : List LightComponent) (c : Vec3)
    (h : lc.light = .Ambient c) :
    directSum G T hit_point n view_dir material (lc :: rest) =
      directSum G T hit_point n view_dir material rest := by
  simp only [directSum, List.filterMap_cons, h]

theorem directSum_cons_other (G : Glm) (T : Tracer) (hit_point n view_dir : Vec3)
    (material : Material) (lc : LightComponent) (rest : List LightComponent)
    (i : Illumination) (h : ∀ c, lc.light ≠ .Ambient c)
    (hi : GetIllumination G lc hit_point = .ok i) :
    directSum G T hit_point n view_dir material (lc :: rest) =
      if inShadow G T hit_point i.dir_to_light i.dist_to_light = true then
        directSum G T hit_point n view_dir material rest
      else
        phongTerm G n view_dir material i.dir_to_light i.intensity
          + directSum G T hit_point n view_dir material rest := by
  cases hl : lc.light with
  | Ambient c => exact absurd hl (h c)
  | Point c a =>
    by_cases hs : inShadow G T hit_point i.dir_to_light i.dist_to_light = true
    · simp only [directSum, List.filterMap_cons, hl, hi, hs, if_true]
    · simp only [directSum, List.filterMap_cons, hl, hi, hs, Bool.false_eq_true, if_false,
        List.sum_cons]
  | Directional d c =>
    by_cases hs : inShadow G T hit_point i.dir_to_light i.dist_to_light = true
    · simp only [directSum, List.filterMap_cons, hl, hi, hs, if_true]
    · simp only [directSum, List.filterMap_cons, hl, hi, hs, Bool.false_eq_true, if_false,
        List.sum_cons]

theorem directLoop_eq (G : Glm) (T : Tracer) (hit_point normal view_dir : Vec3)
    (material : Material) (lights : List LightComponent) (color : Vec3) :
    directLoop G T hit_point normal view_dir material lights color =
      .ok (color + directSum G T hit_point normal view_dir material lights) := by
  induction lights generalizing color with
  | nil =>
    rw [directSum_nil, Vec3_add_zero]
    rfl
  | cons lc rest ih =>
    by_cases hamb : ∃ c, lc.light = .Ambient c
    · obtain ⟨c, hc⟩ := hamb
      rw [directLoop_cons_ambient G T hit_point normal view_dir material lc rest color c hc, ih,
        directSum_cons_ambient G T hit_point normal view_dir material lc rest c hc]
    · have hna : ∀ c, lc.light ≠ .Ambient c := fun c hc => hamb ⟨c, hc⟩
      obtain ⟨i, hi⟩ := GetIllumination_ok_of_not_ambient G lc hit_point hna
      rw [directLoop_cons_other G T hit_point normal view_dir material lc rest color i hna hi,
        directSum_cons_other G T hit_point normal view_dir material lc rest i hna hi]
      by_cases hs : inShadow G T hit_point i.dir_to_light i.dist_to_light = true
      · rw [if_pos hs, if_pos hs, ih]
      · rw [if_neg hs, if_neg hs, ih, directTerm_eq_phongTerm, Vec3_add_assoc]

theorem inShadow_of_disabled (G : Glm) (T : Tracer) (hit_point light_dir : Vec3)
    (light_dist : ℚ) (h : T.shadows_enabled_ = false) :
    inShadow G T hit_point light_dir light_dist = false := by
  unfold inShadow
  rw [if_neg (by rw [h]; exact Bool.false_ne_true)]

theorem directSum_of_disabled (G : Glm) (T : Tracer) (hit_point n view_dir : Vec3)
    (material : Material) (lights : List LightComponent) (h : T.shadows_enabled_ = false) :
    directSum G T hit_point n view_dir material lights =
      directSumAll G hit_point n view_dir material lights := by
  unfold directSum directSumAll
  congr 1
  apply List.filterMap_congr
  intro lc _
  cases hl : lc.light with
  | Ambient c => rfl
  | Point c a =>
    cases hi : GetIllumination G lc hit_point with
    | error e => rfl
    | ok i => simp only [inShadow_of_disabled G T _ _ _ h, Bool.false_eq_true, if_false]
  | Directional d c =>
    cases hi : GetIllumination G lc hit_point with
    | error e => rfl
    | ok i => simp only [inShadow_of_disabled G T _ _ _ h, Bool.false_eq_true, if_false]

theorem ComputePhongShading_eq_sums (G : Glm) (T : Tracer) (hit_point normal ray_dir : Vec3)
    (material : Material) :
    ComputePhongShading G T hit_point normal ray_dir material =
      .ok (ambientSum material T.light_components_ +
        directSum G T hit_point normal (normalize G (-ray_dir)) material T.light_components_) := by
  unfold ComputePhongShading
  simp only []
  rw [directLoop_eq, ambientLoop_eq, Vec3_zero_add]

/-- C8: `ComputePhongShading` returns the sum over the Ambient lights of
`material.ambient * light.color` plus the sum, over every non-ambient light not found occluded,
of `max(0, dot(n, dir)) * diffuse * intensity
  + pow(max(0, dot(reflect(-dir, n), view_dir)), shininess) * specular * intensity`,
with `(dir, intensity, dist)` from `GetIllumination` and `view_dir = normalize(-ray_dir)`.  The
ambient term does not depend on the components of the scene, and with shadows disabled the
second sum runs over every non-ambient light. -/
theorem ComputePhongShading_composition (G : Glm) (T : Tracer) (hit_point normal ray_dir : Vec3)
    (material : Material) :
    ComputePhongShading G T hit_point normal ray_dir material =
      .ok (ambientSum material T.light_components_ +
        directSum G T hit_point normal (normalize G (-ray_dir)) material
          T.light_components_) ∧
    (T.shadows_enabled_ = false →
      ComputePhongShading G T hit_point normal ray_dir material =
        .ok (ambientSum material T.light_components_ +
          directSumAll G hit_point normal (normalize G (-ray_dir)) material
            T.light_components_)) := by
  refine ⟨ComputePhongShading_eq_sums G T hit_point normal ray_dir material, ?_⟩
  intro h
  rw [ComputePhongShading_eq_sums, directSum_of_disabled G T _ _ _ _ _ h]

/-! ## Shadows -/

theorem inShadow_of_occluder (G : Glm) (T : Tracer) (hit_point light_dir : Vec3)
    (light_dist : ℚ) (hs : T.shadows_enabled_ = true)
    (hocc : ∃ comp ∈ T.tracing_components_, ∃ c : Candidate,
      candidate G T { origin := hit_point + kEpsilon * light_dir, direction := light_dir } comp
        = some c ∧ c.world_dist < light_dist - kEpsilon) :
    inShadow G T hit_point light_dir light_dist = true := by
  obtain ⟨comp, hmem, c, hc, hlt⟩ := hocc
  unfold inShadow
  rw [if_pos hs]
  simp only []
  rw [List.any_eq_true]
  refine ⟨comp, hmem, ?_⟩
  rw [hc]
  exact decide_eq_true hlt

theorem TraceRay_of_no_material (G : Glm) (T : Tracer) (ray : Ray) (bounces : ℕ)
    (record : HitRecord) (c : Candidate) (hit_component : TracingComponent)
    (hbest : (closestHit G T ray T.tracing_components_).best = some (c, hit_component))
    (hmat : hit_component.material = none) :
    TraceRay G T ray bounces record =
      .ok (⟨1, 0, 1⟩,
        { time := (closestHit G T ray T.tracing_components_).closest_t
          normal := normalWorld G hit_component c.normal }) := by
  unfold TraceRay
  simp only [hbest, hmat]

theorem TraceRay_zero (G : Glm) (T : Tracer) (ray : Ray) (record : HitRecord) (c : Candidate)
    (hit_component : TracingComponent) (material : Material) (color : Vec3)
    (hbest : (closestHit G T ray T.tracing_components_).best = some (c, hit_component))
    (hmat : hit_component.material = some material)
    (hlocal : ComputePhongShading G T c.world_hit (normalWorld G hit_component c.normal)
      ray.direction material = .ok color) :
    TraceRay G T ray 0 record =
      .ok (color,
        { time := (closestHit G T ray T.tracing_components_).closest_t
          normal := normalWorld G hit_component c.normal }) := by
  unfold TraceRay
  simp only [hbest, hmat, hlocal]

theorem TraceRay_succ (G : Glm) (T : Tracer) (ray : Ray) (b : ℕ) (record : HitRecord)
    (c : Candidate) (hit_component : TracingComponent) (material : Material) (color : Vec3)
    (hbest : (closestHit G T ray T.tracing_components_).best = some (c, hit_component))
    (hmat : hit_component.material = some material)
    (hlocal : ComputePhongShading G T c.world_hit (normalWorld G hit_component c.normal)
      ray.direction material = .ok color) :
    TraceRay G T ray (b + 1) record =
      if reflectivity material > 1 / 100 then
        match TraceRay G T
          (reflectRay G ray c.world_hit (normalWorld G hit_component c.normal)) b
          G.freshRecord with
        | .error e => .error e
        | .ok (reflect_color, _) =>
          .ok (color + material.specular * reflect_color,
            { time := (closestHit G T ray T.tracing_components_).closest_t
              normal := normalWorld G hit_component c.normal })
      else
        .ok (color,
          { time := (closestHit G T ray T.tracing_components_).closest_t
            normal := normalWorld G hit_component c.normal }) := by
  rw [TraceRay]
  simp only [hbest, hmat, hlocal]

/-- The method `TraceRay` returns a color and a record on every input. -/
theorem TraceRay_ok (G : Glm) (T : Tracer) (bounces : ℕ) (ray : Ray) (record : HitRecord) :
    ∃ color record', TraceRay G T ray bounces record = .ok (color, record') := by
  induction bounces generalizing ray record with
  | zero =>
    cases hbest : (closestHit G T ray T.tracing_components_).best with
    | none => exact ⟨_, _, TraceRay_of_no_hit G T ray 0 record hbest⟩
    | some w =>
      obtain ⟨c, hit_component⟩ := w
      cases hmat : hit_component.material with
      | none => exact ⟨_, _, TraceRay_of_no_material G T ray 0 record c hit_component hbest hmat⟩
      | some material =>
        exact ⟨_, _, TraceRay_zero G T ray record c hit_component material _ hbest hmat
          (ComputePhongShading_eq_sums G T _ _ _ _)⟩
  | succ b ih =>
    cases hbest : (closestHit G T ray T.tracing_components_).best with
    | none => exact ⟨_, _, TraceRay_of_no_hit G T ray (b + 1) record hbest⟩
    | some w =>
      obtain ⟨c, hit_component⟩ := w
      cases hmat : hit_component.material with
      | none =>
        exact ⟨_, _, TraceRay_of_no_material G T ray (b + 1) record c hit_component hbest hmat⟩
      | some material =>
        rw [TraceRay_succ G T ray b record c hit_component material _ hbest hmat
          (ComputePhongShading_eq_sums G T _ _ _ _)]
        by_cases hr : reflectivity material > 1 / 100
        · rw [if_pos hr]
          obtain ⟨rc, rr, hrec⟩ := ih
            (reflectRay G ray c.world_hit (normalWorld G hit_component c.normal)) G.freshRecord
          rw [hrec]
          exact ⟨_, _, rfl⟩
        · rw [if_neg hr]
          exact ⟨_, _, rfl⟩

theorem TraceRayCalls_zero (G : Glm) (T : Tracer) (ray : Ray) : TraceRayCalls G T ray 0 = [] := by
  unfold TraceRayCalls
  split
  · rfl
  · simp only []
    split
    · rfl
    · split <;> rfl

/-- The chain started with budget `b + 1` is empty or is the reflection call with budget `b`
followed by the chain of that call. -/
theorem TraceRayCalls_succ (G : Glm) (T : Tracer) (ray : Ray) (b : ℕ) :
    TraceRayCalls G T ray (b + 1) = [] ∨
      ∃ reflect_ray : Ray,
        TraceRayCalls G T ray (b + 1) = (reflect_ray, b) :: TraceRayCalls G T reflect_ray b := by
  rw [TraceRayCalls]
  split
  · exact Or.inl rfl
  · simp only []
    split
    · exact Or.inl rfl
    · split
      · exact Or.inl rfl
      · split
        · exact Or.inr ⟨_, rfl⟩
        · exact Or.inl rfl

theorem TraceRayCalls_budget (G : Glm) (T : Tracer) (N : ℕ) (ray : Ray) (k : ℕ)
    (call : Ray × ℕ) (h : (TraceRayCalls G T ray N)[k]? = some call) : call.2 + k + 1 = N := by
  induction N generalizing ray k with
  | zero =>
    rw [TraceRayCalls_zero] at h
    simp at h
  | succ b ih =>
    rcases TraceRayCalls_succ G T ray b with hnil | ⟨reflect_ray, hcons⟩
    · rw [hnil] at h
      simp at h
    · rw [hcons] at h
      cases k with
      | zero =>
        simp only [List.getElem?_cons_zero, Option.some.injEq] at h
        rw [← h]
      | succ k =>
        simp only [List.getElem?_cons_succ] at h
        have := ih reflect_ray k h
        omega

theorem TraceRayCalls_length_le (G : Glm) (T : Tracer) (N : ℕ) (ray : Ray) :
    (TraceRayCalls G T ray N).length ≤ N := by
  induction N generalizing ray with
  | zero => rw [TraceRayCalls_zero]; exact le_refl _
  | succ b ih =>
    rcases TraceRayCalls_succ G T ray b with hnil | ⟨reflect_ray, hcons⟩
    · rw [hnil]
      exact Nat.zero_le _
    · rw [hcons, List.length_cons]
      exact Nat.succ_le_succ (ih reflect_ray)

/-- C6: `TraceRay`, defined by recursion on its bounce budget, returns a color on every scene,
ray and record; with `bounces = 0` it makes no recursive call whatever the material; and the
chain of nested calls started by `TraceRay(ray, N)` has at most `N` calls, the call at depth
`k + 1` running with budget `N - (k + 1)`. -/
theorem TraceRay_terminates_within_budget (G : Glm) (T : Tracer) :
    (∀ (ray : Ray) (bounces : ℕ) (record : HitRecord),
      ∃ color record', TraceRay G T ray bounces record = .ok (color, record')) ∧
    (∀ ray : Ray, TraceRayCalls G T ray 0 = []) ∧
    (∀ (ray : Ray) (N : ℕ), (TraceRayCalls G T ray N).length ≤ N) ∧
    (∀ (ray : Ray) (N k : ℕ) (call : Ray × ℕ),
      (TraceRayCalls G T ray N)[k]? = some call → call.2 + k + 1 = N) :=
  ⟨fun ray bounces record => TraceRay_ok G T bounces ray record,
    TraceRayCalls_zero G T,
    fun ray N => TraceRayCalls_length_le G T N ray,
    fun ray N k call h => TraceRayCalls_budget G T N ray k call h⟩

/-- C7: for a ray whose closest hit is on a component with a material, with `local` the Phong
color at the hit, `s` the specular color and `r` the reflection of the normalized ray direction
about the world normal: when `bounces > 0` and `(s.r + s.g + s.b) / 3 > 0.01`, `TraceRay`
returns `local + s * reflected`, where `reflected` is the color `TraceRay` returns for the ray
from `hit_point + 0.001 * r` along `r` with `bounces - 1`; otherwise it returns `local`. -/
theorem TraceRay_reflection_composition (G : Glm) (T : Tracer) (ray : Ray) (bounces : ℕ)
    (record : HitRecord) (c : Candidate) (hit_component : TracingComponent)
    (material : Material) (localColor r : Vec3)
    (hbest : (closestHit G T ray T.tracing_components_).best = some (c, hit_component))
    (hmat : hit_component.material = some material)
    (hlocal : ComputePhongShading G T c.world_hit (normalWorld G hit_component c.normal)
      ray.direction material = .ok localColor)
    (hr : r = reflect (normalize G ray.direction) (normalWorld G hit_component c.normal)) :
    (0 < bounces ∧
        (material.specular.x + material.specular.y + material.specular.z) / 3 > 1 / 100 →
      ∃ (reflected : Vec3) (reflect_record : HitRecord),
        TraceRay G T { origin := c.world_hit + (1 / 1000 : ℚ) * r, direction := r }
          (bounces - 1) G.freshRecord = .ok (reflected, reflect_record) ∧
        TraceRay G T ray bounces record =
          .ok (localColor + material.specular * reflected,
            { time := (closestHit G T ray T.tracing_components_).closest_t
              normal := normalWorld G hit_component c.normal })) ∧
    (¬ (0 < bounces ∧
        (material.specular.x + material.specular.y + material.specular.z) / 3 > 1 / 100) →
      TraceRay G T ray bounces record =
        .ok (localColor,
          { time := (closestHit G T ray T.tracing_components_).closest_t
            normal := normalWorld G hit_component c.normal })) := by
  have hray : ({ origin := c.world_hit + (1 / 1000 : ℚ) * r, direction := r } : Ray) =
      reflectRay G ray c.world_hit (normalWorld G hit_component c.normal) := by
    rw [hr]
    rfl
  cases bounces with
  | zero =>
    constructor
    · rintro ⟨hpos, -⟩
      exact absurd hpos (lt_irrefl 0)
    · intro _
      exact TraceRay_zero G T ray record c hit_component material localColor hbest hmat hlocal
  | succ b =>
    have hstep := TraceRay_succ G T ray b record c hit_component material localColor hbest hmat
      hlocal
    constructor
    · rintro ⟨-, hrefl⟩
      have hrefl' : reflectivity material > 1 / 100 := hrefl
      obtain ⟨reflected, reflect_record, hrec⟩ := TraceRay_ok G T b
        (reflectRay G ray c.world_hit (normalWorld G hit_component c.normal)) G.freshRecord
      refine ⟨reflected, reflect_record, ?_, ?_⟩
      · rw [hray]
        exact hrec
      · rw [hstep, if_pos hrefl', hrec]
    · intro hnot
      have hrefl : ¬ reflectivity material > 1 / 100 := fun h => hnot ⟨Nat.succ_pos b, h⟩
      rw [hstep, if_neg hrefl]

/-! ## The theorems on the concrete scenes -/

theorem closestHit_mirrorScene :
    closestHit referenceGlm mirrorScene downRay mirrorScene.tracing_components_ =
      { closest_t := 5
        best := some ({ world_dist := 5, normal := ⟨0, 1, 0⟩, world_hit := ⟨0, 0, 0⟩ },
          groundComponent (some mirrorMaterial)) } := by
  have hcomps : mirrorScene.tracing_components_ = [groundComponent (some mirrorMaterial)] := rfl
  rw [hcomps, closestHit_singleton]
  simp only [closestStep, candidate_ground mirrorScene rfl (some mirrorMaterial)]
  rw [if_pos (by norm_num [FLT_MAX])]

theorem ComputePhongShading_mirrorScene (hit_point normal ray_dir : Vec3)
    (material : Material) :
    ComputePhongShading referenceGlm mirrorScene hit_point normal ray_dir material = .ok 0 := by
  rw [ComputePhongShading_eq_sums]
  have hl : mirrorScene.light_components_ = [] := rfl
  rw [hl, ambientSum_nil, directSum_nil, Vec3_add_zero]

/-- The two cases of C7 on the mirrored ground plane hit by the downward ray with one bounce
left. -/
theorem TraceRay_reflection_composition_witness :
    (closestHit referenceGlm mirrorScene downRay mirrorScene.tracing_components_).best =
      some ({ world_dist := 5, normal := ⟨0, 1, 0⟩, world_hit := ⟨0, 0, 0⟩ },
        groundComponent (some mirrorMaterial)) ∧
    (0 < 1 ∧ (mirrorMaterial.specular.x + mirrorMaterial.specular.y
      + mirrorMaterial.specular.z) / 3 > 1 / 100) ∧
    ∃ (reflected : Vec3) (reflect_record : HitRecord),
      TraceRay referenceGlm mirrorScene
        { origin := (⟨0, 0, 0⟩ : Vec3) + (1 / 1000 : ℚ) *
            reflect (normalize referenceGlm downRay.direction)
              (normalWorld referenceGlm (groundComponent (some mirrorMaterial)) ⟨0, 1, 0⟩)
          direction := reflect (normalize referenceGlm downRay.direction)
            (normalWorld referenceGlm (groundComponent (some mirrorMaterial)) ⟨0, 1, 0⟩) }
        (1 - 1) referenceGlm.freshRecord = .ok (reflected, reflect_record) ∧
      TraceRay referenceGlm mirrorScene downRay 1 freshRecord =
        .ok (0 + mirrorMaterial.specular * reflected,
          { time := (closestHit referenceGlm mirrorScene downRay
              mirrorScene.tracing_components_).closest_t
            normal := normalWorld referenceGlm (groundComponent (some mirrorMaterial))
              ⟨0, 1, 0⟩ }) :=
  have hbest : (closestHit referenceGlm mirrorScene downRay
      mirrorScene.tracing_components_).best =
      some ({ world_dist := 5, normal := ⟨0, 1, 0⟩, world_hit := ⟨0, 0, 0⟩ },
        groundComponent (some mirrorMaterial)) := by
    rw [closestHit_mirrorScene]
  have hcond : 0 < 1 ∧ (mirrorMaterial.specular.x + mirrorMaterial.specular.y
      + mirrorMaterial.specular.z) / 3 > 1 / 100 := by
    norm_num [mirrorMaterial]
  ⟨hbest, hcond,
    (TraceRay_reflection_composition referenceGlm mirrorScene downRay 1 freshRecord
      { world_dist := 5, normal := ⟨0, 1, 0⟩, world_hit := ⟨0, 0, 0⟩ }
      (groundComponent (some mirrorMaterial)) mirrorMaterial 0 _ hbest rfl
      (ComputePhongShading_mirrorScene _ _ _ _) rfl).1 hcond⟩

theorem GetIllumination_overheadLight :
    GetIllumination referenceGlm overheadLight ⟨0, 0, 0⟩ =
      .ok { dir_to_light := ⟨0, 1, 0⟩, intensity := ⟨1 / 100, 1 / 100, 1 / 100⟩,
            dist_to_light := 10 } := by
  have hv : (overheadLight.localToWorld.c3.xyz - (⟨0, 0, 0⟩ : Vec3)) = ⟨0, 10, 0⟩ := by
    norm_num [overheadLight, Mat4.translateY10, Vec4.xyz, Vec3.sub_x, Vec3.sub_y, Vec3.sub_z,
      Vec3.ext_iff]
  have hdot : dot (⟨0, 10, 0⟩ : Vec3) ⟨0, 10, 0⟩ = 10 * 10 := by
    norm_num [dot]
  have hsq : ratSqrt (10 * 10) = 10 := ratSqrt_mul_self 10 (by norm_num)
  have hlen : length referenceGlm (⟨0, 10, 0⟩ : Vec3) = 10 := by
    show ratSqrt _ = _
    rw [hdot, hsq]
  have hnorm : normalize referenceGlm (⟨0, 10, 0⟩ : Vec3) = ⟨0, 1, 0⟩ := by
    show (⟨0, 10, 0⟩ : Vec3) * (1 / ratSqrt (dot (⟨0, 10, 0⟩ : Vec3) ⟨0, 10, 0⟩)) = _
    rw [hdot, hsq]
    norm_num [Vec3.muls_x, Vec3.muls_y, Vec3.muls_z, Vec3.ext_iff]
  have hlight : overheadLight.light = .Point ⟨1, 1, 1⟩ ⟨1, 0, 0⟩ := rfl
  simp only [GetIllumination, hlight, hv, hlen, hnorm]
  norm_num [Vec3.muls_x, Vec3.muls_y, Vec3.muls_z, Vec3.ext_iff]

theorem candidate_shadowScene :
    candidate referenceGlm shadowScene
        { origin := (⟨0, 0, 0⟩ : Vec3) + kEpsilon * (⟨0, 1, 0⟩ : Vec3), direction := ⟨0, 1, 0⟩ }
        { hittable := .plane { normal_ := ⟨0, 1, 0⟩, d_ := 5 }
          localToWorld := Mat4.identity
          material := none } =
      some { world_dist := 4999 / 1000, normal := ⟨0, 1, 0⟩, world_hit := ⟨0, 5, 0⟩ } := by
  have horigin : (⟨0, 0, 0⟩ : Vec3) + kEpsilon * (⟨0, 1, 0⟩ : Vec3) = ⟨0, 1 / 1000, 0⟩ := by
    norm_num [kEpsilon, Vec3.add_x, Vec3.add_y, Vec3.add_z, Vec3.smul_x, Vec3.smul_y,
      Vec3.smul_z, Vec3.ext_iff]
  rw [horigin]
  have ht : Plane.t { normal_ := ⟨0, 1, 0⟩, d_ := 5 }
      { origin := ⟨0, 1 / 1000, 0⟩, direction := ⟨0, 1, 0⟩ } = 4999 / 1000 := by
    norm_num [Plane.t, Plane.denom, dot]
  have hd : Plane.denom { normal_ := ⟨0, 1, 0⟩, d_ := 5 }
      { origin := ⟨0, 1 / 1000, 0⟩, direction := ⟨0, 1, 0⟩ } = 1 := by
    norm_num [Plane.denom, dot]
  have hb : (Plane.Intersect { normal_ := ⟨0, 1, 0⟩, d_ := 5 }
      { origin := ⟨0, 1 / 1000, 0⟩, direction := ⟨0, 1, 0⟩ } 0 freshRecord).1 = true := by
    rw [plane_Intersect_fst_iff, ht, hd]
    refine ⟨by norm_num, by norm_num, by norm_num [freshRecord, FLT_MAX]⟩
  have hint : Plane.Intersect { normal_ := ⟨0, 1, 0⟩, d_ := 5 }
      { origin := ⟨0, 1 / 1000, 0⟩, direction := ⟨0, 1, 0⟩ } 0 freshRecord =
      (true, { time := 4999 / 1000, normal := ⟨0, 1, 0⟩ }) := by
    refine Prod.ext hb ?_
    rw [plane_Intersect_snd_of_true _ _ _ _ hb, ht]
  have hsq : ratSqrt (4999 / 1000 * (4999 / 1000)) = 4999 / 1000 :=
    ratSqrt_mul_self (4999 / 1000) (by norm_num)
  have ht0 : shadowScene.t_min = 0 := rfl
  simp only [candidate, referenceGlm, Hittable.Intersect, inverse4_identity,
    applyTransform_identity, ht0, hint, if_true]
  have hhit : ((Mat4.identity.mulVec (Vec4.ofVec3
      (Ray.At { origin := ⟨0, 1 / 1000, 0⟩, direction := ⟨0, 1, 0⟩ } (4999 / 1000)) 1)).xyz /
      (Mat4.identity.mulVec (Vec4.ofVec3
        (Ray.At { origin := ⟨0, 1 / 1000, 0⟩, direction := ⟨0, 1, 0⟩ } (4999 / 1000)) 1)).w
        : Vec3) = ⟨0, 5, 0⟩ := by
    norm_num [Ray.At, Mat4.mulVec, Vec4.ofVec3, Vec4.xyz, Mat4.identity, Vec3.add_x, Vec3.add_y,
      Vec3.add_z, Vec3.smul_x, Vec3.smul_y, Vec3.smul_z, Vec3.div_x, Vec3.div_y, Vec3.div_z,
      Vec3.ext_iff]
  rw [hhit]
  have hlen : length
      { sqrt := ratSqrt, inversesqrt := fun q => 1 / ratSqrt q,
        pow := fun base exponent => base ^ exponent.num.toNat, inverse4 := inverse4,
        applyTransform := applyTransform, freshRecord := freshRecord }
      ((⟨0, 5, 0⟩ : Vec3) - (⟨0, 1 / 1000, 0⟩ : Vec3)) = 4999 / 1000 := by
    have hdot : dot ((⟨0, 5, 0⟩ : Vec3) - (⟨0, 1 / 1000, 0⟩ : Vec3))
        ((⟨0, 5, 0⟩ : Vec3) - (⟨0, 1 / 1000, 0⟩ : Vec3)) = 4999 / 1000 * (4999 / 1000) := by
      norm_num [dot, Vec3.sub_x, Vec3.sub_y, Vec3.sub_z]
    show ratSqrt _ = _
    rw [hdot, hsq]
  rw [hlen]

/-- The strict improvement of C4 at the plane scenario: the test returns true on the default
record and leaves a time below the time before the call. -/
theorem Intersect_strict_improvement_witness :
    (Plane.Intersect { normal_ := ⟨0, 1, 0⟩, d_ := 0 }
        { origin := ⟨0, 5, 0⟩, direction := ⟨0, -1, 0⟩ } 0 freshRecord).1 = true ∧
      (Plane.Intersect { normal_ := ⟨0, 1, 0⟩, d_ := 0 }
        { origin := ⟨0, 5, 0⟩, direction := ⟨0, -1, 0⟩ } 0 freshRecord).2.time
          < freshRecord.time :=
  have h : (Plane.Intersect { normal_ := ⟨0, 1, 0⟩, d_ := 0 }
      { origin := ⟨0, 5, 0⟩, direction := ⟨0, -1, 0⟩ } 0 freshRecord).1 = true :=
    congrArg Prod.fst (plane_Intersect_scenario freshRecord freshRecord_time_gt)
  ⟨h, ((Intersect_strict_improvement referenceGlm).1 _ _ 0 freshRecord).2 h⟩

theorem TraceRayCalls_succ_of_reflect (G : Glm) (T : Tracer) (ray : Ray) (b : ℕ)
    (c : Candidate) (hit_component : TracingComponent) (material : Material) (color : Vec3)
    (hbest : (closestHit G T ray T.tracing_components_).best = some (c, hit_component))
    (hmat : hit_component.material = some material)
    (hlocal : ComputePhongShading G T c.world_hit (normalWorld G hit_component c.normal)
      ray.direction material = .ok color)
    (hrefl : reflectivity material > 1 / 100) :
    TraceRayCalls G T ray (b + 1) =
      (reflectRay G ray c.world_hit (normalWorld G hit_component c.normal), b) ::
        TraceRayCalls G T
          (reflectRay G ray c.world_hit (normalWorld G hit_component c.normal)) b := by
  rw [TraceRayCalls]
  simp only [hbest, hmat, hlocal]
  rw [if_pos hrefl]

/-- The chain of C6 on the mirrored ground plane with budget 1: exactly one nested call, with
budget 0. -/
theorem TraceRay_terminates_within_budget_witness :
    (TraceRayCalls referenceGlm mirrorScene downRay 1).length = 1 ∧
      (TraceRayCalls referenceGlm mirrorScene downRay 1).length ≤ 1 ∧
      TraceRayCalls referenceGlm mirrorScene downRay 0 = [] := by
  have hbest : (closestHit referenceGlm mirrorScene downRay
      mirrorScene.tracing_components_).best =
      some ({ world_dist := 5, normal := ⟨0, 1, 0⟩, world_hit := ⟨0, 0, 0⟩ },
        groundComponent (some mirrorMaterial)) := by
    rw [closestHit_mirrorScene]
  have hrefl : reflectivity mirrorMaterial > 1 / 100 := by
    norm_num [reflectivity, mirrorMaterial]
  have hchain := TraceRayCalls_succ_of_reflect referenceGlm mirrorScene downRay 0 _
    (groundComponent (some mirrorMaterial)) mirrorMaterial 0 hbest rfl
    (ComputePhongShading_mirrorScene _ _ _ _) hrefl
  refine ⟨?_, (TraceRay_terminates_within_budget referenceGlm mirrorScene).2.2.1 downRay 1,
    (TraceRay_terminates_within_budget referenceGlm mirrorScene).2.1 downRay⟩
  rw [hchain, TraceRayCalls_zero]
  rfl

/-- The second part of C8 on the shadow scene with its shadows switched off: both lights
contribute. -/
theorem ComputePhongShading_composition_witness :
    ({ shadowScene with shadows_enabled_ := false } : Tracer).shadows_enabled_ = false ∧
      ComputePhongShading referenceGlm { shadowScene with shadows_enabled_ := false }
          ⟨0, 0, 0⟩ ⟨0, 1, 0⟩ ⟨0, -1, 0⟩ whiteMaterial =
        .ok (ambientSum whiteMaterial [ambientLight, overheadLight] +
          directSumAll referenceGlm ⟨0, 0, 0⟩ ⟨0, 1, 0⟩
            (normalize referenceGlm (-(⟨0, -1, 0⟩ : Vec3))) whiteMaterial
            [ambientLight, overheadLight]) :=
  ⟨rfl, (ComputePhongShading_composition referenceGlm
    { shadowScene with shadows_enabled_ := false } ⟨0, 0, 0⟩ ⟨0, 1, 0⟩ ⟨0, -1, 0⟩
    whiteMaterial).2 rfl⟩

/-! ## The lower bound `t_min` -/

/-- The plane test on the ray that starts on the plane: with `t_min = 0` the hit at `t = 0` is
accepted. -/
theorem plane_Intersect_originRay (record : HitRecord) (hrec : 0 < record.time) :
    Plane.Intersect { normal_ := ⟨0, 1, 0⟩, d_ := 0 } originRay 0 record =
      (true, { time := 0, normal := ⟨0, 1, 0⟩ }) := by
  have ht : Plane.t { normal_ := ⟨0, 1, 0⟩, d_ := 0 } originRay = 0 := by
    norm_num [Plane.t, Plane.denom, dot, originRay]
  have hd : Plane.denom { normal_ := ⟨0, 1, 0⟩, d_ := 0 } originRay = -1 := by
    norm_num [Plane.denom, dot, originRay]
  have hb : (Plane.Intersect { normal_ := ⟨0, 1, 0⟩, d_ := 0 } originRay 0 record).1 = true := by
    rw [plane_Intersect_fst_iff, ht, hd]
    refine ⟨by norm_num, le_refl _, hrec⟩
  refine Prod.ext hb ?_
  rw [plane_Intersect_snd_of_true _ _ _ _ hb, ht]

theorem freshRecord_time_pos : 0 < freshRecord.time := by
  norm_num [freshRecord, FLT_MAX]

/-- C18, as amended: for `t_min ≥ 0`, a parameter accepted by `Plane::Intersect` or by
`Triangle::Intersect` is at least `t_min`, hence never negative, and it is strictly positive
whenever `t_min > 0`. -/
theorem Intersect_time_ge_t_min (G : Glm) :
    (∀ (p : Plane) (ray : Ray) (t_min : ℚ) (record : HitRecord), 0 ≤ t_min →
      (p.Intersect ray t_min record).1 = true →
        t_min ≤ (p.Intersect ray t_min record).2.time ∧
        0 ≤ (p.Intersect ray t_min record).2.time ∧
        (0 < t_min → 0 < (p.Intersect ray t_min record).2.time)) ∧
    (∀ (tri : Triangle) (ray : Ray) (t_min : ℚ) (record : HitRecord), 0 ≤ t_min →
      (tri.Intersect G ray t_min record).1 = true →
        t_min ≤ (tri.Intersect G ray t_min record).2.time ∧
        0 ≤ (tri.Intersect G ray t_min record).2.time ∧
        (0 < t_min → 0 < (tri.Intersect G ray t_min record).2.time)) := by
  constructor
  · intro p ray t_min record h0 hb
    rw [plane_Intersect_snd_of_true p ray t_min record hb]
    have ht := ((plane_Intersect_fst_iff p ray t_min record).mp hb).2.1
    exact ⟨ht, le_trans h0 ht, fun hpos => lt_of_lt_of_le hpos ht⟩
  · intro tri ray t_min record h0 hb
    rw [triangle_Intersect_snd_of_true G tri ray t_min record hb]
    have ht := ((triangle_Intersect_fst_iff G tri ray t_min record).mp hb).2.2.2.2.1
    exact ⟨ht, le_trans h0 ht, fun hpos => lt_of_lt_of_le hpos ht⟩

/-- The amended C18 at the plane scenario with `t_min = 0`: the accepted time is not
negative. -/
theorem Intersect_time_ge_t_min_witness :
    (0 : ℚ) ≤ 0 ∧
      (Plane.Intersect { normal_ := ⟨0, 1, 0⟩, d_ := 0 }
        { origin := ⟨0, 5, 0⟩, direction := ⟨0, -1, 0⟩ } 0 freshRecord).1 = true ∧
      0 ≤ (Plane.Intersect { normal_ := ⟨0, 1, 0⟩, d_ := 0 }
        { origin := ⟨0, 5, 0⟩, direction := ⟨0, -1, 0⟩ } 0 freshRecord).2.time :=
  have h : (Plane.Intersect { normal_ := ⟨0, 1, 0⟩, d_ := 0 }
      { origin := ⟨0, 5, 0⟩, direction := ⟨0, -1, 0⟩ } 0 freshRecord).1 = true :=
    congrArg Prod.fst (plane_Intersect_scenario freshRecord freshRecord_time_gt)
  ⟨le_refl 0, h, ((Intersect_time_ge_t_min referenceGlm).1 _ _ 0 freshRecord (le_refl 0) h).2.1⟩

/-- C18 as stated fails: with `t_min = 0`, the plane `y = 0` and the ray that starts on it at
`(0,0,0)`, `Plane::Intersect` returns true and records `t = 0`, a hit at the ray origin. -/
theorem plane_Intersect_accepts_zero_time :
    (0 : ℚ) ≤ 0 ∧
      Plane.Intersect { normal_ := ⟨0, 1, 0⟩, d_ := 0 } originRay 0 freshRecord =
        (true, { time := 0, normal := ⟨0, 1, 0⟩ }) ∧
      ¬ (0 < (Plane.Intersect { normal_ := ⟨0, 1, 0⟩, d_ := 0 } originRay 0 freshRecord).2.time) := by
  have h := plane_Intersect_originRay freshRecord freshRecord_time_pos
  refine ⟨le_refl 0, h, ?_⟩
  rw [h]
  exact lt_irrefl 0

/-! ## The determinant threshold of the triangle test -/

theorem smallTriangle_determinant :
    determinant (smallTriangle.A smallTriangleRay) = 1 / 4000000 := by
  norm_num [Triangle.A, determinant, smallTriangle, smallTriangleRay, Vec3.neg_x, Vec3.neg_y,
    Vec3.neg_z, Vec3.sub_x, Vec3.sub_y, Vec3.sub_z]

theorem triangle_Intersect_of_small_det (G : Glm) (tri : Triangle) (ray : Ray) (t_min : ℚ)
    (record : HitRecord) (h : |determinant (tri.A ray)| < 1 / 1000000) :
    tri.Intersect G ray t_min record = (false, record) := by
  unfold Triangle.Intersect
  simp only [h, if_true]

theorem smallTriangle_solution :
    smallTriangle.solution smallTriangleRay = ⟨1, 1 / 5, 1 / 5⟩ := by
  ext <;>
    norm_num [Triangle.solution, Triangle.A, Triangle.b, inverse, determinant, Mat3.mulVec,
      smallTriangle, smallTriangleRay, Vec3.neg_x, Vec3.neg_y, Vec3.neg_z, Vec3.sub_x,
      Vec3.sub_y, Vec3.sub_z]

theorem smallTriangleTimes10_determinant :
    determinant (smallTriangleTimes10.A smallTriangleRay) = 1 / 40000 := by
  norm_num [Triangle.A, determinant, smallTriangleTimes10, smallTriangleRay, Vec3.neg_x,
    Vec3.neg_y, Vec3.neg_z, Vec3.sub_x, Vec3.sub_y, Vec3.sub_z]

theorem smallTriangleTimes10_solution :
    smallTriangleTimes10.solution smallTriangleRay = ⟨1, 1 / 50, 1 / 50⟩ := by
  ext <;>
    norm_num [Triangle.solution, Triangle.A, Triangle.b, inverse, determinant, Mat3.mulVec,
      smallTriangleTimes10, smallTriangleRay, Vec3.neg_x, Vec3.neg_y, Vec3.neg_z, Vec3.sub_x,
      Vec3.sub_y, Vec3.sub_z]

theorem smallTriangleRayTimes10_determinant :
    determinant (smallTriangle.A smallTriangleRayTimes10) = 1 / 400000 := by
  norm_num [Triangle.A, determinant, smallTriangle, smallTriangleRayTimes10, Vec3.neg_x,
    Vec3.neg_y, Vec3.neg_z, Vec3.sub_x, Vec3.sub_y, Vec3.sub_z]

theorem smallTriangleRayTimes10_solution :
    smallTriangle.solution smallTriangleRayTimes10 = ⟨1 / 10, 1 / 5, 1 / 5⟩ := by
  ext <;>
    norm_num [Triangle.solution, Triangle.A, Triangle.b, inverse, determinant, Mat3.mulVec,
      smallTriangle, smallTriangleRayTimes10, Vec3.neg_x, Vec3.neg_y, Vec3.neg_z, Vec3.sub_x,
      Vec3.sub_y, Vec3.sub_z]

/-- C19: the `1e-6` determinant threshold of `Triangle::Intersect` rejects a ray that crosses
the triangle.  For the triangle `(0,0,0), (0.0005,0,0), (0,0.0005,0)` and the ray from
`(0.0001, 0.0001, 1)` along `(0,0,-1)` the determinant is `2.5e-7`, not zero (the triangle is
not degenerate and the ray not parallel to it); the ray meets the triangle at `t = 1` with
`beta = gamma = 0.2`, strictly inside, and `0 ≤ t < record.time` on the default record; yet the
test returns false and leaves the record unchanged.  The outcome changes under scaling: the
same ray is accepted by the triangle scaled by 10, and the same triangle accepts the ray with
its direction scaled by 10. -/
theorem triangle_threshold_rejects_crossing_ray (G : Glm) :
    determinant (smallTriangle.A smallTriangleRay) = 1 / 4000000 ∧
    determinant (smallTriangle.A smallTriangleRay) ≠ 0 ∧
    smallTriangle.solution smallTriangleRay = ⟨1, 1 / 5, 1 / 5⟩ ∧
    (0 < smallTriangle.beta smallTriangleRay ∧ 0 < smallTriangle.gamma smallTriangleRay ∧
      smallTriangle.beta smallTriangleRay + smallTriangle.gamma smallTriangleRay < 1) ∧
    ((0 : ℚ) ≤ smallTriangle.t smallTriangleRay ∧
      smallTriangle.t smallTriangleRay < freshRecord.time) ∧
    smallTriangleRay.origin + smallTriangle.t smallTriangleRay * smallTriangleRay.direction =
      smallTriangle.alpha smallTriangleRay * smallTriangle.p0
        + smallTriangle.beta smallTriangleRay * smallTriangle.p1
        + smallTriangle.gamma smallTriangleRay * smallTriangle.p2 ∧
    smallTriangle.Intersect G smallTriangleRay 0 freshRecord = (false, freshRecord) ∧
    (smallTriangleTimes10.Intersect G smallTriangleRay 0 freshRecord).1 = true ∧
    (smallTriangle.Intersect G smallTriangleRayTimes10 0 freshRecord).1 = true := by
  have hdet := smallTriangle_determinant
  have hne : determinant (smallTriangle.A smallTriangleRay) ≠ 0 := by
    rw [hdet]
    norm_num
  have hs := smallTriangle_solution
  refine ⟨hdet, hne, hs, ?_, ?_, triangle_At_t_eq_combination smallTriangle smallTriangleRay hne,
    ?_, ?_, ?_⟩
  · simp only [Triangle.beta, Triangle.gamma, hs]
    norm_num
  · simp only [Triangle.t, hs]
    norm_num [freshRecord, FLT_MAX]
  · apply triangle_Intersect_of_small_det
    rw [hdet, abs_of_pos (by norm_num)]
    norm_num
  · rw [triangle_Intersect_fst_iff, smallTriangleTimes10_determinant]
    simp only [Triangle.beta, Triangle.gamma, Triangle.t, smallTriangleTimes10_solution]
    refine ⟨?_, by norm_num, by norm_num, by norm_num, by norm_num,
      by norm_num [freshRecord, FLT_MAX]⟩
    rw [abs_of_pos (by norm_num)]
    norm_num
  · rw [triangle_Intersect_fst_iff, smallTriangleRayTimes10_determinant]
    simp only [Triangle.beta, Triangle.gamma, Triangle.t, smallTriangleRayTimes10_solution]
    refine ⟨?_, by norm_num, by norm_num, by norm_num, by norm_num,
      by norm_num [freshRecord, FLT_MAX]⟩
    rw [abs_of_pos (by norm_num)]
    norm_num

/-! ## The illumination model -/

theorem GetIllumination_point_eq (G : Glm) (lc : LightComponent) (p color attenuation : Vec3)
    (hl : lc.light = .Point color attenuation) :
    GetIllumination G lc p =
      .ok { dir_to_light := normalize G (lc.localToWorld.c3.xyz - p)
            intensity := color * (1 / (attenuation.x * length G (lc.localToWorld.c3.xyz - p)
              * length G (lc.localToWorld.c3.xyz - p)))
            dist_to_light := length G (lc.localToWorld.c3.xyz - p) } := by
  simp only [GetIllumination, hl]

theorem GetIllumination_directional_eq (G : Glm) (lc : LightComponent)
    (p direction color : Vec3) (hl : lc.light = .Directional direction color) :
    GetIllumination G lc p =
      .ok { dir_to_light := -direction, intensity := color, dist_to_light := FLT_MAX } := by
  simp only [GetIllumination, hl]

theorem GetIllumination_ambient_eq (G : Glm) (lc : LightComponent) (p color : Vec3)
    (hl : lc.light = .Ambient color) :
    GetIllumination G lc p = .error "Unrecognized light type when computing illumination" := by
  simp only [GetIllumination, hl]

/-- C14, as amended: for a point light and a shading point with `alpha * distance^2 = 0`,
`GetIllumination` reports no fatal condition: it returns normally, with the direction
`normalize(L - p)` and the distance `|L - p|` (the intensity is what the unguarded division
yields). -/
theorem GetIllumination_point_no_failure (G : Glm) (lc : LightComponent)
    (p color attenuation : Vec3)
    (hl : lc.light = .Point color attenuation)
    (_hzero : attenuation.x * length G (lc.localToWorld.c3.xyz - p)
      * length G (lc.localToWorld.c3.xyz - p) = 0) :
    (∃ i : Illumination, GetIllumination G lc p = .ok i ∧
      i.dir_to_light = normalize G (lc.localToWorld.c3.xyz - p) ∧
      i.dist_to_light = length G (lc.localToWorld.c3.xyz - p)) ∧
    ∀ e : String, GetIllumination G lc p ≠ .error e := by
  rw [GetIllumination_point_eq G lc p color attenuation hl]
  exact ⟨⟨_, rfl, rfl, rfl⟩, fun e h => by cases h⟩

/-- The amended C14 on the point light with attenuation coefficient 0. -/
theorem GetIllumination_point_no_failure_witness :
    (0 : ℚ) * length referenceGlm (zeroAttenuationLight.localToWorld.c3.xyz - (⟨0, 0, 0⟩ : Vec3))
      * length referenceGlm (zeroAttenuationLight.localToWorld.c3.xyz - (⟨0, 0, 0⟩ : Vec3)) = 0 ∧
    ∀ e : String, GetIllumination referenceGlm zeroAttenuationLight ⟨0, 0, 0⟩ ≠ .error e :=
  have h : (0 : ℚ)
      * length referenceGlm (zeroAttenuationLight.localToWorld.c3.xyz - (⟨0, 0, 0⟩ : Vec3))
      * length referenceGlm (zeroAttenuationLight.localToWorld.c3.xyz - (⟨0, 0, 0⟩ : Vec3))
      = 0 := by
    rw [zero_mul, zero_mul]
  ⟨h, (GetIllumination_point_no_failure referenceGlm zeroAttenuationLight ⟨0, 0, 0⟩ ⟨1, 1, 1⟩
    ⟨0, 0, 0⟩ rfl h).2⟩

/-- C14 as stated fails: the point light with attenuation coefficient 0, placed at the shading
point, has `alpha * distance^2 = 0`, and `GetIllumination` returns an illumination, not an
error. -/
theorem GetIllumination_zero_attenuation_returns :
    (0 : ℚ) * length referenceGlm (zeroAttenuationLight.localToWorld.c3.xyz - (⟨0, 0, 0⟩ : Vec3))
      * length referenceGlm (zeroAttenuationLight.localToWorld.c3.xyz - (⟨0, 0, 0⟩ : Vec3)) = 0 ∧
    zeroAttenuationLight.localToWorld.c3.xyz = (⟨0, 0, 0⟩ : Vec3) ∧
    ∃ i : Illumination,
      GetIllumination referenceGlm zeroAttenuationLight ⟨0, 0, 0⟩ = .ok i := by
  refine ⟨by rw [zero_mul, zero_mul], rfl, ?_⟩
  rw [GetIllumination_point_eq referenceGlm zeroAttenuationLight ⟨0, 0, 0⟩ ⟨1, 1, 1⟩ ⟨0, 0, 0⟩
    rfl]
  exact ⟨_, rfl⟩

/-! ## The rejected light variant -/

theorem GetIllumination_error_iff (G : Glm) (lc : LightComponent) (p : Vec3) :
    GetIllumination G lc p = .error "Unrecognized light type when computing illumination" ↔
      (∀ direction color, lc.light ≠ .Directional direction color) ∧
        (∀ color attenuation, lc.light ≠ .Point color attenuation) := by
  cases hl : lc.light with
  | Ambient c =>
    rw [GetIllumination_ambient_eq G lc p c hl]
    constructor
    · intro _
      exact ⟨fun d c0 h => Light.noConfusion h, fun c0 a h => Light.noConfusion h⟩
    · intro _
      rfl
  | Point c a =>
    rw [GetIllumination_point_eq G lc p c a hl]
    constructor
    · intro h
      cases h
    · intro h
      exact absurd rfl (h.2 c a)
  | Directional d c =>
    rw [GetIllumination_directional_eq G lc p d c hl]
    constructor
    · intro h
      cases h
    · intro h
      exact absurd rfl (h.1 d c)

theorem GetIlluminationCalls_not_ambient (G : Glm) (hit_point : Vec3)
    (lights : List LightComponent) (lc : LightComponent)
    (h : lc ∈ GetIlluminationCalls G hit_point lights) : ∀ c, lc.light ≠ .Ambient c := by
  induction lights with
  | nil =>
    simp [GetIlluminationCalls] at h
  | cons head rest ih =>
    rw [GetIlluminationCalls] at h
    cases hl : head.light with
    | Ambient c =>
      simp only [hl] at h
      exact ih h
    | Point c a =>
      simp only [hl, GetIllumination_point_eq G head hit_point c a hl] at h
      rcases List.mem_cons.mp h with h | h
      · intro c0 hc0
        rw [h, hl] at hc0
        cases hc0
      · exact ih h
    | Directional d c =>
      simp only [hl, GetIllumination_directional_eq G head hit_point d c hl] at h
      rcases List.mem_cons.mp h with h | h
      · intro c0 hc0
        rw [h, hl] at hc0
        cases hc0
      · exact ih h

/-- C15: `GetIllumination` raises the `Unrecognized light type` error exactly when the light
is neither Directional nor Point, so an Ambient light passed to it is rejected, and it raises
no other error; every light that `ComputePhongShading` passes to `GetIllumination` is not
Ambient, so `ComputePhongShading` and `TraceRay` return normally on every scene. -/
theorem GetIllumination_rejects_only_ambient (G : Glm) :
    (∀ (lc : LightComponent) (p : Vec3),
      GetIllumination G lc p = .error "Unrecognized light type when computing illumination" ↔
        (∀ direction color, lc.light ≠ .Directional direction color) ∧
          (∀ color attenuation, lc.light ≠ .Point color attenuation)) ∧
    (∀ (lc : LightComponent) (p : Vec3) (e : String), GetIllumination G lc p = .error e →
      e = "Unrecognized light type when computing illumination") ∧
    (∀ (lc : LightComponent) (p color : Vec3), lc.light = .Ambient color →
      GetIllumination G lc p = .error "Unrecognized light type when computing illumination") ∧
    (∀ (T : Tracer) (hit_point : Vec3) (lc : LightComponent),
      lc ∈ GetIlluminationCalls G hit_point T.light_components_ →
        (∀ color, lc.light ≠ .Ambient color) ∧
          ∃ i : Illumination, GetIllumination G lc hit_point = .ok i) ∧
    (∀ (T : Tracer) (hit_point normal ray_dir : Vec3) (material : Material),
      ∃ color : Vec3, ComputePhongShading G T hit_point normal ray_dir material = .ok color) ∧
    (∀ (T : Tracer) (ray : Ray) (bounces : ℕ) (record : HitRecord),
      ∃ (color : Vec3) (record' : HitRecord),
        TraceRay G T ray bounces record = .ok (color, record')) := by
  refine ⟨GetIllumination_error_iff G, ?_, fun lc p c hl => GetIllumination_ambient_eq G lc p c hl,
    ?_, fun T hp n rd m => ⟨_, ComputePhongShading_eq_sums G T hp n rd m⟩,
    fun T ray bounces record => TraceRay_ok G T bounces ray record⟩
  · intro lc p e he
    cases hl : lc.light with
    | Ambient c =>
      rw [GetIllumination_ambient_eq G lc p c hl] at he
      cases he
      rfl
    | Point c a =>
      rw [GetIllumination_point_eq G lc p c a hl] at he
      cases he
    | Directional d c =>
      rw [GetIllumination_directional_eq G lc p d c hl] at he
      cases he
  · intro T hit_point lc hmem
    have hna := GetIlluminationCalls_not_ambient G hit_point T.light_components_ lc hmem
    exact ⟨hna, GetIllumination_ok_of_not_ambient G lc hit_point hna⟩

/-- C15 on the shadow scene, whose lights are an Ambient light and a point light: the Ambient
light is rejected by `GetIllumination`, and it is not among the lights that the shading passes
to it. -/
theorem GetIllumination_rejects_only_ambient_witness :
    ambientLight.light = .Ambient ⟨1, 1, 1⟩ ∧
    GetIllumination referenceGlm ambientLight ⟨0, 0, 0⟩ =
      .error "Unrecognized light type when computing illumination" ∧
    GetIlluminationCalls referenceGlm ⟨0, 0, 0⟩ shadowScene.light_components_ =
      [overheadLight] ∧
    ∃ color : Vec3, ComputePhongShading referenceGlm shadowScene ⟨0, 0, 0⟩ ⟨0, 1, 0⟩ ⟨0, -1, 0⟩
      whiteMaterial = .ok color := by
  refine ⟨rfl, (GetIllumination_rejects_only_ambient referenceGlm).2.2.1 ambientLight ⟨0, 0, 0⟩
    ⟨1, 1, 1⟩ rfl, ?_,
    (GetIllumination_rejects_only_ambient referenceGlm).2.2.2.2.1 shadowScene ⟨0, 0, 0⟩
      ⟨0, 1, 0⟩ ⟨0, -1, 0⟩ whiteMaterial⟩
  have hlights : shadowScene.light_components_ = [ambientLight, overheadLight] := rfl
  have ha : ambientLight.light = .Ambient ⟨1, 1, 1⟩ := rfl
  have hp : overheadLight.light = .Point ⟨1, 1, 1⟩ ⟨1, 0, 0⟩ := rfl
  rw [hlights, GetIlluminationCalls]
  simp only [ha]
  rw [GetIlluminationCalls]
  simp only [hp, GetIllumination_point_eq referenceGlm overheadLight ⟨0, 0, 0⟩ ⟨1, 1, 1⟩
    ⟨1, 0, 0⟩ hp]
  rw [GetIlluminationCalls]

/-! ## The missing material -/

theorem closestHit_lights_irrelevant (G : Glm) (T : Tracer) (ray : Ray)
    (lights : List LightComponent) (shadows : Bool) (components : List TracingComponent) :
    closestHit G { T with light_components_ := lights, shadows_enabled_ := shadows } ray
      components = closestHit G T ray components := rfl

theorem TraceRayCalls_of_no_material (G : Glm) (T : Tracer) (ray : Ray) (bounces : ℕ)
    (c : Candidate) (hit_component : TracingComponent)
    (hbest : (closestHit G T ray T.tracing_components_).best = some (c, hit_component))
    (hmat : hit_component.material = none) : TraceRayCalls G T ray bounces = [] := by
  unfold TraceRayCalls
  simp only [hbest, hmat]

theorem TraceRayShadingCalls_of_no_material (G : Glm) (T : Tracer) (ray : Ray) (bounces : ℕ)
    (c : Candidate) (hit_component : TracingComponent)
    (hbest : (closestHit G T ray T.tracing_components_).best = some (c, hit_component))
    (hmat : hit_component.material = none) : TraceRayShadingCalls G T ray bounces = [] := by
  unfold TraceRayShadingCalls
  simp only [hbest, hmat]

/-- C16: when the closest-hit component has no material, `TraceRay` returns the color
`(1, 0, 1)` without raising, for every bounce budget and whatever the lights and the shadows
flag of the scene are, and it makes no `ComputePhongShading` call and no nested `TraceRay`
call. -/
theorem TraceRay_missing_material (G : Glm) (T : Tracer) (ray : Ray) (bounces : ℕ)
    (record : HitRecord) (c : Candidate) (hit_component : TracingComponent)
    (hbest : (closestHit G T ray T.tracing_components_).best = some (c, hit_component))
    (hmat : hit_component.material = none) :
    TraceRay G T ray bounces record =
      .ok (⟨1, 0, 1⟩,
        { time := (closestHit G T ray T.tracing_components_).closest_t
          normal := normalWorld G hit_component c.normal }) ∧
    (∀ (lights : List LightComponent) (shadows : Bool) (bounces' : ℕ),
      TraceRay G { T with light_components_ := lights, shadows_enabled_ := shadows } ray
        bounces' record = TraceRay G T ray bounces record) ∧
    TraceRayShadingCalls G T ray bounces = [] ∧
    TraceRayCalls G T ray bounces = [] := by
  refine ⟨TraceRay_of_no_material G T ray bounces record c hit_component hbest hmat, ?_,
    TraceRayShadingCalls_of_no_material G T ray bounces c hit_component hbest hmat,
    TraceRayCalls_of_no_material G T ray bounces c hit_component hbest hmat⟩
  intro lights shadows bounces'
  have hbest' : (closestHit G { T with light_components_ := lights, shadows_enabled_ := shadows }
      ray ({ T with light_components_ := lights, shadows_enabled_ := shadows } :
        Tracer).tracing_components_).best = some (c, hit_component) := hbest
  rw [TraceRay_of_no_material G _ ray bounces' record c hit_component hbest' hmat,
    TraceRay_of_no_material G T ray bounces record c hit_component hbest hmat]
  rfl

theorem closestHit_ground_singleton (T : Tracer) (hT : T.t_min = 0) (m : Option Material) :
    closestHit referenceGlm T downRay [groundComponent m] =
      { closest_t := 5
        best := some ({ world_dist := 5, normal := ⟨0, 1, 0⟩, world_hit := ⟨0, 0, 0⟩ },
          groundComponent m) } := by
  rw [closestHit_singleton]
  simp only [closestStep, candidate_ground T hT m]
  rw [if_pos (by norm_num [FLT_MAX])]

theorem closestHit_twoGroundScene :
    closestHit referenceGlm twoGroundScene downRay twoGroundScene.tracing_components_ =
      { closest_t := 5
        best := some ({ world_dist := 5, normal := ⟨0, 1, 0⟩, world_hit := ⟨0, 0, 0⟩ },
          groundComponent none) } := by
  have hcomps : twoGroundScene.tracing_components_ =
      [groundComponent none] ++ [groundComponent (some whiteMaterial)] := rfl
  rw [hcomps, closestHit_concat, closestHit_ground_singleton twoGroundScene rfl none]
  simp only [closestStep, candidate_ground twoGroundScene rfl]
  rw [if_neg (lt_irrefl _)]

/-- C16 on the scene with two coincident ground planes: the first one, without material, is
the closest hit, and the color is `(1, 0, 1)` with three bounces left. -/
theorem TraceRay_missing_material_witness :
    (closestHit referenceGlm twoGroundScene downRay twoGroundScene.tracing_components_).best =
      some ({ world_dist := 5, normal := ⟨0, 1, 0⟩, world_hit := ⟨0, 0, 0⟩ },
        groundComponent none) ∧
    (groundComponent none).material = none ∧
    TraceRay referenceGlm twoGroundScene downRay 3 freshRecord =
      .ok (⟨1, 0, 1⟩,
        { time := (closestHit referenceGlm twoGroundScene downRay
            twoGroundScene.tracing_components_).closest_t
          normal := normalWorld referenceGlm (groundComponent none) ⟨0, 1, 0⟩ }) :=
  have hbest : (closestHit referenceGlm twoGroundScene downRay
      twoGroundScene.tracing_components_).best =
      some ({ world_dist := 5, normal := ⟨0, 1, 0⟩, world_hit := ⟨0, 0, 0⟩ },
        groundComponent none) := by
    rw [closestHit_twoGroundScene]
  ⟨hbest, rfl, (TraceRay_missing_material referenceGlm twoGroundScene downRay 3 freshRecord _
    (groundComponent none) hbest rfl).1⟩

/-! ## The stored normal of the triangle test -/

theorem normalize_zero (G : Glm) : normalize G 0 = 0 := by
  unfold normalize
  ext <;> simp only [Vec3.muls_x, Vec3.muls_y, Vec3.muls_z, Vec3.zero_x, Vec3.zero_y,
    Vec3.zero_z, zero_mul]

theorem neg_down_eq_up : -(⟨0, -1, 0⟩ : Vec3) = ⟨0, 1, 0⟩ := by
  ext <;> norm_num [Vec3.neg_x, Vec3.neg_y, Vec3.neg_z]

theorem reflect_down_about_up : reflect (-(⟨0, 1, 0⟩ : Vec3)) ⟨0, 1, 0⟩ = ⟨0, 1, 0⟩ := by
  ext <;> norm_num [reflect, dot, Vec3.neg_x, Vec3.neg_y, Vec3.neg_z, Vec3.sub_x, Vec3.sub_y,
    Vec3.sub_z, Vec3.muls_x, Vec3.muls_y, Vec3.muls_z]

theorem Vec3_one_smul_mul_ones (v : Vec3) : (1 : ℚ) * v * (⟨1, 1, 1⟩ : Vec3) = v := by
  ext <;> simp only [Vec3.mul_x, Vec3.mul_y, Vec3.mul_z, Vec3.smul_x, Vec3.smul_y, Vec3.smul_z,
    one_mul, mul_one]

theorem Vec3_zero_smul_mul (v w : Vec3) : (0 : ℚ) * v * w = 0 := by
  ext <;> simp only [Vec3.mul_x, Vec3.mul_y, Vec3.mul_z, Vec3.smul_x, Vec3.smul_y, Vec3.smul_z,
    Vec3.zero_x, Vec3.zero_y, Vec3.zero_z, zero_mul]

/-- The shading of a scene whose only light is a directional light that is not found in
shadow. -/
theorem ComputePhongShading_single_directional (G : Glm) (T : Tracer)
    (hit_point normal ray_dir direction color : Vec3) (material : Material)
    (lc : LightComponent) (hlights : T.light_components_ = [lc])
    (hl : lc.light = .Directional direction color)
    (hun : inShadow G T hit_point (-direction) FLT_MAX = false) :
    ComputePhongShading G T hit_point normal ray_dir material =
      .ok (phongTerm G normal (normalize G (-ray_dir)) material (-direction) color) := by
  have hna : ∀ c, lc.light ≠ .Ambient c := by
    intro c hc
    rw [hl] at hc
    cases hc
  rw [ComputePhongShading_eq_sums, hlights, ambientSum_cons_other material lc [] hna,
    ambientSum_nil,
    directSum_cons_other G T hit_point normal _ material lc [] _ hna
      (GetIllumination_directional_eq G lc hit_point direction color hl)]
  simp only []
  rw [if_neg (by rw [hun]; exact Bool.false_ne_true), directSum_nil, Vec3_add_zero,
    Vec3_zero_add]

/-- C17, as amended: with a single unoccluded directional light of direction `(0,-1,0)` and
color `(1,1,1)`, shading normal `(0,1,0)` and a material of positive shininess, the diffuse
term is `material.diffuse`, and for a view direction orthogonal to the light-reflection vector
`reflect(-dir, normal)` the specular term is zero, so `ComputePhongShading` returns
`material.diffuse`.  The power function is taken with `pow(0, e) = 0` for `e > 0`. -/
theorem ComputePhongShading_directional_scenario (G : Glm) (T : Tracer)
    (hit_point ray_dir : Vec3) (material : Material) (lc : LightComponent)
    (hlights : T.light_components_ = [lc])
    (hl : lc.light = .Directional ⟨0, -1, 0⟩ ⟨1, 1, 1⟩)
    (hun : inShadow G T hit_point (-(⟨0, -1, 0⟩ : Vec3)) FLT_MAX = false)
    (horth : dot (reflect (-(-(⟨0, -1, 0⟩ : Vec3))) ⟨0, 1, 0⟩) (normalize G (-ray_dir)) = 0)
    (hshininess : 0 < material.shininess)
    (hpow : ∀ e : ℚ, 0 < e → G.pow 0 e = 0) :
    max 0 (dot (⟨0, 1, 0⟩ : Vec3) (-(⟨0, -1, 0⟩ : Vec3))) * material.diffuse * (⟨1, 1, 1⟩ : Vec3)
      = material.diffuse ∧
    G.pow (max 0 (dot (reflect (-(-(⟨0, -1, 0⟩ : Vec3))) ⟨0, 1, 0⟩) (normalize G (-ray_dir))))
      material.shininess * material.specular * (⟨1, 1, 1⟩ : Vec3) = 0 ∧
    ComputePhongShading G T hit_point ⟨0, 1, 0⟩ ray_dir material = .ok material.diffuse := by
  have hdiff : max 0 (dot (⟨0, 1, 0⟩ : Vec3) (-(⟨0, -1, 0⟩ : Vec3))) * material.diffuse
      * (⟨1, 1, 1⟩ : Vec3) = material.diffuse := by
    have hd : dot (⟨0, 1, 0⟩ : Vec3) (-(⟨0, -1, 0⟩ : Vec3)) = 1 := by
      rw [neg_down_eq_up]
      norm_num [dot]
    rw [hd, max_eq_right (by norm_num : (0 : ℚ) ≤ 1), Vec3_one_smul_mul_ones]
  have hspec : G.pow (max 0 (dot (reflect (-(-(⟨0, -1, 0⟩ : Vec3))) ⟨0, 1, 0⟩)
      (normalize G (-ray_dir)))) material.shininess * material.specular * (⟨1, 1, 1⟩ : Vec3)
      = 0 := by
    rw [horth, max_self, hpow material.shininess hshininess, Vec3_zero_smul_mul]
  refine ⟨hdiff, hspec, ?_⟩
  rw [ComputePhongShading_single_directional G T hit_point ⟨0, 1, 0⟩ ray_dir ⟨0, -1, 0⟩
    ⟨1, 1, 1⟩ material lc hlights hl hun]
  unfold phongTerm
  rw [hdiff, hspec, Vec3_add_zero]

theorem referenceGlm_pow_zero (e : ℚ) (he : 0 < e) : referenceGlm.pow 0 e = 0 := by
  show (0 : ℚ) ^ e.num.toNat = 0
  have hnum : 0 < e.num := Rat.num_pos.mpr he
  have hne : e.num.toNat ≠ 0 := by
    intro h0
    have := Int.toNat_eq_zero.mp h0
    omega
  exact zero_pow hne

theorem normalize_unit_x : normalize referenceGlm (-(⟨-1, 0, 0⟩ : Vec3)) = ⟨1, 0, 0⟩ := by
  have hv : -(⟨-1, 0, 0⟩ : Vec3) = ⟨1, 0, 0⟩ := by
    ext <;> norm_num [Vec3.neg_x, Vec3.neg_y, Vec3.neg_z]
  have hdot : dot (⟨1, 0, 0⟩ : Vec3) ⟨1, 0, 0⟩ = 1 := by norm_num [dot]
  rw [hv]
  unfold normalize
  rw [hdot, referenceGlm_inversesqrt_one]
  ext <;> norm_num [Vec3.muls_x, Vec3.muls_y, Vec3.muls_z]

theorem downLightScene_orthogonal :
    dot (reflect (-(-(⟨0, -1, 0⟩ : Vec3))) ⟨0, 1, 0⟩)
      (normalize referenceGlm (-(⟨-1, 0, 0⟩ : Vec3))) = 0 := by
  rw [neg_down_eq_up, reflect_down_about_up, normalize_unit_x]
  norm_num [dot]

/-- The amended C17 on the scene with the downward light alone, for the material of shininess
2 and a ray along `(-1, 0, 0)`. -/
theorem ComputePhongShading_directional_scenario_witness :
    ComputePhongShading referenceGlm downLightScene ⟨0, 0, 0⟩ ⟨0, 1, 0⟩ ⟨-1, 0, 0⟩ shinyMaterial
      = .ok shinyMaterial.diffuse :=
  (ComputePhongShading_directional_scenario referenceGlm downLightScene ⟨0, 0, 0⟩ ⟨-1, 0, 0⟩
    shinyMaterial downLight rfl rfl (inShadow_of_disabled _ _ _ _ _ rfl)
    downLightScene_orthogonal (by norm_num [shinyMaterial]) referenceGlm_pow_zero).2.2

/-- C17 as stated fails for a material of shininess 0: with the single unoccluded downward
light, normal `(0,1,0)` and the view direction `(1,0,0)`, orthogonal to the light-reflection
vector, the specular factor is `pow(0, 0) = 1`, the specular term is `material.specular`, and
`ComputePhongShading` returns `(2,2,2)`, not `material.diffuse = (1,1,1)`. -/
theorem ComputePhongShading_zero_shininess :
    downLightScene.light_components_ = [downLight] ∧
    inShadow referenceGlm downLightScene ⟨0, 0, 0⟩ (-(⟨0, -1, 0⟩ : Vec3)) FLT_MAX = false ∧
    dot (reflect (-(-(⟨0, -1, 0⟩ : Vec3))) ⟨0, 1, 0⟩)
      (normalize referenceGlm (-(⟨-1, 0, 0⟩ : Vec3))) = 0 ∧
    referenceGlm.pow 0 zeroShininessMaterial.shininess * zeroShininessMaterial.specular
      * (⟨1, 1, 1⟩ : Vec3) = ⟨1, 1, 1⟩ ∧
    ComputePhongShading referenceGlm downLightScene ⟨0, 0, 0⟩ ⟨0, 1, 0⟩ ⟨-1, 0, 0⟩
      zeroShininessMaterial = .ok ⟨2, 2, 2⟩ ∧
    zeroShininessMaterial.diffuse = ⟨1, 1, 1⟩ := by
  have hun := inShadow_of_disabled referenceGlm downLightScene ⟨0, 0, 0⟩
    (-(⟨0, -1, 0⟩ : Vec3)) FLT_MAX rfl
  have hpow : referenceGlm.pow 0 zeroShininessMaterial.shininess = 1 := by
    show (0 : ℚ) ^ (zeroShininessMaterial.shininess).num.toNat = 1
    norm_num [zeroShininessMaterial]
  have hspec : referenceGlm.pow 0 zeroShininessMaterial.shininess
      * zeroShininessMaterial.specular * (⟨1, 1, 1⟩ : Vec3) = ⟨1, 1, 1⟩ := by
    rw [hpow, Vec3_one_smul_mul_ones]
    rfl
  refine ⟨rfl, hun, downLightScene_orthogonal, hspec, ?_, rfl⟩
  rw [ComputePhongShading_single_directional referenceGlm downLightScene ⟨0, 0, 0⟩ ⟨0, 1, 0⟩
    ⟨-1, 0, 0⟩ ⟨0, -1, 0⟩ ⟨1, 1, 1⟩ zeroShininessMaterial downLight rfl rfl hun]
  unfold phongTerm
  have hd : dot (⟨0, 1, 0⟩ : Vec3) (-(⟨0, -1, 0⟩ : Vec3)) = 1 := by
    rw [neg_down_eq_up]
    norm_num [dot]
  rw [hd, max_eq_right (by norm_num : (0 : ℚ) ≤ 1), Vec3_one_smul_mul_ones,
    downLightScene_orthogonal, max_self, hspec]
  have hsum : zeroShininessMaterial.diffuse + (⟨1, 1, 1⟩ : Vec3) = ⟨2, 2, 2⟩ := by
    ext <;> norm_num [zeroShininessMaterial, Vec3.add_x, Vec3.add_y, Vec3.add_z]
  rw [hsum]

/-! ## The closest-hit search under permutation -/

/-- The state of the closest-hit loop in terms of membership: either nothing is recorded and
every successful test lies at `FLT_MAX` or beyond, or a component of the list is recorded, at
the least distance among the successful tests, below `FLT_MAX`. -/
theorem closestHit_cases (G : Glm) (T : Tracer) (ray : Ray) (comps : List TracingComponent) :
    ((closestHit G T ray comps).best = none ∧ (closestHit G T ray comps).closest_t = FLT_MAX ∧
      ∀ comp ∈ comps, ∀ c : Candidate, candidate G T ray comp = some c →
        FLT_MAX ≤ c.world_dist) ∨
    (∃ (comp : TracingComponent) (ci : Candidate), comp ∈ comps ∧
      candidate G T ray comp = some ci ∧
      closestHit G T ray comps = { closest_t := ci.world_dist, best := some (ci, comp) } ∧
      ci.world_dist < FLT_MAX ∧
      ∀ comp' ∈ comps, ∀ c' : Candidate, candidate G T ray comp' = some c' →
        ci.world_dist ≤ c'.world_dist) := by
  rcases closestHit_invariant G T ray comps with
    ⟨hbest, ht, hall⟩ | ⟨i, comp, ci, hi, hci, hstate, hlt, hmin, -⟩
  · left
    refine ⟨hbest, ht, ?_⟩
    intro comp hmem c hc
    obtain ⟨j, hj⟩ := List.getElem?_of_mem hmem
    exact hall j comp c hj hc
  · right
    refine ⟨comp, ci, List.mem_iff_getElem?.mpr ⟨i, hi⟩, hci, hstate, hlt, ?_⟩
    intro comp' hmem c' hc'
    obtain ⟨j, hj⟩ := List.getElem?_of_mem hmem
    exact hmin j comp' c' hj hc'

/-- C12, as amended: the closest-hit search over a permutation of the components ends with
the same `closest_t`, that is the same winning world-space distance, and with a hit exactly
when the original order ends with a hit; it records the same component whenever all the
components hit at the winning distance are one and the same. -/
theorem closestHit_perm (G : Glm) (T : Tracer) (ray : Ray) (l l' : List TracingComponent)
    (hp : l.Perm l') :
    (closestHit G T ray l).closest_t = (closestHit G T ray l').closest_t ∧
    (closestHit G T ray l).best.isSome = (closestHit G T ray l').best.isSome ∧
    ((∀ comp ∈ l, ∀ comp' ∈ l, ∀ c c' : Candidate,
        candidate G T ray comp = some c → candidate G T ray comp' = some c' →
        c.world_dist = (closestHit G T ray l).closest_t →
        c'.world_dist = (closestHit G T ray l).closest_t → comp = comp') →
      (closestHit G T ray l).best = (closestHit G T ray l').best) := by
  rcases closestHit_cases G T ray l with
    ⟨hb, ht, hall⟩ | ⟨comp, ci, hmem, hci, hstate, hlt, hmin⟩
  · rcases closestHit_cases G T ray l' with
      ⟨hb', ht', -⟩ | ⟨comp', ci', hmem', hci', -, hlt', -⟩
    · refine ⟨by rw [ht, ht'], by rw [hb, hb'], fun _ => by rw [hb, hb']⟩
    · exfalso
      have := hall comp' ((hp.mem_iff).mpr hmem') ci' hci'
      exact absurd hlt' (not_lt.mpr this)
  · rcases closestHit_cases G T ray l' with
      ⟨-, -, hall'⟩ | ⟨comp', ci', hmem', hci', hstate', -, hmin'⟩
    · exfalso
      have := hall' comp ((hp.mem_iff).mp hmem) ci hci
      exact absurd hlt (not_lt.mpr this)
    · have h1 : ci.world_dist ≤ ci'.world_dist := hmin comp' ((hp.mem_iff).mpr hmem') ci' hci'
      have h2 : ci'.world_dist ≤ ci.world_dist := hmin' comp ((hp.mem_iff).mp hmem) ci hci
      have heq : ci.world_dist = ci'.world_dist := le_antisymm h1 h2
      rw [hstate, hstate']
      refine ⟨heq, rfl, ?_⟩
      intro huniq
      have hcomp : comp = comp' := by
        apply huniq comp hmem comp' ((hp.mem_iff).mpr hmem') ci ci' hci hci'
        · rfl
        · exact heq.symm
      subst hcomp
      rw [hci] at hci'
      cases hci'
      rfl

theorem closestHit_two_ground (T : Tracer) (hT : T.t_min = 0) (m1 m2 : Option Material) :
    closestHit referenceGlm T downRay [groundComponent m1, groundComponent m2] =
      { closest_t := 5
        best := some ({ world_dist := 5, normal := ⟨0, 1, 0⟩, world_hit := ⟨0, 0, 0⟩ },
          groundComponent m1) } := by
  have hcomps : [groundComponent m1, groundComponent m2] =
      [groundComponent m1] ++ [groundComponent m2] := rfl
  rw [hcomps, closestHit_concat, closestHit_ground_singleton T hT m1]
  simp only [closestStep, candidate_ground T hT]
  rw [if_neg (lt_irrefl _)]

/-- The amended C12 on the two coincident ground planes in both orders: the winning distance
is the same. -/
theorem closestHit_perm_witness :
    [groundComponent none, groundComponent (some whiteMaterial)].Perm
      [groundComponent (some whiteMaterial), groundComponent none] ∧
    (closestHit referenceGlm twoGroundScene downRay
      [groundComponent none, groundComponent (some whiteMaterial)]).closest_t =
    (closestHit referenceGlm twoGroundScene downRay
      [groundComponent (some whiteMaterial), groundComponent none]).closest_t :=
  ⟨List.Perm.swap _ _ _,
    (closestHit_perm referenceGlm twoGroundScene downRay _ _ (List.Perm.swap _ _ _)).1⟩

/-- C12 as stated fails: the two coincident ground planes, one without and one with a
material, are hit at the same distance 5; in one order the search records the component
without material, in the other order the component with the material. -/
theorem closestHit_perm_changes_winner :
    [groundComponent none, groundComponent (some whiteMaterial)].Perm
      [groundComponent (some whiteMaterial), groundComponent none] ∧
    (closestHit referenceGlm twoGroundScene downRay
      [groundComponent none, groundComponent (some whiteMaterial)]).best =
      some ({ world_dist := 5, normal := ⟨0, 1, 0⟩, world_hit := ⟨0, 0, 0⟩ },
        groundComponent none) ∧
    (closestHit referenceGlm twoGroundScene downRay
      [groundComponent (some whiteMaterial), groundComponent none]).best =
      some ({ world_dist := 5, normal := ⟨0, 1, 0⟩, world_hit := ⟨0, 0, 0⟩ },
        groundComponent (some whiteMaterial)) ∧
    (groundComponent none).material ≠ (groundComponent (some whiteMaterial)).material := by
  refine ⟨List.Perm.swap _ _ _, ?_, ?_, ?_⟩
  · rw [closestHit_two_ground twoGroundScene rfl]
  · rw [closestHit_two_ground twoGroundScene rfl]
  · intro h
    cases h

/-! ## Non-negativity of the colors -/

theorem candidate_occluderPlane (T : Tracer) (ht0 : T.t_min = 0) :
    candidate referenceGlm T
        { origin := (⟨0, 0, 0⟩ : Vec3) + kEpsilon * (⟨0, 1, 0⟩ : Vec3), direction := ⟨0, 1, 0⟩ }
        occluderPlane =
      some { world_dist := 4999 / 1000, normal := ⟨0, 1, 0⟩, world_hit := ⟨0, 5, 0⟩ } := by
  have horigin : (⟨0, 0, 0⟩ : Vec3) + kEpsilon * (⟨0, 1, 0⟩ : Vec3) = ⟨0, 1 / 1000, 0⟩ := by
    norm_num [kEpsilon, Vec3.add_x, Vec3.add_y, Vec3.add_z, Vec3.smul_x, Vec3.smul_y,
      Vec3.smul_z, Vec3.ext_iff]
  rw [horigin]
  have ht : Plane.t { normal_ := ⟨0, 1, 0⟩, d_ := 5 }
      { origin := ⟨0, 1 / 1000, 0⟩, direction := ⟨0, 1, 0⟩ } = 4999 / 1000 := by
    norm_num [Plane.t, Plane.denom, dot]
  have hd : Plane.denom { normal_ := ⟨0, 1, 0⟩, d_ := 5 }
      { origin := ⟨0, 1 / 1000, 0⟩, direction := ⟨0, 1, 0⟩ } = 1 := by
    norm_num [Plane.denom, dot]
  have hb : (Plane.Intersect { normal_ := ⟨0, 1, 0⟩, d_ := 5 }
      { origin := ⟨0, 1 / 1000, 0⟩, direction := ⟨0, 1, 0⟩ } 0 freshRecord).1 = true := by
    rw [plane_Intersect_fst_iff, ht, hd]
    refine ⟨by norm_num, by norm_num, by norm_num [freshRecord, FLT_MAX]⟩
  have hint : Plane.Intersect { normal_ := ⟨0, 1, 0⟩, d_ := 5 }
      { origin := ⟨0, 1 / 1000, 0⟩, direction := ⟨0, 1, 0⟩ } 0 freshRecord =
      (true, { time := 4999 / 1000, normal := ⟨0, 1, 0⟩ }) := by
    refine Prod.ext hb ?_
    rw [plane_Intersect_snd_of_true _ _ _ _ hb, ht]
  have hsq : ratSqrt (4999 / 1000 * (4999 / 1000)) = 4999 / 1000 :=
    ratSqrt_mul_self (4999 / 1000) (by norm_num)
  have hl : occluderPlane.localToWorld = Mat4.identity := rfl
  have hh : occluderPlane.hittable = .plane { normal_ := ⟨0, 1, 0⟩, d_ := 5 } := rfl
  simp only [candidate, referenceGlm, hl, hh, Hittable.Intersect, inverse4_identity,
    applyTransform_identity, ht0, hint, if_true]
  have hhit : ((Mat4.identity.mulVec (Vec4.ofVec3
      (Ray.At { origin := ⟨0, 1 / 1000, 0⟩, direction := ⟨0, 1, 0⟩ } (4999 / 1000)) 1)).xyz /
      (Mat4.identity.mulVec (Vec4.ofVec3
        (Ray.At { origin := ⟨0, 1 / 1000, 0⟩, direction := ⟨0, 1, 0⟩ } (4999 / 1000)) 1)).w
        : Vec3) = ⟨0, 5, 0⟩ := by
    norm_num [Ray.At, Mat4.mulVec, Vec4.ofVec3, Vec4.xyz, Mat4.identity, Vec3.add_x, Vec3.add_y,
      Vec3.add_z, Vec3.smul_x, Vec3.smul_y, Vec3.smul_z, Vec3.div_x, Vec3.div_y, Vec3.div_z,
      Vec3.ext_iff]
  rw [hhit]
  have hlen : length
      { sqrt := ratSqrt, inversesqrt := fun q => 1 / ratSqrt q,
        pow := fun base exponent => base ^ exponent.num.toNat, inverse4 := inverse4,
        applyTransform := applyTransform, freshRecord := freshRecord }
      ((⟨0, 5, 0⟩ : Vec3) - (⟨0, 1 / 1000, 0⟩ : Vec3)) = 4999 / 1000 := by
    have hdot : dot ((⟨0, 5, 0⟩ : Vec3) - (⟨0, 1 / 1000, 0⟩ : Vec3))
        ((⟨0, 5, 0⟩ : Vec3) - (⟨0, 1 / 1000, 0⟩ : Vec3)) = 4999 / 1000 * (4999 / 1000) := by
      norm_num [dot, Vec3.sub_x, Vec3.sub_y, Vec3.sub_z]
    show ratSqrt _ = _
    rw [hdot, hsq]
  rw [hlen]

/-- The point light at height `h > 0` straight above the origin, seen from the origin. -/
theorem GetIllumination_light_above (lc : LightComponent) (h : ℚ) (hh : 0 < h)
    (hlight : lc.light = .Point ⟨1, 1, 1⟩ ⟨1, 0, 0⟩)
    (hpos : lc.localToWorld.c3.xyz = ⟨0, h, 0⟩) :
    GetIllumination referenceGlm lc ⟨0, 0, 0⟩ =
      .ok { dir_to_light := ⟨0, 1, 0⟩, intensity := ⟨1 / (h * h), 1 / (h * h), 1 / (h * h)⟩,
            dist_to_light := h } := by
  have hne : h ≠ 0 := ne_of_gt hh
  have hv : (lc.localToWorld.c3.xyz - (⟨0, 0, 0⟩ : Vec3)) = ⟨0, h, 0⟩ := by
    rw [hpos]
    norm_num [Vec3.sub_x, Vec3.sub_y, Vec3.sub_z, Vec3.ext_iff]
  have hdot : dot (⟨0, h, 0⟩ : Vec3) ⟨0, h, 0⟩ = h * h := by
    norm_num [dot]
  have hsq : ratSqrt (h * h) = h := ratSqrt_mul_self h (le_of_lt hh)
  have hlen : length referenceGlm (⟨0, h, 0⟩ : Vec3) = h := by
    show ratSqrt _ = _
    rw [hdot, hsq]
  have hnorm : normalize referenceGlm (⟨0, h, 0⟩ : Vec3) = ⟨0, 1, 0⟩ := by
    show (⟨0, h, 0⟩ : Vec3) * (1 / ratSqrt (dot (⟨0, h, 0⟩ : Vec3) ⟨0, h, 0⟩)) = _
    rw [hdot, hsq]
    ext
    · norm_num [Vec3.muls_x]
    · rw [Vec3.muls_y]
      field_simp
    · norm_num [Vec3.muls_z]
  rw [GetIllumination_point_eq referenceGlm lc ⟨0, 0, 0⟩ ⟨1, 1, 1⟩ ⟨1, 0, 0⟩ hlight, hv, hlen,
    hnorm]
  congr 2
  ext <;> norm_num [Vec3.muls_x, Vec3.muls_y, Vec3.muls_z]

theorem inShadow_of_no_components (G : Glm) (T : Tracer) (hit_point light_dir : Vec3)
    (light_dist : ℚ) (h : T.tracing_components_ = []) :
    inShadow G T hit_point light_dir light_dist = false := by
  unfold inShadow
  simp only [h, List.any_nil, ite_self]

/-- The diffuse plus specular term of the white material at the origin, normal `(0, 1, 0)`,
for a light straight above with intensity `(s, s, s)`, `s ≥ 0`. -/
theorem phongTerm_white_above (view_dir : Vec3) (s : ℚ) :
    phongTerm referenceGlm ⟨0, 1, 0⟩ view_dir whiteMaterial ⟨0, 1, 0⟩ ⟨s, s, s⟩ = ⟨s, s, s⟩ := by
  unfold phongTerm
  have hd : dot (⟨0, 1, 0⟩ : Vec3) ⟨0, 1, 0⟩ = 1 := by norm_num [dot]
  rw [hd, max_eq_right (by norm_num : (0 : ℚ) ≤ 1)]
  ext <;> simp [whiteMaterial, Vec3.add_x, Vec3.add_y, Vec3.add_z, Vec3.smul_x, Vec3.smul_y,
    Vec3.smul_z, Vec3.mul_x, Vec3.mul_y, Vec3.mul_z]

theorem GetIllumination_highLight :
    GetIllumination referenceGlm highLight ⟨0, 0, 0⟩ =
      .ok { dir_to_light := ⟨0, 1, 0⟩, intensity := ⟨1 / 400, 1 / 400, 1 / 400⟩,
            dist_to_light := 20 } := by
  rw [GetIllumination_light_above highLight 20 (by norm_num) rfl rfl]
  norm_num

/-- C5 as stated fails: in the scene with the plane `y = 5` and the point lights at
`(0, 10, 0)` and `(0, 20, 0)`, shaded at the origin, the plane's test on the shadow ray of the
first light succeeds at distance `4999/1000 < 10 - kEpsilon`, and the returned color is the
ambient term `(1, 1, 1)` alone: the second light contributes nothing, because the same plane
occludes it too.  Without the plane the second light contributes `(1/400, 1/400, 1/400)`, and
the color computed without the plane and without the first light is
`(401/400, 401/400, 401/400)`. -/
theorem ComputePhongShading_occluder_shadows_other_light :
    twoLightShadowScene.light_components_ = [ambientLight, overheadLight, highLight] ∧
    twoLightShadowScene.shadows_enabled_ = true ∧
    GetIllumination referenceGlm overheadLight ⟨0, 0, 0⟩ =
      .ok { dir_to_light := ⟨0, 1, 0⟩, intensity := ⟨1 / 100, 1 / 100, 1 / 100⟩,
            dist_to_light := 10 } ∧
    (∃ comp ∈ twoLightShadowScene.tracing_components_, ∃ c : Candidate,
      candidate referenceGlm twoLightShadowScene
        { origin := (⟨0, 0, 0⟩ : Vec3) + kEpsilon * (⟨0, 1, 0⟩ : Vec3), direction := ⟨0, 1, 0⟩ }
        comp = some c ∧ c.world_dist < 10 - kEpsilon) ∧
    ComputePhongShading referenceGlm twoLightShadowScene ⟨0, 0, 0⟩ ⟨0, 1, 0⟩ ⟨0, -1, 0⟩
      whiteMaterial = .ok ⟨1, 1, 1⟩ ∧
    ambientSum whiteMaterial twoLightShadowScene.light_components_ = ⟨1, 1, 1⟩ ∧
    directSum referenceGlm twoLightShadowScene ⟨0, 0, 0⟩ ⟨0, 1, 0⟩
      (normalize referenceGlm (-(⟨0, -1, 0⟩ : Vec3))) whiteMaterial [highLight] = 0 ∧
    twoLightOpenScene =
      { twoLightShadowScene with
        tracing_components_ := []
        light_components_ := [ambientLight, highLight] } ∧
    directSum referenceGlm twoLightOpenScene ⟨0, 0, 0⟩ ⟨0, 1, 0⟩
      (normalize referenceGlm (-(⟨0, -1, 0⟩ : Vec3))) whiteMaterial [highLight]
        = ⟨1 / 400, 1 / 400, 1 / 400⟩ ∧
    ComputePhongShading referenceGlm twoLightOpenScene ⟨0, 0, 0⟩ ⟨0, 1, 0⟩ ⟨0, -1, 0⟩
      whiteMaterial = .ok ⟨401 / 400, 401 / 400, 401 / 400⟩ := by
  have hcand := candidate_occluderPlane twoLightShadowScene rfl
  have hocc10 : ∃ comp ∈ twoLightShadowScene.tracing_components_, ∃ c : Candidate,
      candidate referenceGlm twoLightShadowScene
        { origin := (⟨0, 0, 0⟩ : Vec3) + kEpsilon * (⟨0, 1, 0⟩ : Vec3), direction := ⟨0, 1, 0⟩ }
        comp = some c ∧ c.world_dist < 10 - kEpsilon :=
    ⟨_, List.mem_singleton.mpr rfl, _, hcand, by norm_num [kEpsilon]⟩
  have hocc20 : ∃ comp ∈ twoLightShadowScene.tracing_components_, ∃ c : Candidate,
      candidate referenceGlm twoLightShadowScene
        { origin := (⟨0, 0, 0⟩ : Vec3) + kEpsilon * (⟨0, 1, 0⟩ : Vec3), direction := ⟨0, 1, 0⟩ }
        comp = some c ∧ c.world_dist < 20 - kEpsilon :=
    ⟨_, List.mem_singleton.mpr rfl, _, hcand, by norm_num [kEpsilon]⟩
  have hsh10 : inShadow referenceGlm twoLightShadowScene ⟨0, 0, 0⟩ ⟨0, 1, 0⟩ 10 = true :=
    inShadow_of_occluder referenceGlm twoLightShadowScene _ _ _ rfl hocc10
  have hsh20 : inShadow referenceGlm twoLightShadowScene ⟨0, 0, 0⟩ ⟨0, 1, 0⟩ 20 = true :=
    inShadow_of_occluder referenceGlm twoLightShadowScene _ _ _ rfl hocc20
  have hopen : inShadow referenceGlm twoLightOpenScene ⟨0, 0, 0⟩ ⟨0, 1, 0⟩ 20 = false :=
    inShadow_of_no_components referenceGlm twoLightOpenScene _ _ _ rfl
  have hnaO : ∀ c, overheadLight.light ≠ .Ambient c := fun c h => Light.noConfusion h
  have hnaH : ∀ c, highLight.light ≠ .Ambient c := fun c h => Light.noConfusion h
  have hambS : ambientSum whiteMaterial [ambientLight, overheadLight, highLight] = ⟨1, 1, 1⟩ := by
    rw [ambientSum_cons_ambient whiteMaterial ambientLight _ ⟨1, 1, 1⟩ rfl,
      ambientSum_cons_other whiteMaterial overheadLight _ hnaO,
      ambientSum_cons_other whiteMaterial highLight _ hnaH, ambientSum_nil, Vec3_add_zero]
    ext <;> norm_num [whiteMaterial, Vec3.mul_x, Vec3.mul_y, Vec3.mul_z]
  have hambO : ambientSum whiteMaterial [ambientLight, highLight] = ⟨1, 1, 1⟩ := by
    rw [ambientSum_cons_ambient whiteMaterial ambientLight _ ⟨1, 1, 1⟩ rfl,
      ambientSum_cons_other whiteMaterial highLight _ hnaH, ambientSum_nil, Vec3_add_zero]
    ext <;> norm_num [whiteMaterial, Vec3.mul_x, Vec3.mul_y, Vec3.mul_z]
  have hdirH : directSum referenceGlm twoLightShadowScene ⟨0, 0, 0⟩ ⟨0, 1, 0⟩
      (normalize referenceGlm (-(⟨0, -1, 0⟩ : Vec3))) whiteMaterial [highLight] = 0 := by
    rw [directSum_cons_other referenceGlm twoLightShadowScene _ _ _ _ highLight [] _ hnaH
      GetIllumination_highLight, if_pos hsh20, directSum_nil]
  have hdirS : directSum referenceGlm twoLightShadowScene ⟨0, 0, 0⟩ ⟨0, 1, 0⟩
      (normalize referenceGlm (-(⟨0, -1, 0⟩ : Vec3))) whiteMaterial
      [ambientLight, overheadLight, highLight] = 0 := by
    rw [directSum_cons_ambient referenceGlm twoLightShadowScene _ _ _ _ ambientLight _
        ⟨1, 1, 1⟩ rfl,
      directSum_cons_other referenceGlm twoLightShadowScene _ _ _ _ overheadLight _ _ hnaO
        GetIllumination_overheadLight, if_pos hsh10, hdirH]
  have hdirO : directSum referenceGlm twoLightOpenScene ⟨0, 0, 0⟩ ⟨0, 1, 0⟩
      (normalize referenceGlm (-(⟨0, -1, 0⟩ : Vec3))) whiteMaterial [highLight]
        = ⟨1 / 400, 1 / 400, 1 / 400⟩ := by
    rw [directSum_cons_other referenceGlm twoLightOpenScene _ _ _ _ highLight [] _ hnaH
      GetIllumination_highLight, if_neg (by rw [hopen]; exact Bool.false_ne_true),
      directSum_nil, Vec3_add_zero]
    exact phongTerm_white_above _ _
  refine ⟨rfl, rfl, GetIllumination_overheadLight, hocc10, ?_, hambS, hdirH, rfl, hdirO, ?_⟩
  · rw [ComputePhongShading_eq_sums]
    have hl : twoLightShadowScene.light_components_ = [ambientLight, overheadLight, highLight] :=
      rfl
    rw [hl, hambS, hdirS, Vec3_add_zero]
  · rw [ComputePhongShading_eq_sums]
    have hl : twoLightOpenScene.light_components_ = [ambientLight, highLight] := rfl
    rw [hl, hambO,
      directSum_cons_ambient referenceGlm twoLightOpenScene _ _ _ _ ambientLight _ ⟨1, 1, 1⟩ rfl,
      hdirO]
    congr 1
    ext <;> norm_num [Vec3.add_x, Vec3.add_y, Vec3.add_z]

/-! ## Point-light illumination with an accurate square root -/

theorem normalize_eq_div_length (G : Glm) (hinv : ∀ q : ℚ, G.inversesqrt q = 1 / G.sqrt q)
    (v : Vec3) : normalize G v = v / length G v := by
  unfold normalize length
  rw [hinv]
  ext <;> simp only [Vec3.muls_x, Vec3.muls_y, Vec3.muls_z, Vec3.div_x, Vec3.div_y,
    Vec3.div_z, mul_one_div]

theorem diagonalLight_vector :
    diagonalLight.localToWorld.c3.xyz - (⟨0, 0, 0⟩ : Vec3) = ⟨1, 1, 0⟩ := by
  norm_num [diagonalLight, Vec4.xyz, Vec3.sub_x, Vec3.sub_y, Vec3.sub_z, Vec3.ext_iff]

theorem rat_mul_self_ne_two (d : ℚ) : d * d ≠ 2 := by
  intro h
  have habs : |d| * |d| = 2 := by
    rw [abs_mul_abs_self, h]
  have hreal : ((|d| : ℚ) : ℝ) * ((|d| : ℚ) : ℝ) = 2 := by
    exact_mod_cast habs
  have hnn : (0 : ℝ) ≤ ((|d| : ℚ) : ℝ) := by exact_mod_cast abs_nonneg d
  have hsqrt : Real.sqrt 2 = ((|d| : ℚ) : ℝ) := by
    rw [← hreal, Real.sqrt_mul_self hnn]
  exact irrational_sqrt_two ⟨|d|, hsqrt.symm⟩

theorem dot_diagonal_scaled_ne_one (s : ℚ) :
    dot ((⟨1, 1, 0⟩ : Vec3) * s) ((⟨1, 1, 0⟩ : Vec3) * s) ≠ 1 := by
  intro h
  have h2 : (2 * s) * (2 * s) = 2 := by
    simp only [dot, Vec3.muls_x, Vec3.muls_y, Vec3.muls_z] at h
    linarith
  exact rat_mul_self_ne_two _ h2

theorem decimalSqrt_two : decimalSqrt 2 = 1414213 / 1000000 := by
  have hs : Nat.sqrt 2000000000000 = 1414213 :=
    (Nat.eq_sqrt.mpr ⟨by norm_num, by norm_num⟩).symm
  have hnum : ((2 : ℚ).num.toNat * (2 : ℚ).den * 10 ^ 12) = 2000000000000 := by
    have h2 : (2 : ℚ).num.toNat = 2 := rfl
    have hd : (2 : ℚ).den = 1 := rfl
    rw [h2, hd]
    norm_num
  unfold decimalSqrt
  rw [hnum, hs]
  norm_num

/-- C13 as stated fails: for the point light at `L = (1, 1, 0)` with `alpha = 1 > 0` and the
shading point `p = (0, 0, 0) ≠ L`, the squared length of `L - p` is 2, which is not the square
of a rational number, so whatever the square root and the inverse square root return, the
returned distance `d` has `d * d ≠ 2` and the returned direction does not have squared
length 1.  With the square root `decimalSqrt` the distance is `1.414213` and the direction is
`(1, 1, 0) / 1.414213`. -/
theorem GetIllumination_diagonal_not_unit :
    diagonalLight.light = .Point ⟨1, 1, 1⟩ ⟨1, 0, 0⟩ ∧
    (⟨0, 0, 0⟩ : Vec3) ≠ diagonalLight.localToWorld.c3.xyz ∧
    dot (diagonalLight.localToWorld.c3.xyz - (⟨0, 0, 0⟩ : Vec3))
      (diagonalLight.localToWorld.c3.xyz - (⟨0, 0, 0⟩ : Vec3)) = 2 ∧
    (∀ G : Glm, ∃ i : Illumination, GetIllumination G diagonalLight ⟨0, 0, 0⟩ = .ok i ∧
      i.dist_to_light * i.dist_to_light ≠ 2 ∧
      dot i.dir_to_light i.dir_to_light ≠ 1) ∧
    GetIllumination accurateGlm diagonalLight ⟨0, 0, 0⟩ =
      .ok { dir_to_light := ⟨1000000 / 1414213, 1000000 / 1414213, 0⟩
            intensity := (⟨1, 1, 1⟩ : Vec3)
              * (1 / ((1 : ℚ) * (1414213 / 1000000) * (1414213 / 1000000)))
            dist_to_light := 1414213 / 1000000 } := by
  have hp : (⟨0, 0, 0⟩ : Vec3) ≠ diagonalLight.localToWorld.c3.xyz := by
    intro h
    have hx := congrArg Vec3.x h
    norm_num [diagonalLight, Vec4.xyz] at hx
  have hdot : dot (diagonalLight.localToWorld.c3.xyz - (⟨0, 0, 0⟩ : Vec3))
      (diagonalLight.localToWorld.c3.xyz - (⟨0, 0, 0⟩ : Vec3)) = 2 := by
    rw [diagonalLight_vector]
    norm_num [dot]
  refine ⟨rfl, hp, hdot, ?_, ?_⟩
  · intro G
    refine ⟨_, GetIllumination_point_eq G diagonalLight ⟨0, 0, 0⟩ ⟨1, 1, 1⟩ ⟨1, 0, 0⟩ rfl,
      rat_mul_self_ne_two _, ?_⟩
    show dot (normalize G (diagonalLight.localToWorld.c3.xyz - (⟨0, 0, 0⟩ : Vec3)))
      (normalize G (diagonalLight.localToWorld.c3.xyz - (⟨0, 0, 0⟩ : Vec3))) ≠ 1
    rw [diagonalLight_vector]
    exact dot_diagonal_scaled_ne_one _
  · rw [GetIllumination_point_eq accurateGlm diagonalLight ⟨0, 0, 0⟩ ⟨1, 1, 1⟩ ⟨1, 0, 0⟩ rfl]
    have hlen : length accurateGlm (diagonalLight.localToWorld.c3.xyz - (⟨0, 0, 0⟩ : Vec3))
        = 1414213 / 1000000 := by
      show decimalSqrt _ = _
      rw [hdot, decimalSqrt_two]
    have hnorm : normalize accurateGlm
        (diagonalLight.localToWorld.c3.xyz - (⟨0, 0, 0⟩ : Vec3))
        = ⟨1000000 / 1414213, 1000000 / 1414213, 0⟩ := by
      rw [normalize_eq_div_length accurateGlm (fun _ => rfl), hlen, diagonalLight_vector]
      ext <;> norm_num [Vec3.div_x, Vec3.div_y, Vec3.div_z]
    rw [hlen, hnorm]

end GLOO
